import Mathlib

/-!
Stock-and-fabric ledger of the ethnic-qr-scanner backend.

A shallow embedding of `src/routes/inventory.js` (the `PATCH /:productId/stock`
handler), of the pre-save hooks of `src/models/Product.js` and
`src/models/Fabric.js`, of the schema validation of
`src/models/InventoryTransaction.js`, and of `authenticateOwner` of
`src/middleware/auth.js`.

Modelling conventions
* JavaScript numbers are integers (`Int`); a numeric field is always present, so
  `x || d` on a number is `jsOr x d` (the default is taken exactly when `x` is `0`).
* A collection is a list of documents; `findOne` returns the first document with the
  key, `save` runs the pre-save hooks and writes the document back in its place.
* `new Date()` / `Date.now()` read the clock of the environment `Env`.
* Saving a Product or a Fabric succeeds; saving an audit record (FabricTransaction,
  InventoryTransaction) can throw, which the handler catches: the environment says
  whether the store accepts the record.
* Enumerated strings (`status`, `type`, `reason`, `operation`) are the strings of the source.
* The call `jwt.verify(token, secret)` is a parameter of `authenticateOwner`.
* Console output is not modelled; interpolated messages are kept as their arguments.
-/

namespace Ledger

/-! ## JavaScript helpers -/

/-- The expression `x || d` on numbers: `0` is the only falsy number. -/
def jsOr (x d : Int) : Int := if x = 0 then d else x

/-- The expression `x || d` on an optional number (`undefined` and `0` are falsy). -/
def numOr (x : Option Int) (d : Int) : Int :=
  match x with
  | some n => if n = 0 then d else n
  | none => d

/-- The expression `x || d` on an optional string (`undefined` and `''` are falsy). -/
def strOr (x : Option String) (d : String) : String :=
  match x with
  | some s => if s = "" then d else s
  | none => d

/-- The truthy content of an optional string: `if (size)` holds exactly when this is `some`. -/
def truthy (x : Option String) : Option String :=
  match x with
  | some s => if s = "" then none else some s
  | none => none

/-- The function `Math.max(0, x)`. -/
def mathMax0 (x : Int) : Int := if x < 0 then 0 else x

/-- The function `Math.abs`. -/
def mathAbs (x : Int) : Int := if x < 0 then -x else x

/-! ## Data model -/

/-- One entry of `Product.sizeStock`. -/
structure SizeEntry where
  size : String
  stock : Int
  deriving DecidableEq, Repr

/-- One bill-of-materials line of `Product.fabricUsed`. -/
structure FabricUsage where
  fabricId : String
  metersUsed : Int
  deriving DecidableEq, Repr

/-- The fields of a Product document that the ledger reads or writes. -/
structure Product where
  productId : String
  name : String
  category : String
  stock : Int
  reservedStock : Int
  lowStockAlert : Int
  costPrice : Int
  sizeStock : List SizeEntry
  fabricUsed : List FabricUsage
  status : String
  lastRestocked : Option Nat
  restockQuantity : Option Int
  isActive : Bool
  isVariant : Bool
  variantOf : Option String
  updatedAt : Nat
  deriving DecidableEq, Repr

/-- One entry of `Fabric.usedInProducts`. -/
structure UsedInProduct where
  productId : String
  productName : String
  productCategory : String
  metersUsed : Int
  usedAt : Nat
  deriving DecidableEq, Repr

/-- The fields of a Fabric document that the ledger reads or writes. -/
structure Fabric where
  fabricId : String
  name : String
  currentStock : Int
  lowStockAlert : Int
  costPerMeter : Int
  usedInProducts : List UsedInProduct
  status : String
  deriving DecidableEq, Repr

/-- A FabricTransaction record; `notes` is kept as the two values it interpolates. -/
structure FabricTransaction where
  fabricId : String
  type : String
  quantity : Int
  previousStock : Int
  newStock : Int
  reference : String
  notesProductName : String
  notesQuantity : Int
  costPerMeter : Int
  totalValue : Int
  performedBy : String
  deriving DecidableEq, Repr

/-- An InventoryTransaction record. -/
structure InventoryTransaction where
  productId : String
  size : Option String
  type : String
  quantity : Int
  previousStock : Int
  newStock : Int
  reason : String
  notes : Option String
  costPerUnit : Int
  totalValue : Int
  performedBy : String
  deriving DecidableEq, Repr

/-- The four collections of the ledger store. -/
structure State where
  products : List Product
  fabrics : List Fabric
  fabricTxs : List FabricTransaction
  inventoryTxs : List InventoryTransaction
  deriving DecidableEq, Repr

/-- What the handler cannot decide by itself: the clock and whether the store accepts
an audit record (the save of the FabricTransaction of bill-of-materials line `i`, and
the save of the InventoryTransaction). -/
structure Env where
  now : Nat
  fabricTxPersists : Nat → Bool
  inventoryTxPersists : Bool

/-- The decoded token that `authenticateOwner` leaves in `req.user`. -/
structure User where
  role : Option String
  deriving DecidableEq, Repr

/-- A stock update request: `req.user`, `req.params.productId` and `req.body`. -/
structure Request where
  user : Option User
  productId : String
  operation : String
  quantity : Int
  reason : Option String
  notes : Option String
  costPerUnit : Option Int
  size : Option String
  deriving DecidableEq, Repr

/-- One element of the `shortages` array, kept as the values its message interpolates. -/
inductive Shortage where
  | notFound (fabricId : String)
  | insufficient (name fabricId : String) (requiredMeters currentStock : Int)
  deriving DecidableEq, Repr

/-- The answers of the stock update handler. -/
inductive Response where
  | authenticationRequired
  | productNotFound
  | notEnoughFabric (shortages : List Shortage)
  | invalidOperation
  | notEnoughSizeStock (size : String) (available requested : Int)
  | reservation (product : Product)
  | stockUpdated (product : Product) (newStock : Int)
  | serverError
  deriving DecidableEq, Repr

/-! ## Model hooks (`src/models`) -/

/-- First pre-save hook of `productSchema`: status from the stock level. -/
def productPreSave1 (p : Product) : Product :=
  if p.stock = 0 then { p with status := "out_of_stock" }
  else if p.stock ≤ p.lowStockAlert then { p with status := "low_stock" }
  else { p with status := "in_stock" }

/-- Second pre-save hook of `productSchema`: the timestamp. -/
def productPreSave2 (now : Nat) (p : Product) : Product :=
  { p with updatedAt := now }

/-- Third pre-save hook of `productSchema`: status, timestamp and the variant flag. -/
def productPreSave3 (now : Nat) (p : Product) : Product :=
  let p1 : Product :=
    if p.stock = 0 then { p with status := "out_of_stock" }
    else if p.stock ≤ p.lowStockAlert then { p with status := "low_stock" }
    else { p with status := "in_stock" }
  let p2 : Product := { p1 with updatedAt := now }
  if p2.isVariant = true ∧ truthy p2.variantOf = none then { p2 with isVariant := false } else p2

/-- The three pre-save hooks of `productSchema`, in registration order. -/
def productPreSave (now : Nat) (p : Product) : Product :=
  productPreSave3 now (productPreSave2 now (productPreSave1 p))

/-- The pre-save hook of `fabricSchema`. -/
def fabricPreSave (f : Fabric) : Fabric :=
  if f.currentStock = 0 then { f with status := "out_of_stock" }
  else if f.currentStock ≤ f.lowStockAlert then { f with status := "low_stock" }
  else { f with status := "available" }

/-- The `reason` enum of `inventoryTransactionSchema`. -/
def inventoryReasons : List String :=
  ["purchase", "sale", "return", "damaged", "lost", "adjustment", "initial_stock",
   "manual_adjustment", "production"]

/-- Schema validation of an InventoryTransaction at save time. -/
def inventoryTxValid (t : InventoryTransaction) : Bool :=
  inventoryReasons.contains t.reason

/-! ## Collections -/

/-- The query `Product.findOne({ productId })`. -/
def findProduct (products : List Product) (productId : String) : Option Product :=
  products.find? (fun p => p.productId == productId)

/-- The query `Fabric.findOne({ fabricId })`. -/
def findFabric (fabrics : List Fabric) (fabricId : String) : Option Fabric :=
  fabrics.find? (fun f => f.fabricId == fabricId)

/-- Write a product document back in the place it was found. -/
def writeProduct : List Product → Product → List Product
  | [], _ => []
  | d :: rest, p =>
    if d.productId == p.productId then p :: rest else d :: writeProduct rest p

/-- Write a fabric document back in the place it was found. -/
def writeFabric : List Fabric → Fabric → List Fabric
  | [], _ => []
  | d :: rest, f =>
    if d.fabricId == f.fabricId then f :: rest else d :: writeFabric rest f

/-! ## The stock update handler (`src/routes/inventory.js`, lines 87-280) -/

/-- Body of the first loop (lines 113-126): one bill-of-materials line is checked
against the fabric store and a shortage is pushed when the fabric is missing or short. -/
def checkLine (fabrics : List Fabric) (quantity : Int) (shortages : List Shortage)
    (usage : FabricUsage) : List Shortage :=
  match findFabric fabrics usage.fabricId with
  | none => shortages ++ [Shortage.notFound usage.fabricId]
  | some fabric =>
    let requiredMeters := jsOr usage.metersUsed 0 * quantity
    if fabric.currentStock < requiredMeters then
      shortages ++ [Shortage.insufficient fabric.name fabric.fabricId requiredMeters
        fabric.currentStock]
    else shortages

/-- First pass (lines 110-126): the `shortages` array after the loop. -/
def validationPass (fabrics : List Fabric) (quantity : Int) (fabricUsage : List FabricUsage) :
    List Shortage :=
  fabricUsage.foldl (checkLine fabrics quantity) []

/-- Second pass (lines 137-174) from bill-of-materials line `i` on: each line reads its
fabric, deducts the required meters, pushes a `usedInProducts` entry, saves the fabric and
tries to save a FabricTransaction. The flag is `false` when a line threw (its fabric was
not found, so reading `fabric.currentStock` fails); the store is then as the earlier
lines left it. -/
def commitPass (env : Env) (user : User) (product : Product) (quantity : Int) :
    List FabricUsage → Nat → List Fabric → List FabricTransaction →
      Bool × List Fabric × List FabricTransaction
  | [], _, fabrics, txs => (true, fabrics, txs)
  | usage :: rest, i, fabrics, txs =>
    match findFabric fabrics usage.fabricId with
    | none => (false, fabrics, txs)
    | some fabric =>
      let requiredMeters := jsOr usage.metersUsed 0 * quantity
      let previousFabricStock := fabric.currentStock
      let fabric1 : Fabric :=
        { fabric with
          currentStock := previousFabricStock - requiredMeters
          usedInProducts := fabric.usedInProducts ++
            [{ productId := product.productId
               productName := product.name
               productCategory := product.category
               metersUsed := requiredMeters
               usedAt := env.now }] }
      let saved := fabricPreSave fabric1
      let fabricTx : FabricTransaction :=
        { fabricId := saved.fabricId
          type := "usage"
          quantity := requiredMeters
          previousStock := previousFabricStock
          newStock := saved.currentStock
          reference := product.productId
          notesProductName := product.name
          notesQuantity := quantity
          costPerMeter := saved.costPerMeter
          totalValue := saved.costPerMeter * requiredMeters
          performedBy := strOr user.role "owner" }
      commitPass env user product quantity rest (i + 1) (writeFabric fabrics saved)
        (if env.fabricTxPersists i = true then txs ++ [fabricTx] else txs)

/-- Step 1 of the handler (lines 105-176): for a production request the fabric is
checked and consumed. The answer is `some` when the handler returns here. -/
def consumeFabric (env : Env) (user : User) (product : Product) (req : Request) (st : State) :
    Option Response × State :=
  if req.operation = "add" ∧ req.reason = some "production" then
    let fabricUsage := product.fabricUsed
    if fabricUsage.length > 0 then
      let shortages := validationPass st.fabrics req.quantity fabricUsage
      if shortages.length > 0 then (some (Response.notEnoughFabric shortages), st)
      else
        match commitPass env user product req.quantity fabricUsage 0 st.fabrics st.fabricTxs with
        | (true, fabrics, txs) => (none, { st with fabrics := fabrics, fabricTxs := txs })
        | (false, fabrics, txs) =>
          (some Response.serverError, { st with fabrics := fabrics, fabricTxs := txs })
    else (none, st)
  else (none, st)

/-- Assignment `sizeEntry.stock = newSizeStock` on the stored entry that `find` returned
(the first one with the size). -/
def setSizeStock : List SizeEntry → String → Int → List SizeEntry
  | [], _, _ => []
  | e :: rest, size, stock =>
    if e.size == size then { e with stock := stock } :: rest
    else e :: setSizeStock rest size stock

/-- Per-size update (lines 203-237) for a truthy `size`: the new `sizeStock`, or the
answer of the failing `subtract`. `product.sizeStock` is a document array
(`src/models/Product.js`, lines 100-105). `find` returns the stored entry, and the
assignment of line 237 writes it. `push` stores a copy of the plain object
`{ size, stock: 0 }`, so for a size with no entry the assignment of line 237 changes the
plain object only and the stored bucket keeps `stock: 0`. -/
def updateSizeStock (operation : String) (quantity : Int) (size : String)
    (sizeStock : List SizeEntry) : Except Response (List SizeEntry) :=
  let found := sizeStock.find? (fun s => s.size == size)
  let sizeEntry : SizeEntry := match found with
    | some e => e
    | none => { size := size, stock := 0 }
  let sizeStock1 := match found with
    | some _ => sizeStock
    | none => sizeStock ++ [sizeEntry]
  let prevSizeStock := jsOr sizeEntry.stock 0
  let assign := fun (newSizeStock : Int) => match found with
    | some _ => setSizeStock sizeStock1 size newSizeStock
    | none => sizeStock1
  if operation = "add" then
    Except.ok (assign (prevSizeStock + quantity))
  else if operation = "subtract" then
    if prevSizeStock < quantity then
      Except.error (Response.notEnoughSizeStock size prevSizeStock quantity)
    else Except.ok (assign (prevSizeStock - quantity))
  else if operation = "set" then
    Except.ok (assign quantity)
  else Except.ok (assign prevSizeStock)

/-- The InventoryTransaction built at lines 252-264. -/
def inventoryTx (user : User) (product : Product) (req : Request)
    (previousStock newStock : Int) : InventoryTransaction :=
  { productId := product.productId
    size := truthy req.size
    type := if req.operation = "add" then "in" else "out"
    quantity := mathAbs req.quantity
    previousStock := previousStock
    newStock := newStock
    reason := strOr req.reason "manual_adjustment"
    notes := req.notes
    costPerUnit := numOr req.costPerUnit product.costPrice
    totalValue := numOr req.costPerUnit product.costPrice * req.quantity
    performedBy := strOr user.role "owner" }

/-- Lines 201-238: the per-size update of the in-memory product when `size` is truthy,
or the answer of the failing `subtract`. -/
def applySize (req : Request) (product : Product) : Except Response Product :=
  match truthy req.size with
  | some size =>
    match updateSizeStock req.operation req.quantity size product.sizeStock with
    | Except.ok sizeStock => Except.ok { product with sizeStock := sizeStock }
    | Except.error response => Except.error response
  | none => Except.ok product

/-- Lines 240-247: the aggregate stock is written, an `add` stamps `lastRestocked` and
`restockQuantity`, and the product is saved; the result is the saved document. -/
def savedProduct (env : Env) (req : Request) (product1 : Product) (newStock : Int) : Product :=
  let product2 : Product := { product1 with stock := newStock }
  let product3 : Product :=
    if req.operation = "add" then
      { product2 with lastRestocked := some env.now, restockQuantity := some req.quantity }
    else product2
  productPreSave env.now product3

/-- Lines 201-274 for `add`, `subtract` and `set`: the per-size update, the write of the
aggregate stock, the save of the product and the audit record. -/
def commitStock (env : Env) (user : User) (product : Product) (req : Request)
    (previousStock newStock : Int) (st : State) : Response × State :=
  match applySize req product with
  | Except.error response => (response, st)
  | Except.ok product1 =>
    let saved := savedProduct env req product1 newStock
    let transaction := inventoryTx user saved req previousStock newStock
    (Response.stockUpdated saved newStock,
     { st with
       products := writeProduct st.products saved
       inventoryTxs :=
         if inventoryTxValid transaction = true ∧ env.inventoryTxPersists = true then
           st.inventoryTxs ++ [transaction]
         else st.inventoryTxs })

/-- Step 2 of the handler (lines 178-274): the `switch` on the operation and what
follows it. -/
def mutateStock (env : Env) (user : User) (product : Product) (req : Request)
    (previousStock : Int) (st : State) : Response × State :=
  if req.operation = "add" then
    commitStock env user product req previousStock (previousStock + req.quantity) st
  else if req.operation = "subtract" then
    commitStock env user product req previousStock
      (mathMax0 (previousStock - req.quantity)) st
  else if req.operation = "set" then
    commitStock env user product req previousStock req.quantity st
  else if req.operation = "reserve" then
    let saved := productPreSave env.now
      { product with reservedStock := jsOr product.reservedStock 0 + req.quantity }
    (Response.reservation saved, { st with products := writeProduct st.products saved })
  else if req.operation = "release" then
    let saved := productPreSave env.now
      { product with
        reservedStock := mathMax0 (jsOr product.reservedStock 0 - req.quantity) }
    (Response.reservation saved, { st with products := writeProduct st.products saved })
  else (Response.invalidOperation, st)

/-- The handler `router.patch('/:productId/stock', authenticateOwner, ...)`: the answer
and the store after the request. -/
def patchStock (env : Env) (st : State) (req : Request) : Response × State :=
  match req.user with
  | none => (Response.authenticationRequired, st)
  | some user =>
    match findProduct st.products req.productId with
    | none => (Response.productNotFound, st)
    | some product =>
      let previousStock := jsOr product.stock 0
      match consumeFabric env user product req st with
      | (some response, st1) => (response, st1)
      | (none, st1) => mutateStock env user product req previousStock st1

/-- A sequence of requests served one after the other, each under its own environment:
the answers in order and the store after the last one. -/
def runRequests (st : State) : List (Env × Request) → List Response × State
  | [] => ([], st)
  | (env, req) :: rest =>
    let served := patchStock env st req
    let later := runRequests served.2 rest
    (served.1 :: later.1, later.2)

/-! ## The authentication middleware (`src/middleware/auth.js`) -/

/-- The first occurrence of `pattern` in a list of characters is replaced. -/
def replaceFirstChars (pattern replacement : List Char) : List Char → List Char
  | [] => if pattern = [] then replacement else []
  | c :: cs =>
    if pattern.isPrefixOf (c :: cs) = true then
      replacement ++ (c :: cs).drop pattern.length
    else c :: replaceFirstChars pattern replacement cs

/-- The method `String.prototype.replace` with a string pattern: the first occurrence only. -/
def jsReplace (s pattern replacement : String) : String :=
  String.mk (replaceFirstChars pattern.data replacement.data s.data)

/-- The middleware `authenticateOwner`: the value it leaves in `req.user`. The
`Authorization` header may be absent; `verify` stands for `jwt.verify` with the secret of
the process and is `none` when `jwt.verify` throws. -/
def authenticateOwner (verify : String → Option User) (authorization : Option String) :
    Option User :=
  let token := authorization.map (fun header => jsReplace header "Bearer " "")
  match truthy token with
  | none => none
  | some token => verify token

/-- The route `router.patch('/:productId/stock', authenticateOwner, handler)`: the
middleware fills `req.user`, then the handler runs. -/
def stockRoute (verify : String → Option User) (env : Env) (st : State)
    (authorization : Option String) (req : Request) : Response × State :=
  patchStock env st { req with user := authenticateOwner verify authorization }

/-- Lines 140-154 for one bill-of-materials line whose fabric was found: the fabric
document that the line saves. -/
def deductLine (now : Nat) (product : Product) (quantity : Int) (usage : FabricUsage)
    (fabric : Fabric) : Fabric :=
  fabricPreSave
    { fabric with
      currentStock := fabric.currentStock - jsOr usage.metersUsed 0 * quantity
      usedInProducts := fabric.usedInProducts ++
        [{ productId := product.productId
           productName := product.name
           productCategory := product.category
           metersUsed := jsOr usage.metersUsed 0 * quantity
           usedAt := now }] }

/-- Lines 157-168 for one bill-of-materials line whose fabric was found: the
FabricTransaction that the line builds, from the fabric as it was read. -/
def usageRecord (now : Nat) (user : User) (product : Product) (quantity : Int)
    (usage : FabricUsage) (fabric : Fabric) : FabricTransaction :=
  { fabricId := (deductLine now product quantity usage fabric).fabricId
    type := "usage"
    quantity := jsOr usage.metersUsed 0 * quantity
    previousStock := fabric.currentStock
    newStock := (deductLine now product quantity usage fabric).currentStock
    reference := product.productId
    notesProductName := product.name
    notesQuantity := quantity
    costPerMeter := (deductLine now product quantity usage fabric).costPerMeter
    totalValue := (deductLine now product quantity usage fabric).costPerMeter *
      (jsOr usage.metersUsed 0 * quantity)
    performedBy := strOr user.role "owner" }

/-- The fabric store after the second pass has gone through `lines`. -/
def fabricsAfter (env : Env) (user : User) (product : Product) (quantity : Int)
    (lines : List FabricUsage) (fabrics : List Fabric) : List Fabric :=
  (commitPass env user product quantity lines 0 fabrics []).2.1

/-- The answer is the success answer of `add`, `subtract` and `set`. -/
def Response.isStockUpdated : Response → Bool
  | Response.stockUpdated _ _ => true
  | _ => false

/-- The product document that an answer carries, if it carries one. -/
def Response.product? : Response → Option Product
  | Response.stockUpdated product _ => some product
  | Response.reservation product => some product
  | _ => none

/-! ## The stock overview (`src/routes/inventory.js`, lines 10-51) -/

/-- One element of `overview.stockStatus`. -/
structure StockStatusEntry where
  productId : String
  name : String
  stock : Int
  status : String
  availableStock : Int
  deriving DecidableEq, Repr

/-- The object `overview` that `GET /overview` answers with. -/
structure Overview where
  totalProducts : Nat
  totalStockValue : Int
  totalItems : Int
  outOfStock : Nat
  lowStock : Nat
  inStock : Nat
  stockStatus : List StockStatusEntry
  deriving DecidableEq, Repr

/-- The answers of the overview handler. -/
inductive OverviewResponse where
  | authenticationRequired
  | overview (overview : Overview)
  deriving DecidableEq, Repr

/-- The element of `stockStatus` built for one product (lines 34-41). -/
def stockStatusEntry (p : Product) : StockStatusEntry :=
  { productId := p.productId
    name := p.name
    stock := jsOr p.stock 0
    status :=
      if p.stock = 0 then "out_of_stock"
      else if p.stock ≤ jsOr p.lowStockAlert 5 then "low_stock"
      else "in_stock"
    availableStock := mathMax0 (jsOr p.stock 0 - jsOr p.reservedStock 0) }

/-- The statistics of lines 17-42 over the store's products: the active products are
read, counted by three filters, summed by two `reduce` calls and mapped to `stockStatus`. -/
def computeOverview (allProducts : List Product) : Overview :=
  let products := allProducts.filter (fun p => p.isActive)
  let outOfStock := (products.filter (fun p => decide (p.stock = 0))).length
  let lowStock := (products.filter
    (fun p => decide (p.stock > 0) && decide (p.stock ≤ jsOr p.lowStockAlert 5))).length
  let inStock := (products.filter (fun p => decide (p.stock > jsOr p.lowStockAlert 5))).length
  { totalProducts := products.length
    totalStockValue :=
      products.foldl (fun sum product => sum + product.stock * jsOr product.costPrice 0) 0
    totalItems := products.foldl (fun sum product => sum + jsOr product.stock 0) 0
    outOfStock := outOfStock
    lowStock := lowStock
    inStock := inStock
    stockStatus := products.map stockStatusEntry }

/-- The handler `router.get('/overview', authenticateOwner, ...)` after the middleware:
the answer and the store after the request. -/
def getOverview (user : Option User) (st : State) : OverviewResponse × State :=
  match user with
  | none => (OverviewResponse.authenticationRequired, st)
  | some _ => (OverviewResponse.overview (computeOverview st.products), st)

/-! ## Specification-side definitions -/

/-- A bill-of-materials line is short for a quantity: its fabric is missing, or the fabric
holds less than `metersUsed * quantity`. -/
def lineShort (fabrics : List Fabric) (quantity : Int) (usage : FabricUsage) : Bool :=
  match findFabric fabrics usage.fabricId with
  | none => true
  | some fabric => decide (fabric.currentStock < usage.metersUsed * quantity)

/-- The shortage descriptor owed to a short bill-of-materials line. -/
def shortageOf (fabrics : List Fabric) (quantity : Int) (usage : FabricUsage) : Shortage :=
  match findFabric fabrics usage.fabricId with
  | none => Shortage.notFound usage.fabricId
  | some fabric =>
    Shortage.insufficient fabric.name fabric.fabricId (usage.metersUsed * quantity)
      fabric.currentStock

/-- What a size bucket holds; a bucket that does not exist counts as 0. -/
def sizeBucket (sizeStock : List SizeEntry) (size : String) : Int :=
  match sizeStock.find? (fun s => s.size == size) with
  | some entry => entry.stock
  | none => 0

/-- The three-tier status derivation of the specification: `out_of_stock` at 0,
`low_stock` when `0 < stock ≤ lowStockAlert`, `in_stock` otherwise. -/
def deriveStatus (stock lowStockAlert : Int) : String :=
  if stock = 0 then "out_of_stock"
  else if 0 < stock ∧ stock ≤ lowStockAlert then "low_stock"
  else "in_stock"

/-- The three-tier derivation with the top tier named as `fabricSchema` names it. -/
def deriveFabricStatus (currentStock lowStockAlert : Int) : String :=
  if currentStock = 0 then "out_of_stock"
  else if 0 < currentStock ∧ currentStock ≤ lowStockAlert then "low_stock"
  else "available"

/-- The meters of fabric `fabricId` that a bill of materials asks for at a quantity: the
sum of `metersUsed * quantity` over the lines that reference the fabric. -/
def consumedMeters (fabricUsed : List FabricUsage) (quantity : Int) (fabricId : String) : Int :=
  ((fabricUsed.filter (fun usage => usage.fabricId == fabricId)).map
    (fun usage => usage.metersUsed * quantity)).sum

/-- The signed delta of a request: `+quantity` for `add`, `-quantity` otherwise. -/
def signedDelta (req : Request) : Int :=
  if req.operation = "add" then req.quantity else -req.quantity

/-- One step of the clamped running total: `add` adds, `subtract` subtracts and clamps at
zero when it is applied. -/
def clampedStep (stock : Int) (req : Request) : Int :=
  if req.operation = "add" then stock + req.quantity else max 0 (stock - req.quantity)

/-- The aggregate stock of product `productId` in a store, if the product exists. -/
def stockOf (st : State) (productId : String) : Option Int :=
  (findProduct st.products productId).map (fun p => p.stock)

/-- The non-negativity invariant of a product document: aggregate stock, reserved stock
and every size bucket are `≥ 0`. -/
def nonNegative (p : Product) : Prop :=
  0 ≤ p.stock ∧ 0 ≤ p.reservedStock ∧ ∀ entry ∈ p.sizeStock, 0 ≤ entry.stock

instance (p : Product) : Decidable (nonNegative p) := by
  unfold nonNegative
  infer_instance

/-- Of the records built for the lines from index `i` on, those whose save the store
accepts, in order. -/
def keepPersisted (persists : Nat → Bool) : Nat → List FabricTransaction →
    List FabricTransaction
  | _, [] => []
  | i, t :: ts =>
    if persists i = true then t :: keepPersisted persists (i + 1) ts
    else keepPersisted persists (i + 1) ts

/-- The `usedInProducts` entry owed to a bill-of-materials line. -/
def usedEntry (env : Env) (product : Product) (quantity : Int) (usage : FabricUsage) :
    UsedInProduct :=
  { productId := product.productId
    productName := product.name
    productCategory := product.category
    metersUsed := usage.metersUsed * quantity
    usedAt := env.now }

/-- The number of `usedInProducts` entries in a fabric store. -/
def usedInProductsCount (fabrics : List Fabric) : Nat :=
  (fabrics.map (fun f => f.usedInProducts.length)).sum

/-- The number of bill-of-materials lines, out of the first `n`, whose FabricTransaction
the store accepts. -/
def persistedCount (env : Env) (n : Nat) : Nat :=
  (List.range n).countP (fun i => env.fabricTxPersists i)

/-- The sum of the size buckets of a product. -/
def sizeTotal (sizeStock : List SizeEntry) : Int :=
  (sizeStock.map (fun entry => entry.stock)).sum

/-! ## Sample data -/

/-- An environment in which every audit record is stored; the clock reads 7. -/
def sampleEnv : Env :=
  { now := 7, fabricTxPersists := fun _ => true, inventoryTxPersists := true }

/-- Fabric F1 holding `stock` meters. -/
def sampleFabric (stock : Int) : Fabric :=
  { fabricId := "F1", name := "Silk", currentStock := stock, lowStockAlert := 10,
    costPerMeter := 100, usedInProducts := [], status := "available" }

/-- Fabric F2 holding `stock` meters. -/
def sampleLining (stock : Int) : Fabric :=
  { fabricId := "F2", name := "Lining", currentStock := stock, lowStockAlert := 10,
    costPerMeter := 40, usedInProducts := [], status := "available" }

/-- Product P with the given aggregate stock and bill of materials; size M holds 2. -/
def sampleProduct (stock : Int) (fabricUsed : List FabricUsage) : Product :=
  { productId := "P", name := "Kurta", category := "Jodhpuri", stock := stock,
    reservedStock := 0, lowStockAlert := 5, costPrice := 50,
    sizeStock := [{ size := "M", stock := 2 }], fabricUsed := fabricUsed,
    status := "in_stock", lastRestocked := none, restockQuantity := none, isActive := true,
    isVariant := false, variantOf := none, updatedAt := 0 }

/-- A store with one product, some fabrics and empty transaction logs. -/
def sampleState (product : Product) (fabrics : List Fabric) : State :=
  { products := [product], fabrics := fabrics, fabricTxs := [], inventoryTxs := [] }

/-- An authenticated request on product P. -/
def sampleRequest (operation : String) (quantity : Int) (reason : Option String)
    (size : Option String) : Request :=
  { user := some { role := none }, productId := "P", operation := operation,
    quantity := quantity, reason := reason, notes := none, costPerUnit := none, size := size }

/-- An environment in which no FabricTransaction and no InventoryTransaction is stored. -/
def sampleEnvFailing : Env :=
  { now := 7, fabricTxPersists := fun _ => false, inventoryTxPersists := false }

/-- A token check that accepts the token `good` only. -/
def sampleVerify (token : String) : Option User :=
  if token = "good" then some { role := some "owner" } else none

/-- Product P with sizes M and L holding 2 and 3, aggregate stock 5. -/
def sampleSized : Product :=
  { sampleProduct 5 [] with
    sizeStock := [{ size := "M", stock := 2 }, { size := "L", stock := 3 }] }

/-- Product P with the given aggregate stock and low-stock threshold. -/
def sampleThreshold (stock lowStockAlert : Int) : Product :=
  { sampleProduct stock [] with lowStockAlert := lowStockAlert }

/-! ## Properties -/

theorem jsOr_zero (x : Int) : jsOr x 0 = x := by
  unfold jsOr
  split
  · next h => exact h.symm
  · rfl

theorem checkLine_eq (fabrics : List Fabric) (quantity : Int) (acc : List Shortage)
    (usage : FabricUsage) :
    checkLine fabrics quantity acc usage =
      acc ++ (if lineShort fabrics quantity usage = true
        then [shortageOf fabrics quantity usage] else []) := by
  unfold checkLine lineShort shortageOf
  cases hfind : findFabric fabrics usage.fabricId with
  | none => simp
  | some fabric =>
    simp only [jsOr_zero, decide_eq_true_eq]
    by_cases hlt : fabric.currentStock < usage.metersUsed * quantity
    · simp [hlt]
    · simp [hlt]

theorem foldl_checkLine (fabrics : List Fabric) (quantity : Int) (lines : List FabricUsage) :
    ∀ acc : List Shortage,
      lines.foldl (checkLine fabrics quantity) acc =
        acc ++ (lines.filter (lineShort fabrics quantity)).map (shortageOf fabrics quantity) := by
  induction lines with
  | nil => intro acc; simp
  | cons usage rest ih =>
    intro acc
    rw [List.foldl_cons, ih, checkLine_eq]
    by_cases hs : lineShort fabrics quantity usage = true
    · simp [hs, List.filter_cons]
    · simp [hs, List.filter_cons]

theorem validationPass_eq (fabrics : List Fabric) (quantity : Int) (lines : List FabricUsage) :
    validationPass fabrics quantity lines =
      (lines.filter (lineShort fabrics quantity)).map (shortageOf fabrics quantity) := by
  unfold validationPass
  rw [foldl_checkLine]
  simp

theorem lineShort_iff (fabrics : List Fabric) (quantity : Int) (usage : FabricUsage) :
    lineShort fabrics quantity usage = true ↔
      (findFabric fabrics usage.fabricId = none ∨
        ∃ fabric, findFabric fabrics usage.fabricId = some fabric ∧
          fabric.currentStock < usage.metersUsed * quantity) := by
  unfold lineShort
  cases hfind : findFabric fabrics usage.fabricId with
  | none => simp
  | some fabric => simp

theorem validationPass_ne_nil (fabrics : List Fabric) (quantity : Int)
    (lines : List FabricUsage) (usage : FabricUsage) (hmem : usage ∈ lines)
    (hshort : lineShort fabrics quantity usage = true) :
    validationPass fabrics quantity lines ≠ [] := by
  rw [validationPass_eq]
  intro hnil
  have hfilter : lines.filter (lineShort fabrics quantity) = [] := by
    simpa using hnil
  have hin : usage ∈ lines.filter (lineShort fabrics quantity) :=
    List.mem_filter.mpr ⟨hmem, hshort⟩
  rw [hfilter] at hin
  exact List.not_mem_nil _ hin

/-- The handler on a production request whose validation pass recorded a shortage. -/
theorem patchStock_shortage (env : Env) (st : State) (req : Request) (user : User)
    (product : Product) (huser : req.user = some user)
    (hprod : findProduct st.products req.productId = some product)
    (hop : req.operation = "add") (hreason : req.reason = some "production")
    (hne : validationPass st.fabrics req.quantity product.fabricUsed ≠ []) :
    patchStock env st req =
      (Response.notEnoughFabric (validationPass st.fabrics req.quantity product.fabricUsed),
        st) := by
  have hlines : product.fabricUsed.length > 0 := by
    cases hl : product.fabricUsed with
    | nil => rw [hl] at hne; exact absurd rfl hne
    | cons a l => simp
  have hlen : (validationPass st.fabrics req.quantity product.fabricUsed).length > 0 :=
    List.length_pos.mpr hne
  simp only [patchStock, huser, hprod, consumeFabric, hop, hreason, hlines, hlen,
    and_self, if_true]

/-- C1. Production shortage is atomic: when a production request (`add`, reason
`production`) meets a bill-of-materials line whose fabric is missing or holds less than
`metersUsed * quantity`, the handler answers with the shortage error and the store after
the request is the store before it (fabrics, both transaction logs and products). -/
theorem production_shortage_atomic (env : Env) (st : State) (req : Request) (user : User)
    (product : Product) (huser : req.user = some user)
    (hprod : findProduct st.products req.productId = some product)
    (hop : req.operation = "add") (hreason : req.reason = some "production")
    (hshort : ∃ usage ∈ product.fabricUsed,
      findFabric st.fabrics usage.fabricId = none ∨
        ∃ fabric, findFabric st.fabrics usage.fabricId = some fabric ∧
          fabric.currentStock < usage.metersUsed * req.quantity) :
    ∃ shortages, shortages ≠ [] ∧
      patchStock env st req = (Response.notEnoughFabric shortages, st) := by
  obtain ⟨usage, hmem, hline⟩ := hshort
  have hne : validationPass st.fabrics req.quantity product.fabricUsed ≠ [] :=
    validationPass_ne_nil _ _ _ usage hmem ((lineShort_iff _ _ _).mpr hline)
  exact ⟨_, hne, patchStock_shortage env st req user product huser hprod hop hreason hne⟩

theorem production_shortage_atomic_witness :
    (∃ usage ∈ (sampleProduct 8 [{ fabricId := "F1", metersUsed := 2 }]).fabricUsed,
      findFabric [sampleFabric 5] usage.fabricId = none ∨
        ∃ fabric, findFabric [sampleFabric 5] usage.fabricId = some fabric ∧
          fabric.currentStock < usage.metersUsed * 3) ∧
    ∃ shortages, shortages ≠ [] ∧
      patchStock sampleEnv
          (sampleState (sampleProduct 8 [{ fabricId := "F1", metersUsed := 2 }])
            [sampleFabric 5])
          (sampleRequest "add" 3 (some "production") none) =
        (Response.notEnoughFabric shortages,
          sampleState (sampleProduct 8 [{ fabricId := "F1", metersUsed := 2 }])
            [sampleFabric 5]) :=
  have hshort : ∃ usage ∈ (sampleProduct 8 [{ fabricId := "F1", metersUsed := 2 }]).fabricUsed,
      findFabric [sampleFabric 5] usage.fabricId = none ∨
        ∃ fabric, findFabric [sampleFabric 5] usage.fabricId = some fabric ∧
          fabric.currentStock < usage.metersUsed * 3 :=
    ⟨{ fabricId := "F1", metersUsed := 2 }, by decide,
      Or.inr ⟨sampleFabric 5, by decide, by decide⟩⟩
  ⟨hshort,
    production_shortage_atomic sampleEnv
      (sampleState (sampleProduct 8 [{ fabricId := "F1", metersUsed := 2 }]) [sampleFabric 5])
      (sampleRequest "add" 3 (some "production") none) { role := none }
      (sampleProduct 8 [{ fabricId := "F1", metersUsed := 2 }]) rfl (by decide) rfl rfl hshort⟩

/-- C10. The shortages list of a failing production request is complete: the handler
answers with one descriptor for each bill-of-materials line that is short (fabric missing,
or `currentStock < metersUsed * quantity`), in bill-of-materials order, and with nothing
for a sufficient line; its length is the number of short lines. -/
theorem shortages_complete (env : Env) (st : State) (req : Request) (user : User)
    (product : Product) (huser : req.user = some user)
    (hprod : findProduct st.products req.productId = some product)
    (hop : req.operation = "add") (hreason : req.reason = some "production")
    (hshort : ∃ usage ∈ product.fabricUsed, lineShort st.fabrics req.quantity usage = true) :
    patchStock env st req =
      (Response.notEnoughFabric
        ((product.fabricUsed.filter (lineShort st.fabrics req.quantity)).map
          (shortageOf st.fabrics req.quantity)), st) ∧
    ((product.fabricUsed.filter (lineShort st.fabrics req.quantity)).map
        (shortageOf st.fabrics req.quantity)).length =
      product.fabricUsed.countP (lineShort st.fabrics req.quantity) ∧
    (∀ usage, lineShort st.fabrics req.quantity usage = true ↔
      (findFabric st.fabrics usage.fabricId = none ∨
        ∃ fabric, findFabric st.fabrics usage.fabricId = some fabric ∧
          fabric.currentStock < usage.metersUsed * req.quantity)) := by
  obtain ⟨usage, hmem, hline⟩ := hshort
  have hne : validationPass st.fabrics req.quantity product.fabricUsed ≠ [] :=
    validationPass_ne_nil _ _ _ usage hmem hline
  refine ⟨?_, ?_, fun usage => lineShort_iff _ _ _⟩
  · rw [← validationPass_eq]
    exact patchStock_shortage env st req user product huser hprod hop hreason hne
  · rw [List.length_map, List.countP_eq_length_filter]

theorem shortages_complete_witness :
    (∃ usage ∈ (sampleProduct 8 [{ fabricId := "F1", metersUsed := 2 },
        { fabricId := "F2", metersUsed := 1 }, { fabricId := "F9", metersUsed := 1 }]).fabricUsed,
      lineShort [sampleFabric 5, sampleLining 30] 3 usage = true) ∧
    patchStock sampleEnv
        (sampleState (sampleProduct 8 [{ fabricId := "F1", metersUsed := 2 },
          { fabricId := "F2", metersUsed := 1 }, { fabricId := "F9", metersUsed := 1 }])
          [sampleFabric 5, sampleLining 30])
        (sampleRequest "add" 3 (some "production") none) =
      (Response.notEnoughFabric
        [Shortage.insufficient "Silk" "F1" 6 5, Shortage.notFound "F9"],
        sampleState (sampleProduct 8 [{ fabricId := "F1", metersUsed := 2 },
          { fabricId := "F2", metersUsed := 1 }, { fabricId := "F9", metersUsed := 1 }])
          [sampleFabric 5, sampleLining 30]) :=
  have hshort : ∃ usage ∈ (sampleProduct 8 [{ fabricId := "F1", metersUsed := 2 },
        { fabricId := "F2", metersUsed := 1 }, { fabricId := "F9", metersUsed := 1 }]).fabricUsed,
      lineShort [sampleFabric 5, sampleLining 30] 3 usage = true :=
    ⟨{ fabricId := "F1", metersUsed := 2 }, by decide, by decide⟩
  ⟨hshort,
    (shortages_complete sampleEnv
      (sampleState (sampleProduct 8 [{ fabricId := "F1", metersUsed := 2 },
        { fabricId := "F2", metersUsed := 1 }, { fabricId := "F9", metersUsed := 1 }])
        [sampleFabric 5, sampleLining 30])
      (sampleRequest "add" 3 (some "production") none) { role := none }
      (sampleProduct 8 [{ fabricId := "F1", metersUsed := 2 },
        { fabricId := "F2", metersUsed := 1 }, { fabricId := "F9", metersUsed := 1 }])
      rfl (by decide) rfl rfl hshort).1⟩

/-! ### The pre-save hooks keep every field but `status`, `updatedAt` and `isVariant` -/

theorem productPreSave_stock (now : Nat) (p : Product) :
    (productPreSave now p).stock = p.stock := by
  unfold productPreSave productPreSave3 productPreSave2 productPreSave1
  dsimp only
  split_ifs <;> rfl

theorem productPreSave_productId (now : Nat) (p : Product) :
    (productPreSave now p).productId = p.productId := by
  unfold productPreSave productPreSave3 productPreSave2 productPreSave1
  dsimp only
  split_ifs <;> rfl

theorem productPreSave_sizeStock (now : Nat) (p : Product) :
    (productPreSave now p).sizeStock = p.sizeStock := by
  unfold productPreSave productPreSave3 productPreSave2 productPreSave1
  dsimp only
  split_ifs <;> rfl

theorem productPreSave_restockQuantity (now : Nat) (p : Product) :
    (productPreSave now p).restockQuantity = p.restockQuantity := by
  unfold productPreSave productPreSave3 productPreSave2 productPreSave1
  dsimp only
  split_ifs <;> rfl

theorem productPreSave_lastRestocked (now : Nat) (p : Product) :
    (productPreSave now p).lastRestocked = p.lastRestocked := by
  unfold productPreSave productPreSave3 productPreSave2 productPreSave1
  dsimp only
  split_ifs <;> rfl

theorem productPreSave_reservedStock (now : Nat) (p : Product) :
    (productPreSave now p).reservedStock = p.reservedStock := by
  unfold productPreSave productPreSave3 productPreSave2 productPreSave1
  dsimp only
  split_ifs <;> rfl

theorem productPreSave_lowStockAlert (now : Nat) (p : Product) :
    (productPreSave now p).lowStockAlert = p.lowStockAlert := by
  unfold productPreSave productPreSave3 productPreSave2 productPreSave1
  dsimp only
  split_ifs <;> rfl

/-! ### Collections -/

theorem findProduct_productId (products : List Product) (productId : String)
    (product : Product) (h : findProduct products productId = some product) :
    product.productId = productId := by
  unfold findProduct at h
  have := List.find?_some h
  simpa using this

theorem findProduct_writeProduct (products : List Product) (productId : String)
    (product saved : Product) (h : findProduct products productId = some product)
    (hid : saved.productId = productId) :
    findProduct (writeProduct products saved) productId = some saved := by
  induction products with
  | nil => simp [findProduct] at h
  | cons d rest ih =>
    unfold findProduct at h ih ⊢
    by_cases hd : d.productId = productId
    · simp [writeProduct, hd, hid]
    · have hd2 : ¬ d.productId = saved.productId := by rw [hid]; exact hd
      have hd3 : (d.productId == productId) = false := by simpa using hd
      simp only [List.find?_cons, hd3] at h
      simp only [writeProduct, beq_iff_eq, hd2, if_false, List.find?_cons, hd3]
      exact ih h

/-! ### The handler past the fabric step -/

theorem mathMax0_eq (x : Int) : mathMax0 x = max 0 x := by
  unfold mathMax0
  split
  · next h => exact (max_eq_left (le_of_lt h)).symm
  · next h => exact (max_eq_right (not_lt.mp h)).symm

theorem consumeFabric_products (env : Env) (user : User) (product : Product) (req : Request)
    (st : State) : (consumeFabric env user product req st).2.products = st.products := by
  unfold consumeFabric
  dsimp only
  repeat' split
  all_goals rfl

theorem consumeFabric_inventoryTxs (env : Env) (user : User) (product : Product)
    (req : Request) (st : State) :
    (consumeFabric env user product req st).2.inventoryTxs = st.inventoryTxs := by
  unfold consumeFabric
  dsimp only
  repeat' split
  all_goals rfl

theorem consumeFabric_not_production (env : Env) (user : User) (product : Product)
    (req : Request) (st : State)
    (h : ¬ (req.operation = "add" ∧ req.reason = some "production")) :
    consumeFabric env user product req st = (none, st) := by
  unfold consumeFabric
  rw [if_neg h]

theorem patchStock_past_fabric (env : Env) (st : State) (req : Request) (user : User)
    (product : Product) (huser : req.user = some user)
    (hprod : findProduct st.products req.productId = some product)
    (hfab : (consumeFabric env user product req st).1 = none) :
    patchStock env st req =
      mutateStock env user product req (jsOr product.stock 0)
        (consumeFabric env user product req st).2 := by
  unfold patchStock
  simp only [huser, hprod]
  cases hc : consumeFabric env user product req st with
  | mk response st1 =>
    rw [hc] at hfab
    simp only at hfab
    subst hfab
    rfl

/-! ### The per-size update -/

theorem updateSizeStock_short (quantity : Int) (size : String) (sizeStock : List SizeEntry)
    (hlt : sizeBucket sizeStock size < quantity) :
    updateSizeStock "subtract" quantity size sizeStock =
      Except.error (Response.notEnoughSizeStock size (sizeBucket sizeStock size) quantity) := by
  unfold updateSizeStock sizeBucket at *
  cases hfind : sizeStock.find? (fun s => s.size == size) with
  | none =>
    rw [hfind] at hlt
    simp only [jsOr_zero] at hlt ⊢
    simp [hlt]
  | some entry =>
    rw [hfind] at hlt
    simp only [jsOr_zero] at hlt ⊢
    simp [hlt]

theorem updateSizeStock_ok (operation : String) (quantity : Int) (size : String)
    (sizeStock : List SizeEntry)
    (h : operation = "subtract" → quantity ≤ sizeBucket sizeStock size) :
    ∃ sizeStock1, updateSizeStock operation quantity size sizeStock = Except.ok sizeStock1 := by
  unfold updateSizeStock
  dsimp only
  by_cases hadd : operation = "add"
  · rw [if_pos hadd]; exact ⟨_, rfl⟩
  · rw [if_neg hadd]
    by_cases hsub : operation = "subtract"
    · rw [if_pos hsub]
      split_ifs with hlt
      · exfalso
        have hle := h hsub
        unfold sizeBucket at hle
        rw [jsOr_zero] at hlt
        cases hfind : sizeStock.find? (fun s => s.size == size) with
        | none =>
          rw [hfind] at hle hlt
          exact absurd hlt (not_lt.mpr hle)
        | some entry =>
          rw [hfind] at hle hlt
          exact absurd hlt (not_lt.mpr hle)
      · exact ⟨_, rfl⟩
    · rw [if_neg hsub]
      by_cases hset : operation = "set"
      · rw [if_pos hset]; exact ⟨_, rfl⟩
      · rw [if_neg hset]; exact ⟨_, rfl⟩

theorem applySize_ok (req : Request) (product : Product)
    (h : ∀ size, truthy req.size = some size → req.operation = "subtract" →
      req.quantity ≤ sizeBucket product.sizeStock size) :
    ∃ sizeStock, applySize req product = Except.ok { product with sizeStock := sizeStock } := by
  unfold applySize
  cases hsize : truthy req.size with
  | none => exact ⟨product.sizeStock, rfl⟩
  | some size =>
    obtain ⟨sizeStock1, hok⟩ :=
      updateSizeStock_ok req.operation req.quantity size product.sizeStock (h size hsize)
    exact ⟨sizeStock1, by simp only [hok]⟩

theorem savedProduct_stock (env : Env) (req : Request) (product1 : Product) (newStock : Int) :
    (savedProduct env req product1 newStock).stock = newStock := by
  unfold savedProduct
  dsimp only
  rw [productPreSave_stock]
  split <;> rfl

theorem savedProduct_productId (env : Env) (req : Request) (product1 : Product)
    (newStock : Int) :
    (savedProduct env req product1 newStock).productId = product1.productId := by
  unfold savedProduct
  dsimp only
  rw [productPreSave_productId]
  split <;> rfl

theorem savedProduct_add (env : Env) (req : Request) (product1 : Product) (newStock : Int)
    (hop : req.operation = "add") :
    (savedProduct env req product1 newStock).restockQuantity = some req.quantity ∧
    (savedProduct env req product1 newStock).lastRestocked = some env.now := by
  unfold savedProduct
  dsimp only
  rw [productPreSave_restockQuantity, productPreSave_lastRestocked, if_pos hop]
  exact ⟨rfl, rfl⟩

theorem savedProduct_not_add (env : Env) (req : Request) (product1 : Product)
    (newStock : Int) (hop : req.operation ≠ "add") :
    (savedProduct env req product1 newStock).restockQuantity = product1.restockQuantity ∧
    (savedProduct env req product1 newStock).lastRestocked = product1.lastRestocked := by
  unfold savedProduct
  dsimp only
  rw [productPreSave_restockQuantity, productPreSave_lastRestocked, if_neg hop]
  exact ⟨rfl, rfl⟩

theorem commitStock_ok (env : Env) (user : User) (product product1 : Product) (req : Request)
    (previousStock newStock : Int) (st : State)
    (hok : applySize req product = Except.ok product1) :
    commitStock env user product req previousStock newStock st =
      (Response.stockUpdated (savedProduct env req product1 newStock) newStock,
        { st with
          products := writeProduct st.products (savedProduct env req product1 newStock)
          inventoryTxs :=
            if inventoryTxValid (inventoryTx user (savedProduct env req product1 newStock) req
                previousStock newStock) = true ∧ env.inventoryTxPersists = true then
              st.inventoryTxs ++ [inventoryTx user (savedProduct env req product1 newStock) req
                previousStock newStock]
            else st.inventoryTxs }) := by
  unfold commitStock
  rw [hok]

/-- The aggregate stock that the `switch` of lines 179-188 computes. -/
theorem mutateStock_commit (env : Env) (user : User) (product : Product) (req : Request)
    (previousStock : Int) (st : State)
    (hop : req.operation = "add" ∨ req.operation = "subtract" ∨ req.operation = "set") :
    mutateStock env user product req previousStock st =
      commitStock env user product req previousStock
        (if req.operation = "add" then previousStock + req.quantity
         else if req.operation = "subtract" then mathMax0 (previousStock - req.quantity)
         else req.quantity) st := by
  unfold mutateStock
  rcases hop with hop | hop | hop <;> simp [hop]

/-- C5. Insufficient size stock aborts the whole operation: a `subtract` with a size given
whose bucket holds less than the quantity (a bucket that does not exist counts as 0) is
answered with the "Not enough stock for size" error, and the store after the request is
the store before it: the product (aggregate stock and every `sizeStock` entry) is as
before and no InventoryTransaction is written. -/
theorem size_shortage_aborts (env : Env) (st : State) (req : Request) (user : User)
    (product : Product) (size : String) (huser : req.user = some user)
    (hprod : findProduct st.products req.productId = some product)
    (hop : req.operation = "subtract") (hsize : truthy req.size = some size)
    (hlt : sizeBucket product.sizeStock size < req.quantity) :
    patchStock env st req =
      (Response.notEnoughSizeStock size (sizeBucket product.sizeStock size) req.quantity,
        st) := by
  have hnp : ¬ (req.operation = "add" ∧ req.reason = some "production") := by
    rw [hop]; simp
  have hfab := consumeFabric_not_production env user product req st hnp
  rw [patchStock_past_fabric env st req user product huser hprod (by rw [hfab]), hfab]
  simp only [mutateStock, commitStock, applySize, hop, hsize,
    updateSizeStock_short req.quantity size product.sizeStock hlt]
  simp


theorem size_shortage_aborts_witness :
    truthy (sampleRequest "subtract" 5 none (some "M")).size = some "M" ∧
    sizeBucket (sampleProduct 8 []).sizeStock "M" < 5 ∧
    patchStock sampleEnv (sampleState (sampleProduct 8 []) [])
        (sampleRequest "subtract" 5 none (some "M")) =
      (Response.notEnoughSizeStock "M" 2 5, sampleState (sampleProduct 8 []) []) :=
  ⟨by decide, by decide,
    size_shortage_aborts sampleEnv (sampleState (sampleProduct 8 []) [])
      (sampleRequest "subtract" 5 none (some "M")) { role := none } (sampleProduct 8 []) "M"
      rfl (by decide) rfl (by decide) (by decide)⟩

/-- C4. For `add`, `subtract` and `set` on an existing product with previous aggregate
stock `s` and quantity `q`, when the request reaches the stock mutation and no size check
fails, the request succeeds and the saved aggregate stock is `s + q`, `max 0 (s - q)` and
`q` respectively; `add` sets `restockQuantity` to `q` and stamps `lastRestocked` with the
clock, `subtract` and `set` leave both as they were. -/
theorem stock_operations (env : Env) (st : State) (req : Request) (user : User)
    (product : Product) (huser : req.user = some user)
    (hprod : findProduct st.products req.productId = some product)
    (hfab : (consumeFabric env user product req st).1 = none)
    (hsize : ∀ size, truthy req.size = some size → req.operation = "subtract" →
      req.quantity ≤ sizeBucket product.sizeStock size)
    (hop : req.operation = "add" ∨ req.operation = "subtract" ∨ req.operation = "set") :
    ∃ saved,
      (patchStock env st req).1 = Response.stockUpdated saved saved.stock ∧
      findProduct (patchStock env st req).2.products req.productId = some saved ∧
      (req.operation = "add" →
        saved.stock = product.stock + req.quantity ∧
        saved.restockQuantity = some req.quantity ∧ saved.lastRestocked = some env.now) ∧
      (req.operation = "subtract" →
        saved.stock = max 0 (product.stock - req.quantity) ∧
        saved.restockQuantity = product.restockQuantity ∧
        saved.lastRestocked = product.lastRestocked) ∧
      (req.operation = "set" →
        saved.stock = req.quantity ∧
        saved.restockQuantity = product.restockQuantity ∧
        saved.lastRestocked = product.lastRestocked) := by
  obtain ⟨sizeStock, hok⟩ := applySize_ok req product hsize
  have hid := findProduct_productId _ _ _ hprod
  have hfind : findProduct (consumeFabric env user product req st).2.products req.productId =
      some product := by rw [consumeFabric_products]; exact hprod
  rw [patchStock_past_fabric env st req user product huser hprod hfab, jsOr_zero,
    mutateStock_commit env user product req _ _ hop, commitStock_ok _ _ _ _ _ _ _ _ hok]
  refine ⟨savedProduct env req { product with sizeStock := sizeStock }
    (if req.operation = "add" then product.stock + req.quantity
     else if req.operation = "subtract" then mathMax0 (product.stock - req.quantity)
     else req.quantity), ?_, ?_, ?_, ?_, ?_⟩
  · simp only [savedProduct_stock]
  · exact findProduct_writeProduct _ _ _ _ hfind (by rw [savedProduct_productId]; exact hid)
  · intro h
    refine ⟨?_, savedProduct_add env req _ _ h⟩
    rw [savedProduct_stock, if_pos h]
  · intro h
    have hna : req.operation ≠ "add" := by rw [h]; decide
    refine ⟨?_, savedProduct_not_add env req _ _ hna⟩
    rw [savedProduct_stock, if_neg hna, if_pos h, mathMax0_eq]
  · intro h
    have hna : req.operation ≠ "add" := by rw [h]; decide
    have hns : req.operation ≠ "subtract" := by rw [h]; decide
    refine ⟨?_, savedProduct_not_add env req _ _ hna⟩
    rw [savedProduct_stock, if_neg hna, if_neg hns]

theorem stock_operations_witness :
    (sampleRequest "subtract" 10 none none).user = some { role := none } ∧
    findProduct (sampleState (sampleProduct 8 []) []).products "P" =
      some (sampleProduct 8 []) ∧
    ∃ saved,
      (patchStock sampleEnv (sampleState (sampleProduct 8 []) [])
        (sampleRequest "subtract" 10 none none)).1 = Response.stockUpdated saved saved.stock ∧
      findProduct (patchStock sampleEnv (sampleState (sampleProduct 8 []) [])
        (sampleRequest "subtract" 10 none none)).2.products "P" = some saved ∧
      saved.stock = 0 :=
  ⟨rfl, by decide,
    (stock_operations sampleEnv (sampleState (sampleProduct 8 []) [])
      (sampleRequest "subtract" 10 none none) { role := none } (sampleProduct 8 []) rfl
      (by decide) (by decide) (fun _ h => by simp [sampleRequest, truthy] at h)
      (Or.inr (Or.inl rfl))).imp
      fun _ h => ⟨h.1, h.2.1, (h.2.2.2.1 rfl).1⟩⟩

/-! ### Every answer that carries a product carries a saved one -/

theorem commitStock_saved (env : Env) (user : User) (product : Product) (req : Request)
    (previousStock newStock : Int) (st : State) (saved : Product)
    (h : (commitStock env user product req previousStock newStock st).1.product? = some saved) :
    ∃ x, saved = productPreSave env.now x := by
  unfold commitStock at h
  cases hs : applySize req product with
  | error response =>
    rw [hs] at h
    simp only at h
    unfold applySize at hs
    split at hs
    · split at hs
      · cases hs
      · next size sizeStock response1 hu =>
        cases hs
        unfold updateSizeStock at hu
        dsimp only at hu
        split_ifs at hu
        cases hu
        simp [Response.product?] at h
    · cases hs
  | ok product1 =>
    rw [hs] at h
    simp only [Response.product?, Option.some.injEq] at h
    exact ⟨_, h.symm⟩

theorem patchStock_saved (env : Env) (st : State) (req : Request) (saved : Product)
    (h : (patchStock env st req).1.product? = some saved) :
    ∃ x, saved = productPreSave env.now x := by
  unfold patchStock at h
  split at h
  · simp [Response.product?] at h
  · split at h
    · simp [Response.product?] at h
    · next user _ product hprod =>
      dsimp only at h
      split at h
      · next response st1 hc =>
        exfalso
        unfold consumeFabric at hc
        dsimp only at hc
        split_ifs at hc
        · cases hc; simp [Response.product?] at h
        · split at hc
          · cases hc
          · cases hc; simp [Response.product?] at h
        · cases hc
        · cases hc
      · next st1 hc =>
        unfold mutateStock at h
        split_ifs at h
        · exact commitStock_saved _ _ _ _ _ _ _ _ h
        · exact commitStock_saved _ _ _ _ _ _ _ _ h
        · exact commitStock_saved _ _ _ _ _ _ _ _ h
        · simp only [Response.product?, Option.some.injEq] at h
          exact ⟨_, h.symm⟩
        · simp only [Response.product?, Option.some.injEq] at h
          exact ⟨_, h.symm⟩
        · simp [Response.product?] at h

/-! ### Status derivation -/

theorem productPreSave_status (now : Nat) (p : Product) :
    (productPreSave now p).status = (productPreSave1 p).status := by
  unfold productPreSave productPreSave3 productPreSave2 productPreSave1
  dsimp only
  split_ifs <;> rfl

theorem productPreSave1_status (p : Product) (h : 0 ≤ p.stock) :
    (productPreSave1 p).status = deriveStatus p.stock p.lowStockAlert := by
  unfold productPreSave1 deriveStatus
  by_cases h0 : p.stock = 0
  · simp [h0]
  · have hpos : 0 < p.stock := lt_of_le_of_ne h (Ne.symm h0)
    by_cases hle : p.stock ≤ p.lowStockAlert
    · simp [h0, hle, hpos]
    · simp [h0, hle]

/-- C8. Product status is a function of aggregate stock and `lowStockAlert` alone: after
a save of a product with `stock ≥ 0` the status is `out_of_stock` at stock 0, `low_stock`
when `0 < stock ≤ lowStockAlert` and `in_stock` otherwise; any two products with the same
stock and threshold get the same status whatever their `sizeStock`, `reservedStock` or
earlier status; the three pre-save hooks together give what the first one gives; and the
product that the stock update handler saves and answers with carries this status. -/
theorem product_status_derivation (now : Nat) (p : Product) (h : 0 ≤ p.stock) :
    (productPreSave now p).status = deriveStatus p.stock p.lowStockAlert ∧
    (p.stock = 0 → (productPreSave now p).status = "out_of_stock") ∧
    (0 < p.stock → p.stock ≤ p.lowStockAlert → (productPreSave now p).status = "low_stock") ∧
    (0 < p.stock → p.lowStockAlert < p.stock →
      (productPreSave now p).status = "in_stock") ∧
    (∀ (now2 : Nat) (p2 : Product), p2.stock = p.stock → p2.lowStockAlert = p.lowStockAlert →
      (productPreSave now2 p2).status = (productPreSave now p).status) ∧
    (productPreSave now p).status = (productPreSave1 p).status ∧
    (productPreSave now p).stock = p.stock ∧
    (productPreSave now p).lowStockAlert = p.lowStockAlert ∧
    (∀ (env : Env) (st : State) (req : Request) (saved : Product),
      (patchStock env st req).1.product? = some saved → 0 ≤ saved.stock →
      saved.status = deriveStatus saved.stock saved.lowStockAlert) := by
  have hs : (productPreSave now p).status = deriveStatus p.stock p.lowStockAlert := by
    rw [productPreSave_status, productPreSave1_status p h]
  refine ⟨hs, ?_, ?_, ?_, ?_, productPreSave_status now p, productPreSave_stock now p,
    productPreSave_lowStockAlert now p, ?_⟩
  · intro h0
    rw [hs]; simp [deriveStatus, h0]
  · intro hpos hle
    rw [hs]; simp [deriveStatus, ne_of_gt hpos, hpos, hle]
  · intro hpos hgt
    rw [hs]; simp [deriveStatus, ne_of_gt hpos, not_le.mpr hgt]
  · intro now2 p2 hstock halert
    rw [hs, productPreSave_status, productPreSave1_status p2 (by rw [hstock]; exact h),
      hstock, halert]
  · intro env st req saved hsaved hstock
    obtain ⟨x, rfl⟩ := patchStock_saved env st req saved hsaved
    rw [productPreSave_stock] at hstock
    rw [productPreSave_status, productPreSave1_status x hstock, productPreSave_stock,
      productPreSave_lowStockAlert]

theorem product_status_derivation_witness :
    (0 : Int) ≤ (sampleProduct 3 []).stock ∧
    (productPreSave 7 (sampleProduct 3 [])).status = "low_stock" :=
  ⟨by decide,
    (product_status_derivation 7 (sampleProduct 3 []) (by decide)).2.2.1 (by decide)
      (by decide)⟩

theorem fabricPreSave_status (f : Fabric) (h : 0 ≤ f.currentStock) :
    (fabricPreSave f).status = deriveFabricStatus f.currentStock f.lowStockAlert := by
  unfold fabricPreSave deriveFabricStatus
  by_cases h0 : f.currentStock = 0
  · simp [h0]
  · have hpos : 0 < f.currentStock := lt_of_le_of_ne h (Ne.symm h0)
    by_cases hle : f.currentStock ≤ f.lowStockAlert
    · simp [h0, hle, hpos]
    · simp [h0, hle]

/-- C9, as the claim states it, fails: a fabric with 20 meters and threshold 10 is saved
with status `available`, where the derivation of Product gives `in_stock`. -/
theorem fabric_status_not_in_stock :
    (0 : Int) ≤ (sampleFabric 20).currentStock ∧
    (fabricPreSave (sampleFabric 20)).status = "available" ∧
    deriveStatus (sampleFabric 20).currentStock (sampleFabric 20).lowStockAlert = "in_stock" ∧
    (fabricPreSave (sampleFabric 20)).status ≠
      deriveStatus (sampleFabric 20).currentStock (sampleFabric 20).lowStockAlert := by
  decide

/-- C9, amended. After a save of a fabric with `currentStock ≥ 0` the status is
`out_of_stock` at 0, `low_stock` when `0 < currentStock ≤ lowStockAlert` and `available`
otherwise: the tiers of Product keyed on `currentStock`, the top one named `available`. -/
theorem fabric_status_derivation (f : Fabric) (h : 0 ≤ f.currentStock) :
    (fabricPreSave f).status = deriveFabricStatus f.currentStock f.lowStockAlert ∧
    (f.currentStock = 0 → (fabricPreSave f).status = "out_of_stock") ∧
    (0 < f.currentStock → f.currentStock ≤ f.lowStockAlert →
      (fabricPreSave f).status = "low_stock") ∧
    (0 < f.currentStock → f.lowStockAlert < f.currentStock →
      (fabricPreSave f).status = "available") ∧
    (fabricPreSave f).currentStock = f.currentStock := by
  have hs := fabricPreSave_status f h
  refine ⟨hs, ?_, ?_, ?_, ?_⟩
  · intro h0
    rw [hs]; simp [deriveFabricStatus, h0]
  · intro hpos hle
    rw [hs]; simp [deriveFabricStatus, ne_of_gt hpos, hpos, hle]
  · intro hpos hgt
    rw [hs]; simp [deriveFabricStatus, ne_of_gt hpos, not_le.mpr hgt]
  · unfold fabricPreSave
    split_ifs <;> rfl

theorem fabric_status_derivation_witness :
    (0 : Int) ≤ (sampleFabric 20).currentStock ∧
    (fabricPreSave (sampleFabric 20)).status = "available" :=
  ⟨by decide,
    (fabric_status_derivation (sampleFabric 20) (by decide)).2.2.2.1 (by decide) (by decide)⟩

/-! ### Fabric consumed twice by one bill of materials -/

/-- C3. Evaluation at a bill of materials that lists fabric F1 on two lines of 2 meters
each, quantity 3, F1 holding 10 meters: every fabric starts at `currentStock ≥ 0`, the
validation pass records no shortage (each line needs 6 ≤ 10), and the commit pass leaves
F1 at -2. -/
theorem duplicate_line_overdraws :
    (∀ f ∈ [sampleFabric 10], 0 ≤ f.currentStock) ∧
    validationPass [sampleFabric 10] 3
      [{ fabricId := "F1", metersUsed := 2 }, { fabricId := "F1", metersUsed := 2 }] = [] ∧
    ((patchStock sampleEnv
        (sampleState
          (sampleProduct 8
            [{ fabricId := "F1", metersUsed := 2 }, { fabricId := "F1", metersUsed := 2 }])
          [sampleFabric 10])
        (sampleRequest "add" 3 (some "production") none)).2.fabrics.map
      fun f => f.currentStock) = [-2] := by
  decide

/-! ### The audit record of a stock mutation -/

theorem mathAbs_eq (x : Int) : mathAbs x = |x| := by
  unfold mathAbs
  split
  · next h => exact (abs_of_neg h).symm
  · next h => exact (abs_of_nonneg (not_lt.mp h)).symm

/-- The store after a committed `add`, `subtract` or `set`. -/
theorem patchStock_commit (env : Env) (st : State) (req : Request) (user : User)
    (product : Product) (huser : req.user = some user)
    (hprod : findProduct st.products req.productId = some product)
    (hfab : (consumeFabric env user product req st).1 = none)
    (hsize : ∀ size, truthy req.size = some size → req.operation = "subtract" →
      req.quantity ≤ sizeBucket product.sizeStock size)
    (hop : req.operation = "add" ∨ req.operation = "subtract" ∨ req.operation = "set") :
    ∃ saved newStock,
      newStock = (if req.operation = "add" then product.stock + req.quantity
        else if req.operation = "subtract" then max 0 (product.stock - req.quantity)
        else req.quantity) ∧
      saved.stock = newStock ∧ saved.productId = req.productId ∧
      (patchStock env st req).1 = Response.stockUpdated saved newStock ∧
      (patchStock env st req).2.products = writeProduct st.products saved ∧
      (patchStock env st req).2.inventoryTxs =
        (if inventoryReasons.contains (strOr req.reason "manual_adjustment") = true ∧
            env.inventoryTxPersists = true then
          st.inventoryTxs ++ [inventoryTx user saved req product.stock newStock]
        else st.inventoryTxs) := by
  obtain ⟨sizeStock, hok⟩ := applySize_ok req product hsize
  have hid := findProduct_productId _ _ _ hprod
  rw [patchStock_past_fabric env st req user product huser hprod hfab, jsOr_zero,
    mutateStock_commit env user product req _ _ hop, commitStock_ok _ _ _ _ _ _ _ _ hok]
  refine ⟨savedProduct env req { product with sizeStock := sizeStock }
    (if req.operation = "add" then product.stock + req.quantity
     else if req.operation = "subtract" then mathMax0 (product.stock - req.quantity)
     else req.quantity), _, ?_, ?_, ?_, rfl, ?_, ?_⟩
  · simp only [mathMax0_eq]
  · rw [savedProduct_stock]
  · rw [savedProduct_productId]; exact hid
  · simp only [consumeFabric_products]
  · simp only [consumeFabric_inventoryTxs]
    rfl

/-- C6, as the claim states it, fails: a `subtract` of 5 from stock 3 is clamped to 0 and
its record has type `out`, `previousStock = 3`, `quantity = 5` and `newStock = 0`, which
is not `previousStock - quantity`. -/
theorem clamped_subtract_record :
    (patchStock sampleEnv (sampleState (sampleProduct 3 []) [])
      (sampleRequest "subtract" 5 none none)).1.isStockUpdated = true ∧
    ((patchStock sampleEnv (sampleState (sampleProduct 3 []) [])
        (sampleRequest "subtract" 5 none none)).2.inventoryTxs.map
      fun t => (t.type, t.previousStock, t.quantity, t.newStock)) = [("out", 3, 5, 0)] ∧
    ¬ ∀ t ∈ (patchStock sampleEnv (sampleState (sampleProduct 3 []) [])
        (sampleRequest "subtract" 5 none none)).2.inventoryTxs,
      (t.type = "in" → t.newStock = t.previousStock + t.quantity) ∧
      (t.type = "out" → t.newStock = t.previousStock - t.quantity) := by
  decide

/-- C6, amended. A committed `add`, `subtract` or `set` whose audit record the store
accepts appends exactly one InventoryTransaction. Its `previousStock` is the aggregate
stock before the request, its `newStock` the saved aggregate stock and its `quantity` the
absolute value of the requested quantity. `newStock = previousStock + quantity` holds for
an `add` of a non-negative quantity and `newStock = previousStock - quantity` for a
`subtract` of a quantity between 0 and the previous stock; a clamped `subtract` records
`newStock = max 0 (previousStock - q)` and a `set` records `newStock = q`, both with type
`out`. -/
theorem inventory_transaction_record (env : Env) (st : State) (req : Request) (user : User)
    (product : Product) (huser : req.user = some user)
    (hprod : findProduct st.products req.productId = some product)
    (hfab : (consumeFabric env user product req st).1 = none)
    (hsize : ∀ size, truthy req.size = some size → req.operation = "subtract" →
      req.quantity ≤ sizeBucket product.sizeStock size)
    (hop : req.operation = "add" ∨ req.operation = "subtract" ∨ req.operation = "set")
    (hreason : inventoryReasons.contains (strOr req.reason "manual_adjustment") = true)
    (hpersist : env.inventoryTxPersists = true) :
    ∃ t, (patchStock env st req).2.inventoryTxs = st.inventoryTxs ++ [t] ∧
      t.previousStock = product.stock ∧
      stockOf (patchStock env st req).2 req.productId = some t.newStock ∧
      t.quantity = |req.quantity| ∧
      (req.operation = "add" →
        t.type = "in" ∧ t.newStock = t.previousStock + req.quantity) ∧
      (req.operation = "add" → 0 ≤ req.quantity →
        t.newStock = t.previousStock + t.quantity) ∧
      (req.operation = "subtract" →
        t.type = "out" ∧ t.newStock = max 0 (t.previousStock - req.quantity)) ∧
      (req.operation = "subtract" → 0 ≤ req.quantity → req.quantity ≤ product.stock →
        t.newStock = t.previousStock - t.quantity) ∧
      (req.operation = "set" → t.type = "out" ∧ t.newStock = req.quantity) := by
  obtain ⟨saved, newStock, hnew, hstock, hid, -, hproducts, htxs⟩ :=
    patchStock_commit env st req user product huser hprod hfab hsize hop
  rw [if_pos ⟨hreason, hpersist⟩] at htxs
  refine ⟨_, htxs, rfl, ?_, ?_, ?_, ?_, ?_, ?_, ?_⟩
  · unfold stockOf
    rw [hproducts, findProduct_writeProduct _ _ _ _ hprod hid]
    simp [inventoryTx, hstock]
  · simp [inventoryTx, mathAbs_eq]
  · intro h
    simp [inventoryTx, h, hnew]
  · intro h hq
    simp [inventoryTx, h, hnew, mathAbs_eq, abs_of_nonneg hq]
  · intro h
    simp [inventoryTx, h, hnew]
  · intro h hq hle
    have hmax : max 0 (product.stock - req.quantity) = product.stock - req.quantity :=
      max_eq_right (sub_nonneg.mpr hle)
    simp [inventoryTx, h, hnew, mathAbs_eq, abs_of_nonneg hq, hmax]
  · intro h
    simp [inventoryTx, h, hnew]

theorem inventory_transaction_record_witness :
    (sampleRequest "add" 3 none none).operation = "add" ∧
    (0 : Int) ≤ (sampleRequest "add" 3 none none).quantity ∧
    ∃ t, (patchStock sampleEnv (sampleState (sampleProduct 8 []) [])
        (sampleRequest "add" 3 none none)).2.inventoryTxs = [] ++ [t] ∧
      t.previousStock = 8 ∧ t.newStock = t.previousStock + t.quantity :=
  ⟨rfl, by decide,
    (inventory_transaction_record sampleEnv (sampleState (sampleProduct 8 []) [])
      (sampleRequest "add" 3 none none) { role := none } (sampleProduct 8 []) rfl
      (by decide) (by decide) (fun _ h => by simp [sampleRequest, truthy] at h)
      (Or.inl rfl) (by decide) rfl).imp
      fun _ h => ⟨h.1, h.2.1, h.2.2.2.2.2.1 rfl (by decide)⟩⟩

/-! ### Sequences of `add` and `subtract` -/

theorem isStockUpdated_iff (r : Response) :
    r.isStockUpdated = true ↔ ∃ saved newStock, r = Response.stockUpdated saved newStock := by
  cases r <;> simp [Response.isStockUpdated]

theorem patchStock_updated_inv (env : Env) (st : State) (req : Request) (saved : Product)
    (newStock : Int) (h : (patchStock env st req).1 = Response.stockUpdated saved newStock) :
    ∃ user product, req.user = some user ∧
      findProduct st.products req.productId = some product ∧
      (consumeFabric env user product req st).1 = none := by
  unfold patchStock at h
  cases huser : req.user with
  | none => rw [huser] at h; simp at h
  | some user =>
    cases hprod : findProduct st.products req.productId with
    | none => rw [huser] at h; simp only [hprod] at h; simp at h
    | some product =>
      refine ⟨user, product, rfl, rfl, ?_⟩
      rw [huser] at h
      simp only [hprod] at h
      cases hc : consumeFabric env user product req st with
      | mk response st1 =>
        cases response with
        | none => rfl
        | some response =>
          exfalso
          rw [hc] at h
          simp only at h
          have hcases : response = Response.notEnoughFabric
              (validationPass st.fabrics req.quantity product.fabricUsed) ∨
              response = Response.serverError := by
            unfold consumeFabric at hc
            dsimp only at hc
            split at hc
            · split at hc
              · split at hc
                · simp only [Prod.mk.injEq, Option.some.injEq] at hc
                  exact Or.inl hc.1.symm
                · split at hc
                  · simp at hc
                  · simp only [Prod.mk.injEq, Option.some.injEq] at hc
                    exact Or.inr hc.1.symm
              · simp at hc
            · simp at hc
          rcases hcases with hr | hr <;> rw [hr] at h <;> simp at h

theorem clampedStep_lower (reqs : List Request) :
    ∀ s0 : Int, 0 ≤ s0 → (∀ r ∈ reqs, 0 ≤ r.quantity) →
      max 0 (s0 + (reqs.map signedDelta).sum) ≤ reqs.foldl clampedStep s0 ∧
      0 ≤ reqs.foldl clampedStep s0 := by
  induction reqs with
  | nil => intro s0 h0 _; simp [h0]
  | cons r rest ih =>
    intro s0 h0 hq
    have hr : 0 ≤ r.quantity := hq r (List.mem_cons_self _ _)
    have hstep : 0 ≤ clampedStep s0 r ∧ s0 + signedDelta r ≤ clampedStep s0 r := by
      unfold clampedStep signedDelta
      split
      · exact ⟨by omega, le_refl _⟩
      · exact ⟨le_max_left _ _, by rw [← sub_eq_add_neg]; exact le_max_right _ _⟩
    obtain ⟨ih1, ih2⟩ := ih (clampedStep s0 r) hstep.1
      (fun x hx => hq x (List.mem_cons_of_mem _ hx))
    refine ⟨?_, ih2⟩
    simp only [List.map_cons, List.sum_cons, List.foldl_cons]
    refine le_trans (max_le_max (le_refl 0) ?_) ih1
    have := hstep.2
    omega

theorem clampedStep_exact (reqs : List Request) :
    ∀ s0 : Int, (∀ k, 0 ≤ s0 + ((reqs.take k).map signedDelta).sum) →
      reqs.foldl clampedStep s0 = s0 + (reqs.map signedDelta).sum := by
  induction reqs with
  | nil => intro s0 _; simp
  | cons r rest ih =>
    intro s0 hk
    have h1 : 0 ≤ s0 + signedDelta r := by simpa using hk 1
    have hstep : clampedStep s0 r = s0 + signedDelta r := by
      unfold clampedStep signedDelta at *
      split
      · rfl
      · next hna =>
        rw [if_neg hna] at h1
        rw [← sub_eq_add_neg] at h1 ⊢
        exact max_eq_right h1
    simp only [List.map_cons, List.sum_cons, List.foldl_cons]
    rw [hstep, ih (s0 + signedDelta r) (fun k => by
      have := hk (k + 1)
      simp only [List.take_succ_cons, List.map_cons, List.sum_cons] at this
      omega)]
    omega

theorem patchStock_step (env : Env) (st : State) (req : Request) (productId : String)
    (product : Product) (hpid : req.productId = productId)
    (hprod : findProduct st.products productId = some product)
    (hop : req.operation = "add" ∨ req.operation = "subtract")
    (hsize : truthy req.size = none)
    (hresp : (patchStock env st req).1.isStockUpdated = true) :
    ∃ saved, findProduct (patchStock env st req).2.products productId = some saved ∧
      saved.stock = clampedStep product.stock req := by
  obtain ⟨saved0, newStock0, hresp⟩ := (isStockUpdated_iff _).mp hresp
  obtain ⟨user, product1, huser, hprod1, hfab⟩ :=
    patchStock_updated_inv env st req saved0 newStock0 hresp
  subst hpid
  rw [hprod] at hprod1
  cases hprod1
  have hop3 : req.operation = "add" ∨ req.operation = "subtract" ∨ req.operation = "set" :=
    hop.elim Or.inl (fun h => Or.inr (Or.inl h))
  obtain ⟨saved, newStock, hnew, hstock, hid, -, hproducts, -⟩ :=
    patchStock_commit env st req user product huser hprod hfab
      (fun size hs => by rw [hsize] at hs; cases hs) hop3
  refine ⟨saved, ?_, ?_⟩
  · rw [hproducts]
    exact findProduct_writeProduct _ _ _ _ hprod hid
  · rw [hstock, hnew]
    unfold clampedStep
    rcases hop with h | h
    · simp [h]
    · simp [h]

theorem runRequests_stock (productId : String) (reqs : List (Env × Request)) :
    ∀ (st : State) (product : Product),
      findProduct st.products productId = some product →
      (∀ er ∈ reqs, er.2.productId = productId ∧
        (er.2.operation = "add" ∨ er.2.operation = "subtract") ∧ truthy er.2.size = none) →
      (∀ r ∈ (runRequests st reqs).1, r.isStockUpdated = true) →
      stockOf (runRequests st reqs).2 productId =
        some ((reqs.map Prod.snd).foldl clampedStep product.stock) := by
  induction reqs with
  | nil =>
    intro st product hprod _ _
    simp [runRequests, stockOf, hprod]
  | cons er rest ih =>
    intro st product hprod hreqs hok
    obtain ⟨env, req⟩ := er
    obtain ⟨hpid, hop, hsize⟩ := hreqs (env, req) (List.mem_cons_self _ _)
    have hfirst : (patchStock env st req).1.isStockUpdated = true :=
      hok _ (by simp [runRequests])
    obtain ⟨saved, hfind, hstock⟩ :=
      patchStock_step env st req productId product hpid hprod hop hsize hfirst
    have hrest := ih (patchStock env st req).2 saved hfind
      (fun x hx => hreqs x (List.mem_cons_of_mem _ hx))
      (fun r hr => hok r (by simp only [runRequests, List.mem_cons]; exact Or.inr hr))
    simp only [runRequests, List.map_cons, List.foldl_cons]
    rw [hrest, hstock]

/-- C7, as the claim states it, fails: from stock 0, `subtract 5` then `add 3` ends at 3,
while `max 0 (0 + (-5 + 3))` is 0. -/
theorem clamp_then_add :
    (∀ r ∈ (runRequests (sampleState (sampleProduct 0 []) [])
        [(sampleEnv, sampleRequest "subtract" 5 none none),
         (sampleEnv, sampleRequest "add" 3 none none)]).1, r.isStockUpdated = true) ∧
    stockOf (runRequests (sampleState (sampleProduct 0 []) [])
        [(sampleEnv, sampleRequest "subtract" 5 none none),
         (sampleEnv, sampleRequest "add" 3 none none)]).2 "P" = some 3 ∧
    max 0 (0 + ([sampleRequest "subtract" 5 none none,
      sampleRequest "add" 3 none none].map signedDelta).sum) = 0 ∧
    stockOf (runRequests (sampleState (sampleProduct 0 []) [])
        [(sampleEnv, sampleRequest "subtract" 5 none none),
         (sampleEnv, sampleRequest "add" 3 none none)]).2 "P" ≠
      some (max 0 (0 + ([sampleRequest "subtract" 5 none none,
        sampleRequest "add" 3 none none].map signedDelta).sum)) := by
  decide

/-- C7, amended. For a sequence of `add` and `subtract` requests on one existing product
(no size given, quantities `≥ 0`, every request answered with success) starting at stock
`s0 ≥ 0`, the final aggregate stock is the running total in which each `subtract` is
clamped at zero when it is applied. It is at least `max 0 (s0 + sum of signed deltas)`,
and equals it when no partial sum `s0 + sum of the first k deltas` is negative. -/
theorem add_subtract_sequence (productId : String) (reqs : List (Env × Request))
    (st : State) (product : Product)
    (hprod : findProduct st.products productId = some product)
    (h0 : 0 ≤ product.stock)
    (hreqs : ∀ er ∈ reqs, er.2.productId = productId ∧
      (er.2.operation = "add" ∨ er.2.operation = "subtract") ∧ truthy er.2.size = none ∧
      0 ≤ er.2.quantity)
    (hok : ∀ r ∈ (runRequests st reqs).1, r.isStockUpdated = true) :
    stockOf (runRequests st reqs).2 productId =
      some ((reqs.map Prod.snd).foldl clampedStep product.stock) ∧
    max 0 (product.stock + ((reqs.map Prod.snd).map signedDelta).sum) ≤
      (reqs.map Prod.snd).foldl clampedStep product.stock ∧
    ((∀ k, 0 ≤ product.stock + (((reqs.map Prod.snd).take k).map signedDelta).sum) →
      stockOf (runRequests st reqs).2 productId =
        some (max 0 (product.stock + ((reqs.map Prod.snd).map signedDelta).sum))) := by
  have hrun := runRequests_stock productId reqs st product hprod
    (fun er her => ⟨(hreqs er her).1, (hreqs er her).2.1, (hreqs er her).2.2.1⟩) hok
  have hq : ∀ r ∈ reqs.map Prod.snd, 0 ≤ r.quantity := by
    intro r hr
    obtain ⟨er, her, rfl⟩ := List.mem_map.mp hr
    exact (hreqs er her).2.2.2
  refine ⟨hrun, (clampedStep_lower _ product.stock h0 hq).1, ?_⟩
  intro hk
  have hexact := clampedStep_exact (reqs.map Prod.snd) product.stock hk
  have hnonneg : 0 ≤ product.stock + ((reqs.map Prod.snd).map signedDelta).sum := by
    have := hk (reqs.map Prod.snd).length
    rwa [List.take_length] at this
  rw [hrun, hexact, max_eq_right hnonneg]

theorem add_subtract_sequence_witness :
    (0 : Int) ≤ (sampleProduct 4 []).stock ∧
    stockOf (runRequests (sampleState (sampleProduct 4 []) [])
        [(sampleEnv, sampleRequest "subtract" 5 none none),
         (sampleEnv, sampleRequest "add" 3 none none)]).2 "P" = some 3 ∧
    max 0 ((4 : Int) + (-5 + (3 + 0))) ≤ 3 :=
  have h := add_subtract_sequence "P"
    [(sampleEnv, sampleRequest "subtract" 5 none none),
     (sampleEnv, sampleRequest "add" 3 none none)]
    (sampleState (sampleProduct 4 []) []) (sampleProduct 4 []) (by decide) (by decide)
    (by decide) (by decide)
  ⟨by decide, h.1, h.2.1⟩

/-! ### The commit pass -/

theorem fabricPreSave_fabricId (f : Fabric) : (fabricPreSave f).fabricId = f.fabricId := by
  unfold fabricPreSave
  split_ifs <;> rfl

theorem fabricPreSave_currentStock (f : Fabric) :
    (fabricPreSave f).currentStock = f.currentStock := by
  unfold fabricPreSave
  split_ifs <;> rfl

theorem findFabric_fabricId (fabrics : List Fabric) (fabricId : String) (f : Fabric)
    (h : findFabric fabrics fabricId = some f) : f.fabricId = fabricId := by
  unfold findFabric at h
  have := List.find?_some h
  simpa using this

theorem findFabric_mem (fabrics : List Fabric) (fabricId : String) (f : Fabric)
    (h : findFabric fabrics fabricId = some f) : f ∈ fabrics :=
  List.mem_of_find?_eq_some h

theorem writeFabric_ids (fabrics : List Fabric) (saved : Fabric) :
    (writeFabric fabrics saved).map (fun f => f.fabricId) =
      fabrics.map (fun f => f.fabricId) := by
  induction fabrics with
  | nil => rfl
  | cons d rest ih =>
    unfold writeFabric
    by_cases hd : d.fabricId = saved.fabricId
    · simp [hd]
    · simp [hd, ih]

theorem findFabric_writeFabric_same (fabrics : List Fabric) (fabricId : String)
    (f saved : Fabric) (h : findFabric fabrics fabricId = some f)
    (hid : saved.fabricId = fabricId) :
    findFabric (writeFabric fabrics saved) fabricId = some saved := by
  induction fabrics with
  | nil => simp [findFabric] at h
  | cons d rest ih =>
    unfold findFabric at h ih ⊢
    by_cases hd : d.fabricId = fabricId
    · simp [writeFabric, hd, hid]
    · have hd2 : ¬ d.fabricId = saved.fabricId := by rw [hid]; exact hd
      have hd3 : (d.fabricId == fabricId) = false := by simpa using hd
      simp only [List.find?_cons, hd3] at h
      simp only [writeFabric, beq_iff_eq, hd2, if_false, List.find?_cons, hd3]
      exact ih h

theorem findFabric_writeFabric_other (fabrics : List Fabric) (fabricId : String)
    (saved : Fabric) (hid : saved.fabricId ≠ fabricId) :
    findFabric (writeFabric fabrics saved) fabricId = findFabric fabrics fabricId := by
  induction fabrics with
  | nil => rfl
  | cons d rest ih =>
    unfold findFabric at ih ⊢
    by_cases hd : d.fabricId = saved.fabricId
    · have hd2 : (d.fabricId == fabricId) = false := by
        simpa using (fun h : d.fabricId = fabricId => hid (hd ▸ h))
      have hs : (saved.fabricId == fabricId) = false := by simpa using hid
      simp only [writeFabric, beq_iff_eq, hd, if_true, List.find?_cons, hs, hd2]
    · simp only [writeFabric, beq_iff_eq, hd, if_false, List.find?_cons]
      rw [ih]

theorem mem_writeFabric_other (fabrics : List Fabric) (saved g : Fabric) (hg : g ∈ fabrics)
    (hid : g.fabricId ≠ saved.fabricId) : g ∈ writeFabric fabrics saved := by
  induction fabrics with
  | nil => exact absurd hg (List.not_mem_nil _)
  | cons d rest ih =>
    unfold writeFabric
    by_cases hd : d.fabricId = saved.fabricId
    · simp only [beq_iff_eq, hd, if_true]
      rcases List.mem_cons.mp hg with h | h
      · exact absurd (h ▸ hd) hid
      · exact List.mem_cons_of_mem _ h
    · simp only [beq_iff_eq, hd, if_false]
      rcases List.mem_cons.mp hg with h | h
      · rw [h]; exact List.mem_cons_self _ _
      · exact List.mem_cons_of_mem _ (ih h)

theorem consumedMeters_cons (usage : FabricUsage) (rest : List FabricUsage) (quantity : Int)
    (fabricId : String) :
    consumedMeters (usage :: rest) quantity fabricId =
      (if usage.fabricId = fabricId then usage.metersUsed * quantity else 0) +
        consumedMeters rest quantity fabricId := by
  unfold consumedMeters
  by_cases h : usage.fabricId = fabricId
  · simp [List.filter_cons, h]
  · simp [List.filter_cons, h]

theorem commitPass_spec (env : Env) (user : User) (product : Product) (quantity : Int)
    (lines : List FabricUsage) :
    ∀ (i : Nat) (fabrics : List Fabric) (txs : List FabricTransaction),
      (∀ usage ∈ lines, ∃ f, findFabric fabrics usage.fabricId = some f) →
      (commitPass env user product quantity lines i fabrics txs).1 = true ∧
      (commitPass env user product quantity lines i fabrics txs).2.1.map (fun f => f.fabricId) =
        fabrics.map (fun f => f.fabricId) ∧
      (∀ fabricId f, findFabric fabrics fabricId = some f →
        ∃ f1, findFabric (commitPass env user product quantity lines i fabrics txs).2.1
            fabricId = some f1 ∧
          f1.currentStock = f.currentStock - consumedMeters lines quantity fabricId) ∧
      (∀ g ∈ fabrics, (∀ usage ∈ lines, usage.fabricId ≠ g.fabricId) →
        g ∈ (commitPass env user product quantity lines i fabrics txs).2.1) := by
  induction lines with
  | nil =>
    intro i fabrics txs _
    refine ⟨rfl, rfl, ?_, fun g hg _ => hg⟩
    intro fabricId f hf
    exact ⟨f, hf, by simp [consumedMeters]⟩
  | cons usage rest ih =>
    intro i fabrics txs hex
    obtain ⟨f0, hf0⟩ := hex usage (List.mem_cons_self _ _)
    have hid0 := findFabric_fabricId _ _ _ hf0
    -- the document that this line saves
    obtain ⟨saved, hsaved, hsid, hstock⟩ : ∃ saved : Fabric,
        saved = fabricPreSave
          { f0 with
            currentStock := f0.currentStock - jsOr usage.metersUsed 0 * quantity
            usedInProducts := f0.usedInProducts ++
              [{ productId := product.productId
                 productName := product.name
                 productCategory := product.category
                 metersUsed := jsOr usage.metersUsed 0 * quantity
                 usedAt := env.now }] } ∧
        saved.fabricId = usage.fabricId ∧
        saved.currentStock = f0.currentStock - usage.metersUsed * quantity := by
      refine ⟨_, rfl, ?_, ?_⟩
      · rw [fabricPreSave_fabricId]; exact hid0
      · rw [fabricPreSave_currentStock, jsOr_zero]
    have hex1 : ∀ u ∈ rest, ∃ f, findFabric (writeFabric fabrics saved) u.fabricId = some f := by
      intro u hu
      obtain ⟨f, hf⟩ := hex u (List.mem_cons_of_mem _ hu)
      by_cases hsame : saved.fabricId = u.fabricId
      · exact ⟨saved, findFabric_writeFabric_same _ _ _ _ hf hsame⟩
      · exact ⟨f, by rw [findFabric_writeFabric_other _ _ _ hsame]; exact hf⟩
    have hunfold : ∀ txs1, commitPass env user product quantity (usage :: rest) i fabrics txs1 =
        commitPass env user product quantity rest (i + 1) (writeFabric fabrics saved)
          (if env.fabricTxPersists i = true then txs1 ++
            [{ fabricId := saved.fabricId
               type := "usage"
               quantity := jsOr usage.metersUsed 0 * quantity
               previousStock := f0.currentStock
               newStock := saved.currentStock
               reference := product.productId
               notesProductName := product.name
               notesQuantity := quantity
               costPerMeter := saved.costPerMeter
               totalValue := saved.costPerMeter * (jsOr usage.metersUsed 0 * quantity)
               performedBy := strOr user.role "owner" }] else txs1) := by
      intro txs1
      rw [commitPass, hf0, hsaved]
    rw [hunfold]
    obtain ⟨ih1, ih2, ih3, ih4⟩ := ih (i + 1) (writeFabric fabrics saved)
      (if env.fabricTxPersists i = true then txs ++
            [{ fabricId := saved.fabricId
               type := "usage"
               quantity := jsOr usage.metersUsed 0 * quantity
               previousStock := f0.currentStock
               newStock := saved.currentStock
               reference := product.productId
               notesProductName := product.name
               notesQuantity := quantity
               costPerMeter := saved.costPerMeter
               totalValue := saved.costPerMeter * (jsOr usage.metersUsed 0 * quantity)
               performedBy := strOr user.role "owner" }] else txs) hex1
    refine ⟨ih1, by rw [ih2, writeFabric_ids], ?_, ?_⟩
    · intro fabricId f hf
      rw [consumedMeters_cons]
      by_cases hsame : usage.fabricId = fabricId
      · have hff : f = f0 := by
          rw [← hsame, hf0] at hf
          exact (Option.some.inj hf).symm
        obtain ⟨f1, hf1, hs1⟩ := ih3 fabricId saved
          (findFabric_writeFabric_same _ _ _ _ hf (by rw [hsid]; exact hsame))
        refine ⟨f1, hf1, ?_⟩
        rw [hs1, hstock, if_pos hsame, hff]
        ring
      · obtain ⟨f1, hf1, hs1⟩ := ih3 fabricId f
          (by rw [findFabric_writeFabric_other _ _ _ (by rw [hsid]; exact hsame)]; exact hf)
        refine ⟨f1, hf1, ?_⟩
        rw [hs1, if_neg hsame]
        ring
    · intro g hg hno
      refine ih4 g (mem_writeFabric_other _ _ _ hg ?_)
        (fun u hu => hno u (List.mem_cons_of_mem _ hu))
      rw [hsid]
      exact fun h => hno usage (List.mem_cons_self _ _) h.symm

theorem findFabric_of_mem (fabrics : List Fabric)
    (hunique : (fabrics.map (fun f => f.fabricId)).Nodup) (f : Fabric) (hf : f ∈ fabrics) :
    findFabric fabrics f.fabricId = some f := by
  induction fabrics with
  | nil => exact absurd hf (List.not_mem_nil _)
  | cons d rest ih =>
    unfold findFabric at ih ⊢
    rw [List.map_cons, List.nodup_cons] at hunique
    rcases List.mem_cons.mp hf with h | h
    · subst h
      simp [List.find?_cons]
    · have hne : (d.fabricId == f.fabricId) = false := by
        have : d.fabricId ≠ f.fabricId := by
          intro heq
          exact hunique.1 (List.mem_map.mpr ⟨f, h, heq.symm⟩)
        simpa using this
      simp only [List.find?_cons, hne]
      exact ih hunique.2 h

theorem mutateStock_fabrics (env : Env) (user : User) (product : Product) (req : Request)
    (previousStock : Int) (st : State) :
    (mutateStock env user product req previousStock st).2.fabrics = st.fabrics := by
  unfold mutateStock commitStock
  dsimp only
  repeat' split
  all_goals rfl

theorem consumeFabric_production (env : Env) (user : User) (product : Product)
    (req : Request) (st : State) (hop : req.operation = "add")
    (hreason : req.reason = some "production")
    (hvalid : ∀ usage ∈ product.fabricUsed, ∃ fabric,
      findFabric st.fabrics usage.fabricId = some fabric ∧
        usage.metersUsed * req.quantity ≤ fabric.currentStock) :
    consumeFabric env user product req st =
      (none,
        { st with
          fabrics := (commitPass env user product req.quantity product.fabricUsed 0
            st.fabrics st.fabricTxs).2.1
          fabricTxs := (commitPass env user product req.quantity product.fabricUsed 0
            st.fabrics st.fabricTxs).2.2 }) := by
  have hnil : validationPass st.fabrics req.quantity product.fabricUsed = [] := by
    rw [validationPass_eq, List.map_eq_nil_iff, List.filter_eq_nil_iff]
    intro usage hmem hshort
    obtain ⟨fabric, hfind, hle⟩ := hvalid usage hmem
    rcases (lineShort_iff _ _ _).mp hshort with hnone | ⟨f, hf, hlt⟩
    · rw [hfind] at hnone; cases hnone
    · rw [hfind] at hf
      cases hf
      exact absurd hlt (not_lt.mpr hle)
  have hflag := (commitPass_spec env user product req.quantity product.fabricUsed 0
    st.fabrics st.fabricTxs (fun usage hmem => (hvalid usage hmem).imp fun _ h => h.1)).1
  unfold consumeFabric
  rw [if_pos ⟨hop, hreason⟩]
  dsimp only
  cases hlines : product.fabricUsed with
  | nil => simp [commitPass]
  | cons usage rest =>
    rw [hlines] at hnil hflag
    rw [hnil]
    simp only [List.length_cons, List.length_nil, gt_iff_lt, Nat.zero_lt_succ, if_true,
      lt_self_iff_false, if_false]
    generalize commitPass env user product req.quantity (usage :: rest) 0 st.fabrics
      st.fabricTxs = result at hflag ⊢
    obtain ⟨flag, fabrics, txs⟩ := result
    simp only at hflag
    subst hflag
    rfl

/-- C2. On a production request whose bill-of-materials lines all pass validation, the
request succeeds; the fabric store keeps its documents (same `fabricId`s in the same
order); every fabric ends with its initial `currentStock` minus the sum of
`metersUsed * quantity` over the lines that reference it (fabric ids being unique in the
store); a fabric referenced by no line is left as it was; and the product's aggregate
stock grows by exactly `quantity`. -/
theorem production_deducts (env : Env) (st : State) (req : Request) (user : User)
    (product : Product) (huser : req.user = some user)
    (hprod : findProduct st.products req.productId = some product)
    (hop : req.operation = "add") (hreason : req.reason = some "production")
    (hunique : (st.fabrics.map (fun f => f.fabricId)).Nodup)
    (hvalid : ∀ usage ∈ product.fabricUsed, ∃ fabric,
      findFabric st.fabrics usage.fabricId = some fabric ∧
        usage.metersUsed * req.quantity ≤ fabric.currentStock) :
    (patchStock env st req).1.isStockUpdated = true ∧
    (patchStock env st req).2.fabrics.map (fun f => f.fabricId) =
      st.fabrics.map (fun f => f.fabricId) ∧
    (∀ f ∈ st.fabrics, ∃ f1 ∈ (patchStock env st req).2.fabrics,
      f1.fabricId = f.fabricId ∧
      f1.currentStock =
        f.currentStock - consumedMeters product.fabricUsed req.quantity f.fabricId) ∧
    (∀ f ∈ st.fabrics, (∀ usage ∈ product.fabricUsed, usage.fabricId ≠ f.fabricId) →
      f ∈ (patchStock env st req).2.fabrics) ∧
    stockOf (patchStock env st req).2 req.productId = some (product.stock + req.quantity) := by
  have hcf := consumeFabric_production env user product req st hop hreason hvalid
  have hfab : (consumeFabric env user product req st).1 = none := by rw [hcf]
  obtain ⟨h1, h2, h3, h4⟩ := commitPass_spec env user product req.quantity
    product.fabricUsed 0 st.fabrics st.fabricTxs
    (fun usage hmem => (hvalid usage hmem).imp fun _ h => h.1)
  have hfabrics : (patchStock env st req).2.fabrics =
      (commitPass env user product req.quantity product.fabricUsed 0 st.fabrics
        st.fabricTxs).2.1 := by
    rw [patchStock_past_fabric env st req user product huser hprod hfab, mutateStock_fabrics,
      hcf]
  obtain ⟨saved, newStock, hnew, hstock, hid, hresp, hproducts, -⟩ :=
    patchStock_commit env st req user product huser hprod hfab
      (fun _ _ hsub => by rw [hop] at hsub; exact absurd hsub (by decide)) (Or.inl hop)
  refine ⟨?_, ?_, ?_, ?_, ?_⟩
  · rw [hresp]; rfl
  · rw [hfabrics]; exact h2
  · intro f hf
    obtain ⟨f1, hf1, hs1⟩ := h3 f.fabricId f (findFabric_of_mem _ hunique f hf)
    rw [hfabrics]
    exact ⟨f1, findFabric_mem _ _ _ hf1, findFabric_fabricId _ _ _ hf1, hs1⟩
  · intro f hf hno
    rw [hfabrics]
    exact h4 f hf hno
  · unfold stockOf
    rw [hproducts, findProduct_writeProduct _ _ _ _ hprod hid]
    simp [hstock, hnew, hop]

theorem production_deducts_witness :
    (∀ usage ∈ (sampleProduct 8 [{ fabricId := "F1", metersUsed := 2 }]).fabricUsed,
      ∃ fabric, findFabric [sampleFabric 10, sampleLining 30] usage.fabricId = some fabric ∧
        usage.metersUsed * 3 ≤ fabric.currentStock) ∧
    ((patchStock sampleEnv
        (sampleState (sampleProduct 8 [{ fabricId := "F1", metersUsed := 2 }])
          [sampleFabric 10, sampleLining 30])
        (sampleRequest "add" 3 (some "production") none)).2.fabrics.map
      fun f => (f.fabricId, f.currentStock)) = [("F1", 4), ("F2", 30)] ∧
    stockOf (patchStock sampleEnv
        (sampleState (sampleProduct 8 [{ fabricId := "F1", metersUsed := 2 }])
          [sampleFabric 10, sampleLining 30])
        (sampleRequest "add" 3 (some "production") none)).2 "P" = some (8 + 3) :=
  have hvalid : ∀ usage ∈ (sampleProduct 8 [{ fabricId := "F1", metersUsed := 2 }]).fabricUsed,
      ∃ fabric, findFabric [sampleFabric 10, sampleLining 30] usage.fabricId = some fabric ∧
        usage.metersUsed * 3 ≤ fabric.currentStock := by
    intro usage hmem
    have hu : usage = { fabricId := "F1", metersUsed := 2 } := by
      simpa [sampleProduct] using hmem
    subst hu
    exact ⟨sampleFabric 10, by decide, by decide⟩
  ⟨hvalid, by decide,
    (production_deducts sampleEnv
      (sampleState (sampleProduct 8 [{ fabricId := "F1", metersUsed := 2 }])
        [sampleFabric 10, sampleLining 30])
      (sampleRequest "add" 3 (some "production") none) { role := none }
      (sampleProduct 8 [{ fabricId := "F1", metersUsed := 2 }]) rfl (by decide) rfl rfl
      (by decide) hvalid).2.2.2.2⟩

/-! ### Reservations, invalid operations and unauthenticated requests -/

/-- C15. Reserve and release write `reservedStock` only: `reserve` saves
`reservedStock + quantity` and `release` saves `max 0 (reservedStock - quantity)`; the
aggregate stock, the whole `sizeStock` (also when a size is supplied), `lastRestocked` and
`restockQuantity` of the saved product are those of the product before; the answer carries
the saved product; and the fabrics and both transaction logs are left as they were. -/
theorem reserve_release_frame (env : Env) (st : State) (req : Request) (user : User)
    (product : Product) (huser : req.user = some user)
    (hprod : findProduct st.products req.productId = some product)
    (hop : req.operation = "reserve" ∨ req.operation = "release") :
    ∃ saved,
      patchStock env st req =
        (Response.reservation saved, { st with products := writeProduct st.products saved }) ∧
      findProduct (patchStock env st req).2.products req.productId = some saved ∧
      (req.operation = "reserve" →
        saved.reservedStock = product.reservedStock + req.quantity) ∧
      (req.operation = "release" →
        saved.reservedStock = max 0 (product.reservedStock - req.quantity)) ∧
      saved.stock = product.stock ∧ saved.sizeStock = product.sizeStock ∧
      saved.lastRestocked = product.lastRestocked ∧
      saved.restockQuantity = product.restockQuantity ∧
      (patchStock env st req).2.fabrics = st.fabrics ∧
      (patchStock env st req).2.fabricTxs = st.fabricTxs ∧
      (patchStock env st req).2.inventoryTxs = st.inventoryTxs := by
  have hid := findProduct_productId _ _ _ hprod
  have hnp : ¬ (req.operation = "add" ∧ req.reason = some "production") := by
    rcases hop with h | h <;> rw [h] <;> simp
  have hfab := consumeFabric_not_production env user product req st hnp
  have hpatch := patchStock_past_fabric env st req user product huser hprod (by rw [hfab])
  rw [hfab] at hpatch
  rcases hop with h | h
  · have hm : mutateStock env user product req (jsOr product.stock 0) st =
        (Response.reservation (productPreSave env.now
          { product with reservedStock := jsOr product.reservedStock 0 + req.quantity }),
         { st with products := writeProduct st.products (productPreSave env.now
          { product with reservedStock := jsOr product.reservedStock 0 + req.quantity }) }) := by
      unfold mutateStock
      simp [h]
    rw [hpatch, hm]
    refine ⟨_, rfl, ?_, ?_, ?_, ?_, ?_, ?_, ?_, rfl, rfl, rfl⟩
    · exact findProduct_writeProduct _ _ _ _ hprod (by rw [productPreSave_productId]; exact hid)
    · intro _; rw [productPreSave_reservedStock, jsOr_zero]
    · intro h2; rw [h] at h2; exact absurd h2 (by decide)
    · rw [productPreSave_stock]
    · rw [productPreSave_sizeStock]
    · rw [productPreSave_lastRestocked]
    · rw [productPreSave_restockQuantity]
  · have hm : mutateStock env user product req (jsOr product.stock 0) st =
        (Response.reservation (productPreSave env.now
          { product with
            reservedStock := mathMax0 (jsOr product.reservedStock 0 - req.quantity) }),
         { st with products := writeProduct st.products (productPreSave env.now
          { product with
            reservedStock := mathMax0 (jsOr product.reservedStock 0 - req.quantity) }) }) := by
      unfold mutateStock
      simp [h]
    rw [hpatch, hm]
    refine ⟨_, rfl, ?_, ?_, ?_, ?_, ?_, ?_, ?_, rfl, rfl, rfl⟩
    · exact findProduct_writeProduct _ _ _ _ hprod (by rw [productPreSave_productId]; exact hid)
    · intro h2; rw [h] at h2; exact absurd h2 (by decide)
    · intro _; rw [productPreSave_reservedStock, jsOr_zero, mathMax0_eq]
    · rw [productPreSave_stock]
    · rw [productPreSave_sizeStock]
    · rw [productPreSave_lastRestocked]
    · rw [productPreSave_restockQuantity]

theorem reserve_release_frame_witness :
    findProduct (sampleState (sampleProduct 8 []) []).products "P" =
      some (sampleProduct 8 []) ∧
    ∃ saved,
      patchStock sampleEnv (sampleState (sampleProduct 8 []) [])
          (sampleRequest "reserve" 3 none (some "M")) =
        (Response.reservation saved,
          { sampleState (sampleProduct 8 []) [] with
            products := writeProduct (sampleState (sampleProduct 8 []) []).products saved }) ∧
      saved.reservedStock = 0 + 3 ∧ saved.stock = 8 ∧
      saved.sizeStock = [{ size := "M", stock := 2 }] :=
  ⟨by decide,
    (reserve_release_frame sampleEnv (sampleState (sampleProduct 8 []) [])
      (sampleRequest "reserve" 3 none (some "M")) { role := none } (sampleProduct 8 []) rfl
      (by decide) (Or.inl rfl)).imp
      fun _ h => ⟨h.1, h.2.2.1 rfl, h.2.2.2.2.1, h.2.2.2.2.2.1⟩⟩

/-- C16. An operation outside `add`, `subtract`, `set`, `reserve` and `release` on an
existing product is answered with the "Invalid operation" error for every quantity, reason
(also `production`) and size, and the store after the request is the store before it. -/
theorem invalid_operation_rejected (env : Env) (st : State) (req : Request) (user : User)
    (product : Product) (huser : req.user = some user)
    (hprod : findProduct st.products req.productId = some product)
    (hop : req.operation ≠ "add" ∧ req.operation ≠ "subtract" ∧ req.operation ≠ "set" ∧
      req.operation ≠ "reserve" ∧ req.operation ≠ "release") :
    patchStock env st req = (Response.invalidOperation, st) := by
  obtain ⟨h1, h2, h3, h4, h5⟩ := hop
  have hfab := consumeFabric_not_production env user product req st (fun h => h1 h.1)
  rw [patchStock_past_fabric env st req user product huser hprod (by rw [hfab]), hfab]
  unfold mutateStock
  simp [h1, h2, h3, h4, h5]

theorem invalid_operation_rejected_witness :
    findProduct
      (sampleState (sampleProduct 8 [{ fabricId := "F1", metersUsed := 2 }])
        [sampleFabric 5]).products "P" =
      some (sampleProduct 8 [{ fabricId := "F1", metersUsed := 2 }]) ∧
    patchStock sampleEnv
        (sampleState (sampleProduct 8 [{ fabricId := "F1", metersUsed := 2 }])
          [sampleFabric 5])
        (sampleRequest "increase" 3 (some "production") (some "M")) =
      (Response.invalidOperation,
        sampleState (sampleProduct 8 [{ fabricId := "F1", metersUsed := 2 }])
          [sampleFabric 5]) :=
  ⟨by decide,
    invalid_operation_rejected sampleEnv
      (sampleState (sampleProduct 8 [{ fabricId := "F1", metersUsed := 2 }]) [sampleFabric 5])
      (sampleRequest "increase" 3 (some "production") (some "M")) { role := none }
      (sampleProduct 8 [{ fabricId := "F1", metersUsed := 2 }]) rfl (by decide) (by decide)⟩

/-- C19. Unauthenticated writes to the ledger are rejected: when the request carries no
`Authorization` header, or the header leaves an empty token, or the token fails
verification, `authenticateOwner` leaves `req.user` null, the handler answers
"Authentication required" and the store after the request is the store before it,
whatever the operation, quantity, reason and size. -/
theorem unauthenticated_rejected (verify : String → Option User) (env : Env) (st : State)
    (authorization : Option String) (req : Request)
    (hauth : authorization = none ∨
      ∃ header, authorization = some header ∧
        (jsReplace header "Bearer " "" = "" ∨ verify (jsReplace header "Bearer " "") = none)) :
    authenticateOwner verify authorization = none ∧
    stockRoute verify env st authorization req = (Response.authenticationRequired, st) := by
  have hnone : authenticateOwner verify authorization = none := by
    unfold authenticateOwner
    rcases hauth with h | ⟨header, h, hempty | hfail⟩
    · subst h; rfl
    · subst h; simp [truthy, hempty]
    · subst h
      by_cases he : jsReplace header "Bearer " "" = ""
      · simp [truthy, he]
      · simp [truthy, he, hfail]
  refine ⟨hnone, ?_⟩
  unfold stockRoute patchStock
  simp only [hnone]

theorem unauthenticated_rejected_witness :
    (∃ header, some "Bearer forged" = some header ∧
      (jsReplace header "Bearer " "" = "" ∨
        sampleVerify (jsReplace header "Bearer " "") = none)) ∧
    authenticateOwner sampleVerify (some "Bearer forged") = none ∧
    stockRoute sampleVerify sampleEnv (sampleState (sampleProduct 8 []) [])
        (some "Bearer forged") (sampleRequest "set" 100 none none) =
      (Response.authenticationRequired, sampleState (sampleProduct 8 []) []) :=
  have hauth : ∃ header, some "Bearer forged" = some header ∧
      (jsReplace header "Bearer " "" = "" ∨
        sampleVerify (jsReplace header "Bearer " "") = none) :=
    ⟨"Bearer forged", rfl, Or.inr (by decide)⟩
  ⟨hauth,
    unauthenticated_rejected sampleVerify sampleEnv (sampleState (sampleProduct 8 []) [])
      (some "Bearer forged") (sampleRequest "set" 100 none none) (Or.inr hauth)⟩

/-! ### Size buckets and non-negative product stock -/

theorem setSizeStock_sizes (l : List SizeEntry) (size : String) (v : Int) :
    (setSizeStock l size v).map (fun e => e.size) = l.map (fun e => e.size) := by
  induction l with
  | nil => rfl
  | cons e rest ih =>
    unfold setSizeStock
    by_cases he : e.size = size
    · simp [he]
    · simp [he, ih]

theorem mem_setSizeStock (l : List SizeEntry) (size : String) (v : Int) (x : SizeEntry)
    (hx : x ∈ setSizeStock l size v) : x ∈ l ∨ (x.size = size ∧ x.stock = v) := by
  induction l with
  | nil => simp [setSizeStock] at hx
  | cons e rest ih =>
    unfold setSizeStock at hx
    by_cases he : e.size = size
    · simp only [beq_iff_eq, he, if_true, List.mem_cons] at hx
      rcases hx with h | h
      · right; rw [h]; exact ⟨rfl, rfl⟩
      · left; exact List.mem_cons_of_mem _ h
    · simp only [beq_iff_eq, he, if_false, List.mem_cons] at hx
      rcases hx with h | h
      · left; rw [h]; exact List.mem_cons_self _ _
      · rcases ih h with h2 | h2
        · left; exact List.mem_cons_of_mem _ h2
        · right; exact h2

theorem filter_setSizeStock (l : List SizeEntry) (size : String) (v : Int) :
    (setSizeStock l size v).filter (fun e => e.size != size) =
      l.filter (fun e => e.size != size) := by
  induction l with
  | nil => rfl
  | cons e rest ih =>
    unfold setSizeStock
    by_cases he : e.size = size
    · simp [he, List.filter_cons]
    · simp [he, List.filter_cons, ih]

theorem sizeBucket_cons (e : SizeEntry) (rest : List SizeEntry) (size : String) :
    sizeBucket (e :: rest) size = if e.size = size then e.stock else sizeBucket rest size := by
  unfold sizeBucket
  by_cases he : e.size = size
  · simp [List.find?_cons, he]
  · have : (e.size == size) = false := by simpa using he
    simp [List.find?_cons, he, this]

theorem sizeBucket_setSizeStock_same (l : List SizeEntry) (size : String) (v : Int)
    (hex : ∃ e ∈ l, e.size = size) : sizeBucket (setSizeStock l size v) size = v := by
  induction l with
  | nil => obtain ⟨e, he, _⟩ := hex; exact absurd he (List.not_mem_nil _)
  | cons e rest ih =>
    unfold setSizeStock
    by_cases he : e.size = size
    · simp [he, sizeBucket_cons]
    · obtain ⟨x, hx, hxs⟩ := hex
      have hrest : ∃ y ∈ rest, y.size = size := by
        rcases List.mem_cons.mp hx with h | h
        · exact absurd (h ▸ hxs) he
        · exact ⟨x, h, hxs⟩
      simp [he, sizeBucket_cons, ih hrest]

theorem sizeBucket_setSizeStock_other (l : List SizeEntry) (size other : String) (v : Int)
    (hne : other ≠ size) : sizeBucket (setSizeStock l size v) other = sizeBucket l other := by
  induction l with
  | nil => rfl
  | cons e rest ih =>
    unfold setSizeStock
    by_cases he : e.size = size
    · have : ¬ size = other := fun h => hne h.symm
      simp [he, sizeBucket_cons, this]
    · simp [he, sizeBucket_cons, ih]

theorem find_size_none_iff (l : List SizeEntry) (size : String) :
    l.find? (fun s => s.size == size) = none ↔ ∀ e ∈ l, e.size ≠ size := by
  simp [List.find?_eq_none]

theorem find_size_some (l : List SizeEntry) (size : String) (e : SizeEntry)
    (h : l.find? (fun s => s.size == size) = some e) : ∃ x ∈ l, x.size = size :=
  ⟨e, List.mem_of_find?_eq_some h, by simpa using List.find?_some h⟩

theorem updateSizeStock_aux (operation : String) (quantity : Int) (size : String)
    (l sizeStock1 : List SizeEntry) (p : Int)
    (h : (if operation = "add" then
        (Except.ok (setSizeStock l size (p + quantity)) : Except Response (List SizeEntry))
      else if operation = "subtract" then
        if p < quantity then Except.error (Response.notEnoughSizeStock size p quantity)
        else Except.ok (setSizeStock l size (p - quantity))
      else if operation = "set" then Except.ok (setSizeStock l size quantity)
      else Except.ok (setSizeStock l size p)) = Except.ok sizeStock1) :
    ∃ v, sizeStock1 = setSizeStock l size v ∧
      (operation = "add" → v = p + quantity) ∧
      (operation = "subtract" → quantity ≤ p ∧ v = p - quantity) ∧
      (operation = "set" → v = quantity) ∧
      (operation ≠ "add" → operation ≠ "subtract" → operation ≠ "set" → v = p) := by
  by_cases hadd : operation = "add"
  · rw [if_pos hadd] at h
    cases h
    exact ⟨_, rfl, fun _ => rfl, fun hs => absurd (hadd ▸ hs) (by decide),
      fun hs => absurd (hadd ▸ hs) (by decide), fun hn => absurd hadd hn⟩
  · rw [if_neg hadd] at h
    by_cases hsub : operation = "subtract"
    · rw [if_pos hsub] at h
      split_ifs at h with hlt
      cases h
      exact ⟨_, rfl, fun ha => absurd ha hadd,
        fun _ => ⟨not_lt.mp hlt, rfl⟩, fun hs => absurd (hsub ▸ hs) (by decide),
        fun _ hn => absurd hsub hn⟩
    · rw [if_neg hsub] at h
      by_cases hset : operation = "set"
      · rw [if_pos hset] at h
        cases h
        exact ⟨_, rfl, fun ha => absurd ha hadd, fun hs => absurd hs hsub,
          fun _ => rfl, fun _ _ hn => absurd hset hn⟩
      · rw [if_neg hset] at h
        cases h
        exact ⟨_, rfl, fun ha => absurd ha hadd, fun hs => absurd hs hsub,
          fun hs => absurd hs hset, fun _ _ _ => rfl⟩

theorem updateSizeStock_aux_none (operation : String) (quantity : Int) (size : String)
    (l sizeStock1 : List SizeEntry)
    (h : (if operation = "add" then (Except.ok l : Except Response (List SizeEntry))
      else if operation = "subtract" then
        if 0 < quantity then Except.error (Response.notEnoughSizeStock size 0 quantity)
        else Except.ok l
      else if operation = "set" then Except.ok l
      else Except.ok l) = Except.ok sizeStock1) :
    sizeStock1 = l ∧ (operation = "subtract" → quantity ≤ 0) := by
  by_cases hadd : operation = "add"
  · rw [if_pos hadd] at h
    cases h
    exact ⟨rfl, fun hs => absurd (hadd ▸ hs) (by decide)⟩
  · rw [if_neg hadd] at h
    by_cases hsub : operation = "subtract"
    · rw [if_pos hsub] at h
      split_ifs at h with hlt
      cases h
      exact ⟨rfl, fun _ => not_lt.mp hlt⟩
    · rw [if_neg hsub] at h
      have hl : (Except.ok l : Except Response (List SizeEntry)) = Except.ok sizeStock1 := by
        split_ifs at h <;> exact h
      cases hl
      exact ⟨rfl, fun hs => absurd hs hsub⟩

theorem sizeBucket_push (l : List SizeEntry) (size : String)
    (hno : ∀ e ∈ l, e.size ≠ size) :
    sizeBucket (l ++ [{ size := size, stock := 0 }]) size = 0 ∧ sizeBucket l size = 0 := by
  induction l with
  | nil => simp [sizeBucket]
  | cons e rest ih =>
    have he : e.size ≠ size := hno e (List.mem_cons_self _ _)
    have hrest := ih (fun x hx => hno x (List.mem_cons_of_mem _ hx))
    rw [List.cons_append, sizeBucket_cons, sizeBucket_cons, if_neg he, if_neg he]
    exact hrest

/-- The per-size update writes the stored entry of the size when there is one, the value
following the operation; when no entry has the size, a bucket with stock 0 is appended
and nothing is written to it. -/
theorem updateSizeStock_result (operation : String) (quantity : Int) (size : String)
    (sizeStock sizeStock1 : List SizeEntry)
    (h : updateSizeStock operation quantity size sizeStock = Except.ok sizeStock1) :
    ((∃ e ∈ sizeStock, e.size = size) ∧
      ∃ v, sizeStock1 = setSizeStock sizeStock size v ∧
        (operation = "add" → v = sizeBucket sizeStock size + quantity) ∧
        (operation = "subtract" →
          quantity ≤ sizeBucket sizeStock size ∧ v = sizeBucket sizeStock size - quantity) ∧
        (operation = "set" → v = quantity) ∧
        (operation ≠ "add" → operation ≠ "subtract" → operation ≠ "set" →
          v = sizeBucket sizeStock size)) ∨
    ((∀ e ∈ sizeStock, e.size ≠ size) ∧
      sizeStock1 = sizeStock ++ [{ size := size, stock := 0 }] ∧
      (operation = "subtract" → quantity ≤ 0)) := by
  unfold updateSizeStock at h
  cases hfind : sizeStock.find? (fun s => s.size == size) with
  | none =>
    simp only [hfind, jsOr_zero] at h
    obtain ⟨hl, hq⟩ := updateSizeStock_aux_none operation quantity size _ sizeStock1 h
    exact Or.inr ⟨(find_size_none_iff _ _).mp hfind, hl, hq⟩
  | some e =>
    simp only [hfind, jsOr_zero] at h
    have hb : sizeBucket sizeStock size = e.stock := by unfold sizeBucket; rw [hfind]
    obtain ⟨v, hv⟩ := updateSizeStock_aux operation quantity size _ sizeStock1 e.stock h
    rw [hb]
    exact Or.inl ⟨find_size_some _ _ _ hfind, v, hv⟩

theorem applySize_cases (req : Request) (product product1 : Product)
    (h : applySize req product = Except.ok product1) :
    (truthy req.size = none ∧ product1 = product) ∨
    ∃ size sizeStock1, truthy req.size = some size ∧
      updateSizeStock req.operation req.quantity size product.sizeStock = Except.ok sizeStock1 ∧
      product1 = { product with sizeStock := sizeStock1 } := by
  unfold applySize at h
  cases hsize : truthy req.size with
  | none =>
    rw [hsize] at h
    simp only [Except.ok.injEq] at h
    exact Or.inl ⟨rfl, h.symm⟩
  | some size =>
    rw [hsize] at h
    simp only at h
    cases hu : updateSizeStock req.operation req.quantity size product.sizeStock with
    | error response => rw [hu] at h; cases h
    | ok sizeStock1 =>
      rw [hu] at h
      simp only [Except.ok.injEq] at h
      exact Or.inr ⟨size, sizeStock1, rfl, hu, h.symm⟩

theorem applySize_frame (req : Request) (product product1 : Product)
    (h : applySize req product = Except.ok product1) :
    product1 = { product with sizeStock := product1.sizeStock } := by
  rcases applySize_cases req product product1 h with ⟨_, h1⟩ | ⟨_, _, _, _, h1⟩
  · rw [h1]
  · rw [h1]

theorem savedProduct_sizeStock (env : Env) (req : Request) (product1 : Product)
    (newStock : Int) :
    (savedProduct env req product1 newStock).sizeStock = product1.sizeStock := by
  unfold savedProduct
  dsimp only
  rw [productPreSave_sizeStock]
  split <;> rfl

theorem savedProduct_reservedStock (env : Env) (req : Request) (product1 : Product)
    (newStock : Int) :
    (savedProduct env req product1 newStock).reservedStock = product1.reservedStock := by
  unfold savedProduct
  dsimp only
  rw [productPreSave_reservedStock]
  split <;> rfl

/-- The store after a committed `add`, `subtract` or `set`, with the saved document. -/
theorem patchStock_commit_saved (env : Env) (st : State) (req : Request) (user : User)
    (product : Product) (huser : req.user = some user)
    (hprod : findProduct st.products req.productId = some product)
    (hfab : (consumeFabric env user product req st).1 = none)
    (hsize : ∀ size, truthy req.size = some size → req.operation = "subtract" →
      req.quantity ≤ sizeBucket product.sizeStock size)
    (hop : req.operation = "add" ∨ req.operation = "subtract" ∨ req.operation = "set") :
    ∃ product1 newStock saved,
      applySize req product = Except.ok product1 ∧
      saved = savedProduct env req product1 newStock ∧
      (patchStock env st req).1 = Response.stockUpdated saved newStock ∧
      (patchStock env st req).2.products = writeProduct st.products saved ∧
      findProduct (patchStock env st req).2.products req.productId = some saved := by
  obtain ⟨sizeStock, hok⟩ := applySize_ok req product hsize
  have hid := findProduct_productId _ _ _ hprod
  rw [patchStock_past_fabric env st req user product huser hprod hfab,
    mutateStock_commit env user product req _ _ hop, commitStock_ok _ _ _ _ _ _ _ _ hok]
  refine ⟨_, _, _, hok, rfl, rfl, ?_, ?_⟩
  · simp only [consumeFabric_products]
  · simp only [consumeFabric_products]
    exact findProduct_writeProduct _ _ _ _ hprod (by rw [savedProduct_productId]; exact hid)

/-- A `subtract` that is short on its size bucket is answered with the size error. -/
theorem patchStock_subtract_short (env : Env) (st : State) (req : Request) (user : User)
    (product : Product) (size : String) (huser : req.user = some user)
    (hprod : findProduct st.products req.productId = some product)
    (hop : req.operation = "subtract") (hsize : truthy req.size = some size)
    (hlt : sizeBucket product.sizeStock size < req.quantity) :
    patchStock env st req =
      (Response.notEnoughSizeStock size (sizeBucket product.sizeStock size) req.quantity,
        st) := by
  have hnp : ¬ (req.operation = "add" ∧ req.reason = some "production") := by
    rw [hop]; simp
  have hfab := consumeFabric_not_production env user product req st hnp
  rw [patchStock_past_fabric env st req user product huser hprod (by rw [hfab]), hfab]
  simp only [mutateStock, commitStock, applySize, hop, hsize,
    updateSizeStock_short req.quantity size product.sizeStock hlt]
  simp

theorem mem_writeProduct (products : List Product) (saved p : Product)
    (hp : p ∈ writeProduct products saved) : p ∈ products ∨ p = saved := by
  induction products with
  | nil => simp [writeProduct] at hp
  | cons d rest ih =>
    unfold writeProduct at hp
    by_cases hd : d.productId = saved.productId
    · simp only [beq_iff_eq, hd, if_true, List.mem_cons] at hp
      rcases hp with h | h
      · exact Or.inr h
      · exact Or.inl (List.mem_cons_of_mem _ h)
    · simp only [beq_iff_eq, hd, if_false, List.mem_cons] at hp
      rcases hp with h | h
      · left; rw [h]; exact List.mem_cons_self _ _
      · rcases ih h with h2 | h2
        · exact Or.inl (List.mem_cons_of_mem _ h2)
        · exact Or.inr h2

/-- The saved product of a committed sized `add`, `subtract` or `set`: its aggregate
stock, and its size buckets, written at the entry of the size when there is one and
extended by an empty bucket otherwise. -/
theorem patchStock_sized (env : Env) (st : State) (req : Request) (user : User)
    (product : Product) (size : String) (huser : req.user = some user)
    (hprod : findProduct st.products req.productId = some product)
    (hfab : (consumeFabric env user product req st).1 = none)
    (hsize : truthy req.size = some size)
    (hop : req.operation = "add" ∨ req.operation = "set" ∨
      (req.operation = "subtract" ∧ req.quantity ≤ sizeBucket product.sizeStock size)) :
    ∃ saved,
      (patchStock env st req).1 = Response.stockUpdated saved saved.stock ∧
      findProduct (patchStock env st req).2.products req.productId = some saved ∧
      saved.stock = (if req.operation = "add" then product.stock + req.quantity
        else if req.operation = "subtract" then max 0 (product.stock - req.quantity)
        else req.quantity) ∧
      (((∃ e ∈ product.sizeStock, e.size = size) ∧
          ∃ v, saved.sizeStock = setSizeStock product.sizeStock size v ∧
            (req.operation = "add" → v = sizeBucket product.sizeStock size + req.quantity) ∧
            (req.operation = "subtract" →
              v = sizeBucket product.sizeStock size - req.quantity) ∧
            (req.operation = "set" → v = req.quantity)) ∨
        ((∀ e ∈ product.sizeStock, e.size ≠ size) ∧
          saved.sizeStock = product.sizeStock ++ [{ size := size, stock := 0 }] ∧
          (req.operation = "subtract" → req.quantity ≤ 0))) := by
  have hop3 : req.operation = "add" ∨ req.operation = "subtract" ∨ req.operation = "set" := by
    rcases hop with h | h | h
    · exact Or.inl h
    · exact Or.inr (Or.inr h)
    · exact Or.inr (Or.inl h.1)
  have hcheck : ∀ size1, truthy req.size = some size1 → req.operation = "subtract" →
      req.quantity ≤ sizeBucket product.sizeStock size1 := by
    intro size1 hs1 hsub
    rw [hsize] at hs1
    cases hs1
    rcases hop with h | h | h
    · rw [h] at hsub; exact absurd hsub (by decide)
    · rw [h] at hsub; exact absurd hsub (by decide)
    · exact h.2
  obtain ⟨product1, newStock, saved, hok, hsaved, hresp, -, hfind⟩ :=
    patchStock_commit_saved env st req user product huser hprod hfab hcheck hop3
  obtain ⟨saved1, newStock1, hnew1, hstock1, hid1, -, hproducts1, -⟩ :=
    patchStock_commit env st req user product huser hprod hfab hcheck hop3
  have hsame : saved = saved1 := by
    rw [hproducts1, findProduct_writeProduct _ _ _ _ hprod hid1] at hfind
    exact (Option.some.inj hfind).symm
  have hss : saved.sizeStock = product1.sizeStock := by rw [hsaved, savedProduct_sizeStock]
  have hst : saved.stock = newStock := by rw [hsaved, savedProduct_stock]
  rcases applySize_cases req product product1 hok with
    ⟨hnone, _⟩ | ⟨size1, sizeStock1, hs1, hu, hp1⟩
  · rw [hsize] at hnone; cases hnone
  · rw [hsize] at hs1
    cases hs1
    refine ⟨saved, by rw [hresp, hst], hfind, by rw [hsame, hstock1, hnew1], ?_⟩
    rcases updateSizeStock_result _ _ _ _ _ hu with
      ⟨hex, v, hl, hadd, hsub, hset, -⟩ | ⟨hno, hl, hq⟩
    · exact Or.inl ⟨hex, v, by rw [hss, hp1, hl], hadd, fun h => (hsub h).2, hset⟩
    · exact Or.inr ⟨hno, by rw [hss, hp1, hl], hq⟩

/-- The size buckets after a committed sized `add`, `set` or `subtract`: a bucket that
existed ends at `p + q`, `q` or `p - q` and the list of sizes is the same; when no entry
had the size, exactly one entry of that size is appended and its stock is 0 whatever the
quantity; the entries of every other size are unchanged, and sizes that were unique stay
unique. -/
theorem patchStock_size_bucket (env : Env) (st : State) (req : Request) (user : User)
    (product : Product) (size : String) (huser : req.user = some user)
    (hprod : findProduct st.products req.productId = some product)
    (hfab : (consumeFabric env user product req st).1 = none)
    (hsize : truthy req.size = some size)
    (hop : req.operation = "add" ∨ req.operation = "set" ∨
      (req.operation = "subtract" ∧ req.quantity ≤ sizeBucket product.sizeStock size)) :
    ∃ saved,
      (patchStock env st req).1 = Response.stockUpdated saved saved.stock ∧
      findProduct (patchStock env st req).2.products req.productId = some saved ∧
      ((∃ e ∈ product.sizeStock, e.size = size) →
        (req.operation = "add" →
          sizeBucket saved.sizeStock size =
            sizeBucket product.sizeStock size + req.quantity) ∧
        (req.operation = "set" → sizeBucket saved.sizeStock size = req.quantity) ∧
        (req.operation = "subtract" →
          sizeBucket saved.sizeStock size =
            sizeBucket product.sizeStock size - req.quantity) ∧
        saved.sizeStock.map (fun e => e.size) = product.sizeStock.map (fun e => e.size)) ∧
      ((∀ e ∈ product.sizeStock, e.size ≠ size) →
        saved.sizeStock = product.sizeStock ++ [{ size := size, stock := 0 }] ∧
        sizeBucket saved.sizeStock size = 0) ∧
      saved.sizeStock.filter (fun e => e.size != size) =
        product.sizeStock.filter (fun e => e.size != size) ∧
      ((product.sizeStock.map (fun e => e.size)).Nodup →
        (saved.sizeStock.map (fun e => e.size)).Nodup) := by
  obtain ⟨saved, hresp, hfind, -, hcases⟩ :=
    patchStock_sized env st req user product size huser hprod hfab hsize hop
  refine ⟨saved, hresp, hfind, ?_, ?_, ?_, ?_⟩
  · intro hex
    rcases hcases with ⟨_, v, hss, hadd, hsub, hset⟩ | ⟨hno, _, _⟩
    · have hbucket : sizeBucket saved.sizeStock size = v := by
        rw [hss]; exact sizeBucket_setSizeStock_same _ size v hex
      exact ⟨fun h => by rw [hbucket, hadd h], fun h => by rw [hbucket, hset h],
        fun h => by rw [hbucket, hsub h], by rw [hss, setSizeStock_sizes]⟩
    · obtain ⟨e, he, hes⟩ := hex
      exact absurd hes (hno e he)
  · intro hno
    rcases hcases with ⟨⟨e, he, hes⟩, _⟩ | ⟨_, hss, _⟩
    · exact absurd hes (hno e he)
    · exact ⟨hss, by rw [hss]; exact (sizeBucket_push _ size hno).1⟩
  · rcases hcases with ⟨_, v, hss, _⟩ | ⟨_, hss, _⟩
    · rw [hss, filter_setSizeStock]
    · rw [hss]; simp [List.filter_append]
  · intro hnodup
    rcases hcases with ⟨_, v, hss, _⟩ | ⟨hno, hss, _⟩
    · rw [hss, setSizeStock_sizes]; exact hnodup
    · rw [hss, List.map_append, List.map_cons, List.map_nil]
      refine List.Nodup.append hnodup (List.nodup_singleton _) ?_
      intro a ha hb
      rw [List.mem_singleton] at hb
      obtain ⟨e, he, hes⟩ := List.mem_map.mp ha
      exact hno e he (hes.trans hb)

/-- C20. Evaluation at product P with aggregate stock 8 and the one size M = 2: an `add`
of 3 for the new size L is answered with success and stores aggregate stock 11 with sizes
M = 2, L = 0, and a `set` of 4 for L stores L = 0 as well, so a created bucket ends at 0
and not at `p + q` or `q`; the same `add` for the existing size M stores M = 5. -/
theorem created_bucket_stays_empty :
    (patchStock sampleEnv (sampleState (sampleProduct 8 []) [])
      (sampleRequest "add" 3 none (some "L"))).1.isStockUpdated = true ∧
    ((findProduct (patchStock sampleEnv (sampleState (sampleProduct 8 []) [])
      (sampleRequest "add" 3 none (some "L"))).2.products "P").map
        fun p => (p.stock, p.sizeStock)) =
      some (11, [{ size := "M", stock := 2 }, { size := "L", stock := 0 }]) ∧
    ((findProduct (patchStock sampleEnv (sampleState (sampleProduct 8 []) [])
      (sampleRequest "set" 4 none (some "L"))).2.products "P").map
        fun p => (p.stock, p.sizeStock)) =
      some (4, [{ size := "M", stock := 2 }, { size := "L", stock := 0 }]) ∧
    ((findProduct (patchStock sampleEnv (sampleState (sampleProduct 8 []) [])
      (sampleRequest "add" 3 none (some "M"))).2.products "P").map
        fun p => (p.stock, p.sizeStock)) =
      some (11, [{ size := "M", stock := 5 }]) := by
  decide

/-- C13. Subtract never produces negative stock: on a product with `stock ≥ 0` and every
size bucket `≥ 0`, a `subtract` that is answered with success, for any quantity, saves an
aggregate stock `≥ 0`, leaves every size bucket `≥ 0`, and in particular the bucket of the
size given `≥ 0`: it ends at `p - q` when an entry of the size existed, and at 0 when the
bucket was created by the request. -/
theorem subtract_non_negative (env : Env) (st : State) (req : Request) (product : Product)
    (hprod : findProduct st.products req.productId = some product)
    (hop : req.operation = "subtract")
    (hbuckets : ∀ entry ∈ product.sizeStock, 0 ≤ entry.stock)
    (hok : (patchStock env st req).1.isStockUpdated = true) :
    ∃ saved,
      findProduct (patchStock env st req).2.products req.productId = some saved ∧
      0 ≤ saved.stock ∧
      (∀ entry ∈ saved.sizeStock, 0 ≤ entry.stock) ∧
      (∀ size, truthy req.size = some size →
        0 ≤ sizeBucket saved.sizeStock size ∧
        ((∃ e ∈ product.sizeStock, e.size = size) →
          sizeBucket saved.sizeStock size =
            sizeBucket product.sizeStock size - req.quantity) ∧
        ((∀ e ∈ product.sizeStock, e.size ≠ size) →
          sizeBucket saved.sizeStock size = 0)) := by
  obtain ⟨saved0, newStock0, hresp⟩ := (isStockUpdated_iff _).mp hok
  obtain ⟨user, product0, huser, hprod0, hfab⟩ :=
    patchStock_updated_inv env st req saved0 newStock0 hresp
  rw [hprod] at hprod0
  cases hprod0
  have hcheck : ∀ size, truthy req.size = some size → req.operation = "subtract" →
      req.quantity ≤ sizeBucket product.sizeStock size := by
    intro size hs _
    by_contra hlt
    have := patchStock_subtract_short env st req user product size huser hprod hop hs
      (not_le.mp hlt)
    rw [this] at hresp
    cases hresp
  obtain ⟨product1, newStock, saved, hok1, hsaved, -, -, hfind⟩ :=
    patchStock_commit_saved env st req user product huser hprod hfab hcheck
      (Or.inr (Or.inl hop))
  have hss : saved.sizeStock = product1.sizeStock := by rw [hsaved, savedProduct_sizeStock]
  obtain ⟨saved1, newStock1, hnew1, hstock1, hid1, -, hproducts1, -⟩ :=
    patchStock_commit env st req user product huser hprod hfab hcheck (Or.inr (Or.inl hop))
  have hsame : saved = saved1 := by
    rw [hproducts1, findProduct_writeProduct _ _ _ _ hprod hid1] at hfind
    exact (Option.some.inj hfind).symm
  refine ⟨saved, hfind, ?_, ?_, ?_⟩
  · rw [hsame, hstock1, hnew1]
    simp [hop]
  · intro entry hentry
    rw [hss] at hentry
    rcases applySize_cases req product product1 hok1 with ⟨_, hp1⟩ | ⟨size, sizeStock1, hs, hu, hp1⟩
    · rw [hp1] at hentry; exact hbuckets entry hentry
    · rw [hp1] at hentry
      simp only at hentry
      rcases updateSizeStock_result _ _ _ _ _ hu with
        ⟨_, v, hl, -, hsub, -, -⟩ | ⟨_, hl, -⟩
      · rw [hl] at hentry
        rcases mem_setSizeStock _ size v entry hentry with hin | ⟨_, hv⟩
        · exact hbuckets entry hin
        · rw [hv, (hsub hop).2]
          exact sub_nonneg.mpr (hsub hop).1
      · rw [hl] at hentry
        rcases List.mem_append.mp hentry with h | h
        · exact hbuckets entry h
        · rw [List.mem_singleton] at h; rw [h]
  · intro size hs
    rcases applySize_cases req product product1 hok1 with ⟨hnone, _⟩ | ⟨size1, sizeStock1, hs1, hu, hp1⟩
    · rw [hs] at hnone; cases hnone
    · rw [hs] at hs1
      cases hs1
      rcases updateSizeStock_result _ _ _ _ _ hu with
        ⟨hex, v, hl, -, hsub, -, -⟩ | ⟨hno, hl, -⟩
      · have hbucket : sizeBucket saved.sizeStock size = v := by
          rw [hss, hp1, hl]; exact sizeBucket_setSizeStock_same _ size v hex
        refine ⟨?_, fun _ => ?_, fun hno => ?_⟩
        · rw [hbucket, (hsub hop).2]
          exact sub_nonneg.mpr (hsub hop).1
        · rw [hbucket, (hsub hop).2]
        · obtain ⟨e, he, hes⟩ := hex
          exact absurd hes (hno e he)
      · have hbucket : sizeBucket saved.sizeStock size = 0 := by
          rw [hss, hp1, hl]; exact (sizeBucket_push _ size hno).1
        refine ⟨by rw [hbucket], fun hex => ?_, fun _ => hbucket⟩
        obtain ⟨e, he, hes⟩ := hex
        exact absurd hes (hno e he)

theorem subtract_non_negative_witness :
    (patchStock sampleEnv (sampleState (sampleProduct 8 []) [])
      (sampleRequest "subtract" 2 none (some "M"))).1.isStockUpdated = true ∧
    ∃ saved,
      findProduct (patchStock sampleEnv (sampleState (sampleProduct 8 []) [])
        (sampleRequest "subtract" 2 none (some "M"))).2.products "P" = some saved ∧
      0 ≤ saved.stock ∧
      0 ≤ sizeBucket saved.sizeStock "M" ∧
      sizeBucket saved.sizeStock "M" = 2 - 2 :=
  ⟨by decide,
    (subtract_non_negative sampleEnv (sampleState (sampleProduct 8 []) [])
      (sampleRequest "subtract" 2 none (some "M")) (sampleProduct 8 []) (by decide) rfl
      (by decide) (by decide)).imp
      fun _ h => ⟨h.1, h.2.1, (h.2.2.2 "M" (by decide)).1,
        (h.2.2.2 "M" (by decide)).2.1 ⟨{ size := "M", stock := 2 }, by decide, rfl⟩⟩⟩

theorem sizeBucket_nonneg (l : List SizeEntry) (size : String)
    (h : ∀ e ∈ l, 0 ≤ e.stock) : 0 ≤ sizeBucket l size := by
  unfold sizeBucket
  cases hfind : l.find? (fun s => s.size == size) with
  | none => exact le_refl 0
  | some e => exact h e (List.mem_of_find?_eq_some hfind)

theorem applySize_nonneg (req : Request) (product product1 : Product)
    (h : applySize req product = Except.ok product1)
    (hbuckets : ∀ e ∈ product.sizeStock, 0 ≤ e.stock) (hq : 0 ≤ req.quantity) :
    ∀ e ∈ product1.sizeStock, 0 ≤ e.stock := by
  intro entry hentry
  rcases applySize_cases req product product1 h with ⟨_, hp1⟩ | ⟨size, sizeStock1, _, hu, hp1⟩
  · rw [hp1] at hentry; exact hbuckets entry hentry
  · rw [hp1] at hentry
    simp only at hentry
    rcases updateSizeStock_result _ _ _ _ _ hu with
      ⟨_, v, hl, hadd, hsub, hset, hother⟩ | ⟨_, hl, -⟩
    · have hp := sizeBucket_nonneg product.sizeStock size hbuckets
      have hv : 0 ≤ v := by
        by_cases h1 : req.operation = "add"
        · rw [hadd h1]; exact add_nonneg hp hq
        · by_cases h2 : req.operation = "subtract"
          · rw [(hsub h2).2]; exact sub_nonneg.mpr (hsub h2).1
          · by_cases h3 : req.operation = "set"
            · rw [hset h3]; exact hq
            · rw [hother h1 h2 h3]; exact hp
      rw [hl] at hentry
      rcases mem_setSizeStock _ size v entry hentry with hin | ⟨_, hval⟩
      · exact hbuckets entry hin
      · rw [hval]; exact hv
    · rw [hl] at hentry
      rcases List.mem_append.mp hentry with h4 | h4
      · exact hbuckets entry h4
      · rw [List.mem_singleton] at h4; rw [h4]

theorem patchStock_answered (env : Env) (st : State) (req : Request) (user : User)
    (product : Product) (response : Response) (huser : req.user = some user)
    (hprod : findProduct st.products req.productId = some product)
    (hfab : (consumeFabric env user product req st).1 = some response) :
    patchStock env st req = (response, (consumeFabric env user product req st).2) := by
  unfold patchStock
  simp only [huser, hprod]
  cases hc : consumeFabric env user product req st with
  | mk r st1 =>
    rw [hc] at hfab
    simp only at hfab
    subst hfab
    rfl

theorem productPreSave_nonNegative (now : Nat) (x : Product) (h : nonNegative x) :
    nonNegative (productPreSave now x) := by
  unfold nonNegative at *
  rw [productPreSave_stock, productPreSave_reservedStock, productPreSave_sizeStock]
  exact h

/-- The products after any request: untouched, or one document written back. -/
theorem patchStock_nonNegative (env : Env) (st : State) (req : Request) (product : Product)
    (hprod : findProduct st.products req.productId = some product)
    (hinv : nonNegative product) (hq : 0 ≤ req.quantity) :
    (patchStock env st req).2.products = st.products ∨
    ∃ saved, (patchStock env st req).2.products = writeProduct st.products saved ∧
      saved.productId = req.productId ∧ nonNegative saved := by
  have hid := findProduct_productId _ _ _ hprod
  cases huser : req.user with
  | none =>
    left
    unfold patchStock
    simp only [huser]
  | some user =>
    cases hfab : (consumeFabric env user product req st).1 with
    | some response =>
      left
      rw [patchStock_answered env st req user product response huser hprod hfab,
        consumeFabric_products]
    | none =>
      rw [patchStock_past_fabric env st req user product huser hprod hfab, jsOr_zero]
      by_cases hop : req.operation = "add" ∨ req.operation = "subtract" ∨
          req.operation = "set"
      · rw [mutateStock_commit env user product req _ _ hop]
        cases hsz : applySize req product with
        | error response =>
          left
          unfold commitStock
          rw [hsz]
          simp only [consumeFabric_products]
        | ok product1 =>
          right
          rw [commitStock_ok _ _ _ _ _ _ _ _ hsz]
          refine ⟨_, by rw [consumeFabric_products], ?_, ?_⟩
          · rw [savedProduct_productId, applySize_frame req product product1 hsz]
            exact hid
          · unfold nonNegative
            rw [savedProduct_stock, savedProduct_reservedStock, savedProduct_sizeStock]
            refine ⟨?_, ?_, applySize_nonneg req product product1 hsz hinv.2.2 hq⟩
            · rcases hop with h | h | h
              · rw [if_pos h]; exact add_nonneg hinv.1 hq
              · rw [if_neg (by rw [h]; decide), if_pos h, mathMax0_eq]
                exact le_max_left _ _
              · rw [if_neg (by rw [h]; decide), if_neg (by rw [h]; decide)]; exact hq
            · rw [applySize_frame req product product1 hsz]
              exact hinv.2.1
      · have h1 : req.operation ≠ "add" := fun h => hop (Or.inl h)
        have h2 : req.operation ≠ "subtract" := fun h => hop (Or.inr (Or.inl h))
        have h3 : req.operation ≠ "set" := fun h => hop (Or.inr (Or.inr h))
        unfold mutateStock
        rw [if_neg h1, if_neg h2, if_neg h3]
        by_cases h4 : req.operation = "reserve"
        · right
          rw [if_pos h4]
          refine ⟨_, by rw [consumeFabric_products], ?_, ?_⟩
          · rw [productPreSave_productId]; exact hid
          · apply productPreSave_nonNegative
            exact ⟨hinv.1, by rw [jsOr_zero]; exact add_nonneg hinv.2.1 hq, hinv.2.2⟩
        · rw [if_neg h4]
          by_cases h5 : req.operation = "release"
          · right
            rw [if_pos h5]
            refine ⟨_, by rw [consumeFabric_products], ?_, ?_⟩
            · rw [productPreSave_productId]; exact hid
            · apply productPreSave_nonNegative
              exact ⟨hinv.1, by rw [mathMax0_eq]; exact le_max_left _ _, hinv.2.2⟩
          · left
            rw [if_neg h5]
            simp only [consumeFabric_products]

/-- C14. No negative product inventory: from a product with `stock ≥ 0`,
`reservedStock ≥ 0` and every size bucket `≥ 0`, any request with `quantity ≥ 0` (`add`,
`subtract`, `set`, `reserve`, `release` or anything else, with or without a size,
answered with success or not) leaves a persisted product with `stock ≥ 0`,
`reservedStock ≥ 0` and every size bucket `≥ 0`; every other document of the store is
one that was there before. -/
theorem product_non_negative (env : Env) (st : State) (req : Request) (product : Product)
    (hprod : findProduct st.products req.productId = some product)
    (hinv : nonNegative product) (hq : 0 ≤ req.quantity) :
    ∃ saved,
      findProduct (patchStock env st req).2.products req.productId = some saved ∧
      nonNegative saved ∧
      ∀ p ∈ (patchStock env st req).2.products, p ∈ st.products ∨ p = saved := by
  rcases patchStock_nonNegative env st req product hprod hinv hq with h | ⟨saved, h, hid, hs⟩
  · rw [h]
    exact ⟨product, hprod, hinv, fun p hp => Or.inl hp⟩
  · rw [h]
    exact ⟨saved, findProduct_writeProduct _ _ _ _ hprod hid, hs,
      fun p hp => mem_writeProduct _ _ _ hp⟩

theorem product_non_negative_witness :
    nonNegative (sampleProduct 3 []) ∧ (0 : Int) ≤ 5 ∧
    ∃ saved,
      findProduct (patchStock sampleEnv (sampleState (sampleProduct 3 []) [])
        (sampleRequest "subtract" 5 none none)).2.products "P" = some saved ∧
      nonNegative saved :=
  ⟨by decide, by decide,
    (product_non_negative sampleEnv (sampleState (sampleProduct 3 []) [])
      (sampleRequest "subtract" 5 none none) (sampleProduct 3 []) (by decide) (by decide)
      (by decide)).imp fun _ h => ⟨h.1, h.2.1⟩⟩

/-! ### The records and entries of the commit pass -/

theorem commitPass_cons_none (env : Env) (user : User) (product : Product) (quantity : Int)
    (usage : FabricUsage) (rest : List FabricUsage) (i : Nat) (fabrics : List Fabric)
    (txs : List FabricTransaction) (h : findFabric fabrics usage.fabricId = none) :
    commitPass env user product quantity (usage :: rest) i fabrics txs =
      (false, fabrics, txs) := by
  rw [commitPass, h]

theorem commitPass_cons_some (env : Env) (user : User) (product : Product) (quantity : Int)
    (usage : FabricUsage) (rest : List FabricUsage) (i : Nat) (fabrics : List Fabric)
    (txs : List FabricTransaction) (fabric : Fabric)
    (h : findFabric fabrics usage.fabricId = some fabric) :
    commitPass env user product quantity (usage :: rest) i fabrics txs =
      commitPass env user product quantity rest (i + 1)
        (writeFabric fabrics (deductLine env.now product quantity usage fabric))
        (if env.fabricTxPersists i = true then
          txs ++ [usageRecord env.now user product quantity usage fabric]
        else txs) := by
  rw [commitPass, h]
  rfl

theorem deductLine_fabricId (now : Nat) (product : Product) (quantity : Int)
    (usage : FabricUsage) (fabric : Fabric) :
    (deductLine now product quantity usage fabric).fabricId = fabric.fabricId := by
  unfold deductLine
  rw [fabricPreSave_fabricId]

theorem deductLine_currentStock (now : Nat) (product : Product) (quantity : Int)
    (usage : FabricUsage) (fabric : Fabric) :
    (deductLine now product quantity usage fabric).currentStock =
      fabric.currentStock - usage.metersUsed * quantity := by
  unfold deductLine
  rw [fabricPreSave_currentStock, jsOr_zero]

theorem fabricPreSave_costPerMeter (f : Fabric) :
    (fabricPreSave f).costPerMeter = f.costPerMeter := by
  unfold fabricPreSave
  split_ifs <;> rfl

theorem fabricPreSave_usedInProducts (f : Fabric) :
    (fabricPreSave f).usedInProducts = f.usedInProducts := by
  unfold fabricPreSave
  split_ifs <;> rfl

theorem deductLine_costPerMeter (now : Nat) (product : Product) (quantity : Int)
    (usage : FabricUsage) (fabric : Fabric) :
    (deductLine now product quantity usage fabric).costPerMeter = fabric.costPerMeter := by
  unfold deductLine
  rw [fabricPreSave_costPerMeter]

theorem deductLine_usedInProducts (env : Env) (product : Product) (quantity : Int)
    (usage : FabricUsage) (fabric : Fabric) :
    (deductLine env.now product quantity usage fabric).usedInProducts =
      fabric.usedInProducts ++ [usedEntry env product quantity usage] := by
  unfold deductLine usedEntry
  rw [fabricPreSave_usedInProducts, jsOr_zero]

/-- The flag and the fabric store of the second pass depend on the clock only, not on
the line index, the log, or which audit saves succeed. -/
theorem commitPass_fabrics_eq (env1 env2 : Env) (hnow : env1.now = env2.now) (user : User)
    (product : Product) (quantity : Int) (lines : List FabricUsage) :
    ∀ (i j : Nat) (fabrics : List Fabric) (txs1 txs2 : List FabricTransaction),
      (commitPass env1 user product quantity lines i fabrics txs1).1 =
        (commitPass env2 user product quantity lines j fabrics txs2).1 ∧
      (commitPass env1 user product quantity lines i fabrics txs1).2.1 =
        (commitPass env2 user product quantity lines j fabrics txs2).2.1 := by
  induction lines with
  | nil => intro i j fabrics txs1 txs2; exact ⟨rfl, rfl⟩
  | cons usage rest ih =>
    intro i j fabrics txs1 txs2
    cases hfind : findFabric fabrics usage.fabricId with
    | none =>
      rw [commitPass_cons_none _ _ _ _ _ _ _ _ _ hfind,
        commitPass_cons_none _ _ _ _ _ _ _ _ _ hfind]
      exact ⟨rfl, rfl⟩
    | some fabric =>
      rw [commitPass_cons_some _ _ _ _ _ _ _ _ _ _ hfind,
        commitPass_cons_some _ _ _ _ _ _ _ _ _ _ hfind, hnow]
      exact ih _ _ _ _ _

theorem commitPass_fabricsAfter (env : Env) (user : User) (product : Product)
    (quantity : Int) (lines : List FabricUsage) (i : Nat) (fabrics : List Fabric)
    (txs : List FabricTransaction) :
    (commitPass env user product quantity lines i fabrics txs).2.1 =
      fabricsAfter env user product quantity lines fabrics :=
  (commitPass_fabrics_eq env env rfl user product quantity lines i 0 fabrics txs []).2

theorem fabricsAfter_nil (env : Env) (user : User) (product : Product) (quantity : Int)
    (fabrics : List Fabric) : fabricsAfter env user product quantity [] fabrics = fabrics :=
  rfl

theorem fabricsAfter_cons (env : Env) (user : User) (product : Product) (quantity : Int)
    (usage : FabricUsage) (rest : List FabricUsage) (fabrics : List Fabric) (fabric : Fabric)
    (h : findFabric fabrics usage.fabricId = some fabric) :
    fabricsAfter env user product quantity (usage :: rest) fabrics =
      fabricsAfter env user product quantity rest
        (writeFabric fabrics (deductLine env.now product quantity usage fabric)) := by
  unfold fabricsAfter
  rw [commitPass_cons_some _ _ _ _ _ _ _ _ _ _ h, commitPass_fabricsAfter]
  rfl

theorem mutateStock_fabricTxs (env : Env) (user : User) (product : Product) (req : Request)
    (previousStock : Int) (st : State) :
    (mutateStock env user product req previousStock st).2.fabricTxs = st.fabricTxs := by
  unfold mutateStock commitStock
  dsimp only
  repeat' split
  all_goals rfl

/-- A production request whose lines all pass validation: the fabric store and the
FabricTransaction log after it are those of the second pass. -/
theorem patchStock_production (env : Env) (st : State) (req : Request) (user : User)
    (product : Product) (huser : req.user = some user)
    (hprod : findProduct st.products req.productId = some product)
    (hop : req.operation = "add") (hreason : req.reason = some "production")
    (hvalid : ∀ usage ∈ product.fabricUsed, ∃ fabric,
      findFabric st.fabrics usage.fabricId = some fabric ∧
        usage.metersUsed * req.quantity ≤ fabric.currentStock) :
    (consumeFabric env user product req st).1 = none ∧
    (patchStock env st req).2.fabrics =
      fabricsAfter env user product req.quantity product.fabricUsed st.fabrics ∧
    (patchStock env st req).2.fabricTxs =
      (commitPass env user product req.quantity product.fabricUsed 0 st.fabrics
        st.fabricTxs).2.2 := by
  have hcf := consumeFabric_production env user product req st hop hreason hvalid
  have hfab : (consumeFabric env user product req st).1 = none := by rw [hcf]
  refine ⟨hfab, ?_, ?_⟩
  · rw [patchStock_past_fabric env st req user product huser hprod hfab, mutateStock_fabrics,
      hcf]
    exact commitPass_fabricsAfter _ _ _ _ _ _ _ _
  · rw [patchStock_past_fabric env st req user product huser hprod hfab,
      mutateStock_fabricTxs, hcf]

theorem exists_after_deductLine (now : Nat) (product : Product) (quantity : Int)
    (usage : FabricUsage) (fabrics : List Fabric) (fabric : Fabric) (fabricId : String)
    (hex : ∃ f, findFabric fabrics fabricId = some f) :
    ∃ f, findFabric (writeFabric fabrics (deductLine now product quantity usage fabric))
      fabricId = some f := by
  obtain ⟨f, hf⟩ := hex
  by_cases hsame : (deductLine now product quantity usage fabric).fabricId = fabricId
  · exact ⟨_, findFabric_writeFabric_same _ _ _ _ hf hsame⟩
  · exact ⟨f, by rw [findFabric_writeFabric_other _ _ _ hsame]; exact hf⟩

theorem findFabric_deductLine (now : Nat) (product : Product) (quantity : Int)
    (usage : FabricUsage) (fabrics : List Fabric) (fabric : Fabric)
    (hfind : findFabric fabrics usage.fabricId = some fabric) :
    findFabric (writeFabric fabrics (deductLine now product quantity usage fabric))
      usage.fabricId = some (deductLine now product quantity usage fabric) :=
  findFabric_writeFabric_same _ _ _ _ hfind
    (by rw [deductLine_fabricId]; exact findFabric_fabricId _ _ _ hfind)

/-- Every record that the second pass writes is the record of one line, built from the
fabric as the earlier lines left it. -/
theorem commitPass_written (env : Env) (user : User) (product : Product) (quantity : Int)
    (lines : List FabricUsage) :
    ∀ (i : Nat) (fabrics : List Fabric) (txs : List FabricTransaction),
      (∀ usage ∈ lines, ∃ f, findFabric fabrics usage.fabricId = some f) →
      ∃ written,
        (commitPass env user product quantity lines i fabrics txs).2.2 = txs ++ written ∧
        ∀ t ∈ written, ∃ pre usage post fabric,
          lines = pre ++ usage :: post ∧
          findFabric (fabricsAfter env user product quantity pre fabrics) usage.fabricId =
            some fabric ∧
          findFabric (fabricsAfter env user product quantity (pre ++ [usage]) fabrics)
            usage.fabricId = some (deductLine env.now product quantity usage fabric) ∧
          t = usageRecord env.now user product quantity usage fabric := by
  induction lines with
  | nil =>
    intro i fabrics txs _
    exact ⟨[], by simp [commitPass], fun t ht => absurd ht (List.not_mem_nil _)⟩
  | cons usage rest ih =>
    intro i fabrics txs hex
    obtain ⟨f0, hf0⟩ := hex usage (List.mem_cons_self _ _)
    have hex1 : ∀ u ∈ rest, ∃ f, findFabric
        (writeFabric fabrics (deductLine env.now product quantity usage f0)) u.fabricId =
          some f :=
      fun u hu => exists_after_deductLine _ _ _ _ _ _ _ (hex u (List.mem_cons_of_mem _ hu))
    rw [commitPass_cons_some _ _ _ _ _ _ _ _ _ _ hf0]
    obtain ⟨written1, hw1, hall1⟩ := ih (i + 1)
      (writeFabric fabrics (deductLine env.now product quantity usage f0))
      (if env.fabricTxPersists i = true then
        txs ++ [usageRecord env.now user product quantity usage f0] else txs) hex1
    have hlater : ∀ t ∈ written1, ∃ pre usage1 post fabric,
        usage :: rest = pre ++ usage1 :: post ∧
        findFabric (fabricsAfter env user product quantity pre fabrics) usage1.fabricId =
          some fabric ∧
        findFabric (fabricsAfter env user product quantity (pre ++ [usage1]) fabrics)
          usage1.fabricId = some (deductLine env.now product quantity usage1 fabric) ∧
        t = usageRecord env.now user product quantity usage1 fabric := by
      intro t ht
      obtain ⟨pre, usage1, post, fabric, hsplit, hbefore, hafter, ht1⟩ := hall1 t ht
      refine ⟨usage :: pre, usage1, post, fabric, by rw [hsplit]; rfl, ?_, ?_, ht1⟩
      · rw [fabricsAfter_cons _ _ _ _ _ _ _ _ hf0]; exact hbefore
      · rw [List.cons_append, fabricsAfter_cons _ _ _ _ _ _ _ _ hf0]; exact hafter
    have hhead : ∃ pre usage1 post fabric,
        usage :: rest = pre ++ usage1 :: post ∧
        findFabric (fabricsAfter env user product quantity pre fabrics) usage1.fabricId =
          some fabric ∧
        findFabric (fabricsAfter env user product quantity (pre ++ [usage1]) fabrics)
          usage1.fabricId = some (deductLine env.now product quantity usage1 fabric) ∧
        usageRecord env.now user product quantity usage f0 =
          usageRecord env.now user product quantity usage1 fabric := by
      refine ⟨[], usage, rest, f0, rfl, hf0, ?_, rfl⟩
      rw [List.nil_append, fabricsAfter_cons _ _ _ _ _ _ _ _ hf0, fabricsAfter_nil]
      exact findFabric_deductLine _ _ _ _ _ _ hf0
    by_cases hp : env.fabricTxPersists i = true
    · rw [if_pos hp] at hw1 ⊢
      refine ⟨usageRecord env.now user product quantity usage f0 :: written1, ?_, ?_⟩
      · rw [hw1]; simp
      · intro t ht
        rcases List.mem_cons.mp ht with h | h
        · rw [h]; exact hhead
        · exact hlater t h
    · rw [if_neg hp] at hw1 ⊢
      exact ⟨written1, hw1, hlater⟩

theorem countP_range_succ (p : Nat → Bool) (n : Nat) :
    (List.range (n + 1)).countP p =
      (if p 0 = true then 1 else 0) + (List.range n).countP (fun k => p (k + 1)) := by
  rw [List.range_succ_eq_map, List.countP_cons, List.countP_map]
  have : (p ∘ Nat.succ) = fun k => p (k + 1) := rfl
  rw [this]
  omega

/-- The second pass stores one record for each line whose save the store accepts. -/
theorem commitPass_txs_length (env : Env) (user : User) (product : Product) (quantity : Int)
    (lines : List FabricUsage) :
    ∀ (i : Nat) (fabrics : List Fabric) (txs : List FabricTransaction),
      (∀ usage ∈ lines, ∃ f, findFabric fabrics usage.fabricId = some f) →
      (commitPass env user product quantity lines i fabrics txs).2.2.length =
        txs.length + (List.range lines.length).countP (fun k => env.fabricTxPersists (i + k)) := by
  induction lines with
  | nil => intro i fabrics txs _; simp [commitPass]
  | cons usage rest ih =>
    intro i fabrics txs hex
    obtain ⟨f0, hf0⟩ := hex usage (List.mem_cons_self _ _)
    have hex1 : ∀ u ∈ rest, ∃ f, findFabric
        (writeFabric fabrics (deductLine env.now product quantity usage f0)) u.fabricId =
          some f :=
      fun u hu => exists_after_deductLine _ _ _ _ _ _ _ (hex u (List.mem_cons_of_mem _ hu))
    rw [commitPass_cons_some _ _ _ _ _ _ _ _ _ _ hf0, ih _ _ _ hex1, List.length_cons,
      countP_range_succ]
    have hshift : (fun k => env.fabricTxPersists (i + 1 + k)) =
        fun k => env.fabricTxPersists (i + (k + 1)) := by
      funext k
      rw [Nat.add_assoc, Nat.add_comm 1 k]
    rw [hshift]
    by_cases hp : env.fabricTxPersists i = true
    · simp [hp]; omega
    · simp [hp]

/-- The records of the second pass are the same whichever saves succeed: the log keeps
those whose save the store accepts. -/
theorem commitPass_records (now : Nat) (user : User) (product : Product) (quantity : Int)
    (lines : List FabricUsage) :
    ∀ fabrics : List Fabric, ∃ records : List FabricTransaction,
      records.length ≤ lines.length ∧
      ∀ (persists : Nat → Bool) (accepted : Bool) (i : Nat) (txs : List FabricTransaction),
        (commitPass
            { now := now, fabricTxPersists := persists, inventoryTxPersists := accepted }
            user product quantity lines i fabrics txs).2.2 =
          txs ++ keepPersisted persists i records := by
  induction lines with
  | nil =>
    intro fabrics
    exact ⟨[], le_refl _, fun _ _ _ _ => by simp [commitPass, keepPersisted]⟩
  | cons usage rest ih =>
    intro fabrics
    cases hfind : findFabric fabrics usage.fabricId with
    | none =>
      refine ⟨[], Nat.zero_le _, fun persists accepted i txs => ?_⟩
      rw [commitPass_cons_none _ _ _ _ _ _ _ _ _ hfind]
      simp [keepPersisted]
    | some f0 =>
      obtain ⟨records1, hlen, hrec⟩ :=
        ih (writeFabric fabrics (deductLine now product quantity usage f0))
      refine ⟨usageRecord now user product quantity usage f0 :: records1,
        by simp only [List.length_cons]; omega, fun persists accepted i txs => ?_⟩
      rw [commitPass_cons_some _ _ _ _ _ _ _ _ _ _ hfind]
      simp only
      rw [hrec]
      by_cases hp : persists i = true
      · simp [keepPersisted, hp]
      · simp [keepPersisted, hp]

theorem usedInProductsCount_cons (f : Fabric) (rest : List Fabric) :
    usedInProductsCount (f :: rest) = f.usedInProducts.length + usedInProductsCount rest := by
  simp [usedInProductsCount]

theorem usedInProductsCount_writeFabric (fabrics : List Fabric) (fabricId : String)
    (f saved : Fabric) (h : findFabric fabrics fabricId = some f)
    (hid : saved.fabricId = fabricId) :
    usedInProductsCount (writeFabric fabrics saved) + f.usedInProducts.length =
      usedInProductsCount fabrics + saved.usedInProducts.length := by
  induction fabrics with
  | nil => simp [findFabric] at h
  | cons d rest ih =>
    unfold findFabric at h ih
    by_cases hd : d.fabricId = fabricId
    · have hd2 : d.fabricId = saved.fabricId := by rw [hid]; exact hd
      have hdf : d = f := by
        have hb : (d.fabricId == fabricId) = true := by simpa using hd
        simp only [List.find?_cons, hb] at h
        exact Option.some.inj h
      simp only [writeFabric, beq_iff_eq, hd2, if_true, usedInProductsCount_cons]
      rw [hdf]
      omega
    · have hd2 : ¬ d.fabricId = saved.fabricId := by rw [hid]; exact hd
      have hb : (d.fabricId == fabricId) = false := by simpa using hd
      simp only [List.find?_cons, hb] at h
      simp only [writeFabric, beq_iff_eq, hd2, if_false, usedInProductsCount_cons]
      have := ih h
      omega

/-- The second pass pushes exactly one `usedInProducts` entry per line. -/
theorem fabricsAfter_usedCount (env : Env) (user : User) (product : Product) (quantity : Int)
    (lines : List FabricUsage) :
    ∀ fabrics : List Fabric,
      (∀ usage ∈ lines, ∃ f, findFabric fabrics usage.fabricId = some f) →
      usedInProductsCount (fabricsAfter env user product quantity lines fabrics) =
        usedInProductsCount fabrics + lines.length := by
  induction lines with
  | nil => intro fabrics _; rfl
  | cons usage rest ih =>
    intro fabrics hex
    obtain ⟨f0, hf0⟩ := hex usage (List.mem_cons_self _ _)
    have hex1 : ∀ u ∈ rest, ∃ f, findFabric
        (writeFabric fabrics (deductLine env.now product quantity usage f0)) u.fabricId =
          some f :=
      fun u hu => exists_after_deductLine _ _ _ _ _ _ _ (hex u (List.mem_cons_of_mem _ hu))
    rw [fabricsAfter_cons _ _ _ _ _ _ _ _ hf0, ih _ hex1]
    have hw := usedInProductsCount_writeFabric fabrics usage.fabricId f0
      (deductLine env.now product quantity usage f0) hf0
      (by rw [deductLine_fabricId]; exact findFabric_fabricId _ _ _ hf0)
    rw [deductLine_usedInProducts, List.length_append, List.length_singleton] at hw
    rw [List.length_cons]
    omega

/-- The entries that the second pass pushes on a fabric are those of the lines that
reference it, in order. -/
theorem fabricsAfter_usedEntries (env : Env) (user : User) (product : Product)
    (quantity : Int) (lines : List FabricUsage) :
    ∀ fabrics : List Fabric,
      (∀ usage ∈ lines, ∃ f, findFabric fabrics usage.fabricId = some f) →
      ∀ fabricId f, findFabric fabrics fabricId = some f →
        ∃ f1, findFabric (fabricsAfter env user product quantity lines fabrics) fabricId =
            some f1 ∧
          f1.usedInProducts = f.usedInProducts ++
            (lines.filter (fun usage => usage.fabricId == fabricId)).map
              (usedEntry env product quantity) := by
  induction lines with
  | nil =>
    intro fabrics _ fabricId f hf
    exact ⟨f, hf, by simp⟩
  | cons usage rest ih =>
    intro fabrics hex fabricId f hf
    obtain ⟨f0, hf0⟩ := hex usage (List.mem_cons_self _ _)
    have hex1 : ∀ u ∈ rest, ∃ f, findFabric
        (writeFabric fabrics (deductLine env.now product quantity usage f0)) u.fabricId =
          some f :=
      fun u hu => exists_after_deductLine _ _ _ _ _ _ _ (hex u (List.mem_cons_of_mem _ hu))
    rw [fabricsAfter_cons _ _ _ _ _ _ _ _ hf0]
    by_cases hsame : usage.fabricId = fabricId
    · have hff : f = f0 := by
        rw [← hsame, hf0] at hf
        exact (Option.some.inj hf).symm
      obtain ⟨f1, hf1, hu1⟩ := ih _ hex1 fabricId
        (deductLine env.now product quantity usage f0)
        (by rw [← hsame]; exact findFabric_deductLine _ _ _ _ _ _ hf0)
      refine ⟨f1, hf1, ?_⟩
      rw [hu1, deductLine_usedInProducts, hff]
      simp [List.filter_cons, hsame]
    · obtain ⟨f1, hf1, hu1⟩ := ih _ hex1 fabricId f
        (by
          rw [findFabric_writeFabric_other _ _ _
            (by rw [deductLine_fabricId, findFabric_fabricId _ _ _ hf0]; exact hsame)]
          exact hf)
      refine ⟨f1, hf1, ?_⟩
      rw [hu1]
      simp [List.filter_cons, hsame]

/-- C11. Every FabricTransaction written by the commit pass of a production request is
the record of one bill-of-materials line: its type is `usage`, its quantity is
`metersUsed * quantity` of the line, its `previousStock` is the `currentStock` of the
line's fabric as the earlier lines left it, its `newStock` is `previousStock - quantity`
and is the fabric's `currentStock` right after the line, and its `totalValue` is
`costPerMeter * quantity` with the fabric's `costPerMeter`. -/
theorem fabric_transaction_record (env : Env) (st : State) (req : Request) (user : User)
    (product : Product) (huser : req.user = some user)
    (hprod : findProduct st.products req.productId = some product)
    (hop : req.operation = "add") (hreason : req.reason = some "production")
    (hvalid : ∀ usage ∈ product.fabricUsed, ∃ fabric,
      findFabric st.fabrics usage.fabricId = some fabric ∧
        usage.metersUsed * req.quantity ≤ fabric.currentStock) :
    ∃ written,
      (patchStock env st req).2.fabricTxs = st.fabricTxs ++ written ∧
      ∀ t ∈ written, ∃ pre usage post fabric fabric1,
        product.fabricUsed = pre ++ usage :: post ∧
        findFabric (fabricsAfter env user product req.quantity pre st.fabrics)
          usage.fabricId = some fabric ∧
        findFabric (fabricsAfter env user product req.quantity (pre ++ [usage]) st.fabrics)
          usage.fabricId = some fabric1 ∧
        t.fabricId = usage.fabricId ∧
        t.type = "usage" ∧
        t.quantity = usage.metersUsed * req.quantity ∧
        t.previousStock = fabric.currentStock ∧
        t.newStock = t.previousStock - t.quantity ∧
        t.newStock = fabric1.currentStock ∧
        t.costPerMeter = fabric.costPerMeter ∧
        t.totalValue = fabric.costPerMeter * t.quantity := by
  obtain ⟨-, -, htxs⟩ :=
    patchStock_production env st req user product huser hprod hop hreason hvalid
  obtain ⟨written, hw, hall⟩ := commitPass_written env user product req.quantity
    product.fabricUsed 0 st.fabrics st.fabricTxs
    (fun usage hmem => (hvalid usage hmem).imp fun _ h => h.1)
  refine ⟨written, by rw [htxs, hw], ?_⟩
  intro t ht
  obtain ⟨pre, usage, post, fabric, hsplit, hbefore, hafter, hrec⟩ := hall t ht
  have hid : fabric.fabricId = usage.fabricId := findFabric_fabricId _ _ _ hbefore
  refine ⟨pre, usage, post, fabric, _, hsplit, hbefore, hafter, ?_, ?_, ?_, ?_, ?_, ?_, ?_, ?_⟩
  · rw [hrec]; simp only [usageRecord]; rw [deductLine_fabricId, hid]
  · rw [hrec]; rfl
  · rw [hrec]; simp only [usageRecord]; rw [jsOr_zero]
  · rw [hrec]; rfl
  · rw [hrec]; simp only [usageRecord]; rw [deductLine_currentStock, jsOr_zero]
  · rw [hrec]; rfl
  · rw [hrec]; simp only [usageRecord]; rw [deductLine_costPerMeter]
  · rw [hrec]; simp only [usageRecord]; rw [deductLine_costPerMeter]

theorem fabric_transaction_record_witness :
    (∀ usage ∈ (sampleProduct 8 [{ fabricId := "F1", metersUsed := 2 }]).fabricUsed,
      ∃ fabric, findFabric [sampleFabric 10] usage.fabricId = some fabric ∧
        usage.metersUsed * 3 ≤ fabric.currentStock) ∧
    (patchStock sampleEnv
      (sampleState (sampleProduct 8 [{ fabricId := "F1", metersUsed := 2 }]) [sampleFabric 10])
      (sampleRequest "add" 3 (some "production") none)).2.fabricTxs.map
        (fun t => (t.type, t.quantity, t.previousStock, t.newStock, t.totalValue)) =
      [("usage", 6, 10, 4, 600)] ∧
    ∃ written,
      (patchStock sampleEnv
        (sampleState (sampleProduct 8 [{ fabricId := "F1", metersUsed := 2 }])
          [sampleFabric 10])
        (sampleRequest "add" 3 (some "production") none)).2.fabricTxs = [] ++ written ∧
      ∀ t ∈ written, t.type = "usage" ∧ t.newStock = t.previousStock - t.quantity :=
  have hvalid : ∀ usage ∈ (sampleProduct 8 [{ fabricId := "F1", metersUsed := 2 }]).fabricUsed,
      ∃ fabric, findFabric [sampleFabric 10] usage.fabricId = some fabric ∧
        usage.metersUsed * 3 ≤ fabric.currentStock := by
    intro usage hmem
    have hu : usage = { fabricId := "F1", metersUsed := 2 } := by
      simpa [sampleProduct] using hmem
    subst hu
    exact ⟨sampleFabric 10, by decide, by decide⟩
  ⟨hvalid, by decide,
    (fabric_transaction_record sampleEnv
      (sampleState (sampleProduct 8 [{ fabricId := "F1", metersUsed := 2 }]) [sampleFabric 10])
      (sampleRequest "add" 3 (some "production") none) { role := none }
      (sampleProduct 8 [{ fabricId := "F1", metersUsed := 2 }]) rfl (by decide) rfl rfl
      hvalid).imp
      fun _ h => ⟨h.1, fun t ht =>
        let ⟨_, _, _, _, _, _, _, _, _, htype, _, _, hnew, _⟩ := h.2 t ht
        ⟨htype, hnew⟩⟩⟩

/-- C12, as the claim states it, fails: when the store rejects the FabricTransaction of
the single bill-of-materials line, the production request still succeeds and pushes its
`usedInProducts` entry, but no FabricTransaction is appended. -/
theorem production_without_record :
    (patchStock sampleEnvFailing
      (sampleState (sampleProduct 8 [{ fabricId := "F1", metersUsed := 2 }]) [sampleFabric 10])
      (sampleRequest "add" 3 (some "production") none)).1.isStockUpdated = true ∧
    (sampleProduct 8 [{ fabricId := "F1", metersUsed := 2 }]).fabricUsed.length = 1 ∧
    (patchStock sampleEnvFailing
      (sampleState (sampleProduct 8 [{ fabricId := "F1", metersUsed := 2 }]) [sampleFabric 10])
      (sampleRequest "add" 3 (some "production") none)).2.fabricTxs = [] ∧
    usedInProductsCount (patchStock sampleEnvFailing
      (sampleState (sampleProduct 8 [{ fabricId := "F1", metersUsed := 2 }]) [sampleFabric 10])
      (sampleRequest "add" 3 (some "production") none)).2.fabrics = 1 := by
  decide

/-- C12, amended. A successful production request on a product with `N`
bill-of-materials lines pushes exactly `N` `usedInProducts` entries in total, one per
line, on the fabric of the line, each carrying the product's `productId` and
`metersUsed = metersUsed * quantity`; it appends one FabricTransaction for each line whose
save the store accepts, so exactly `N` when no save throws and never more than `N`. When
`N = 0` the fabric store and the FabricTransaction log are left as they were and the stock
mutation proceeds. -/
theorem production_appends (env : Env) (st : State) (req : Request) (user : User)
    (product : Product) (huser : req.user = some user)
    (hprod : findProduct st.products req.productId = some product)
    (hop : req.operation = "add") (hreason : req.reason = some "production")
    (hvalid : ∀ usage ∈ product.fabricUsed, ∃ fabric,
      findFabric st.fabrics usage.fabricId = some fabric ∧
        usage.metersUsed * req.quantity ≤ fabric.currentStock) :
    (patchStock env st req).1.isStockUpdated = true ∧
    stockOf (patchStock env st req).2 req.productId = some (product.stock + req.quantity) ∧
    usedInProductsCount (patchStock env st req).2.fabrics =
      usedInProductsCount st.fabrics + product.fabricUsed.length ∧
    (∀ fabricId f, findFabric st.fabrics fabricId = some f →
      ∃ f1, findFabric (patchStock env st req).2.fabrics fabricId = some f1 ∧
        f1.usedInProducts = f.usedInProducts ++
          (product.fabricUsed.filter (fun usage => usage.fabricId == fabricId)).map
            (usedEntry env product req.quantity)) ∧
    (∃ written, (patchStock env st req).2.fabricTxs = st.fabricTxs ++ written ∧
      written.length = persistedCount env product.fabricUsed.length ∧
      written.length ≤ product.fabricUsed.length ∧
      ((∀ i, i < product.fabricUsed.length → env.fabricTxPersists i = true) →
        written.length = product.fabricUsed.length)) ∧
    (product.fabricUsed = [] →
      (patchStock env st req).2.fabrics = st.fabrics ∧
      (patchStock env st req).2.fabricTxs = st.fabricTxs) := by
  have hex : ∀ usage ∈ product.fabricUsed, ∃ f, findFabric st.fabrics usage.fabricId = some f :=
    fun usage hmem => (hvalid usage hmem).imp fun _ h => h.1
  obtain ⟨hfab, hfabrics, htxs⟩ :=
    patchStock_production env st req user product huser hprod hop hreason hvalid
  obtain ⟨saved, newStock, hnew, hstock, hid, hresp, hproducts, -⟩ :=
    patchStock_commit env st req user product huser hprod hfab
      (fun _ _ hsub => by rw [hop] at hsub; exact absurd hsub (by decide)) (Or.inl hop)
  obtain ⟨written, hw, -⟩ := commitPass_written env user product req.quantity
    product.fabricUsed 0 st.fabrics st.fabricTxs hex
  have hlen := commitPass_txs_length env user product req.quantity product.fabricUsed 0
    st.fabrics st.fabricTxs hex
  have hcount : written.length = persistedCount env product.fabricUsed.length := by
    rw [hw, List.length_append] at hlen
    unfold persistedCount
    simp only [Nat.zero_add] at hlen
    omega
  refine ⟨by rw [hresp]; rfl, ?_, ?_, ?_, ⟨written, by rw [htxs, hw], hcount, ?_, ?_⟩, ?_⟩
  · unfold stockOf
    rw [hproducts, findProduct_writeProduct _ _ _ _ hprod hid]
    simp [hstock, hnew, hop]
  · rw [hfabrics]
    exact fabricsAfter_usedCount env user product req.quantity _ _ hex
  · intro fabricId f hf
    rw [hfabrics]
    exact fabricsAfter_usedEntries env user product req.quantity _ _ hex fabricId f hf
  · rw [hcount]
    unfold persistedCount
    exact le_trans (List.countP_le_length _) (by rw [List.length_range])
  · intro hall
    rw [hcount]
    unfold persistedCount
    have : (List.range product.fabricUsed.length).countP (fun i => env.fabricTxPersists i) =
        (List.range product.fabricUsed.length).length := by
      rw [List.countP_eq_length]
      intro i hi
      exact hall i (List.mem_range.mp hi)
    rw [this, List.length_range]
  · intro hnil
    rw [hfabrics, htxs, hnil]
    exact ⟨rfl, rfl⟩

theorem production_appends_witness :
    (∀ usage ∈ (sampleProduct 8 [{ fabricId := "F1", metersUsed := 2 }]).fabricUsed,
      ∃ fabric, findFabric [sampleFabric 10] usage.fabricId = some fabric ∧
        usage.metersUsed * 3 ≤ fabric.currentStock) ∧
    usedInProductsCount (patchStock sampleEnv
      (sampleState (sampleProduct 8 [{ fabricId := "F1", metersUsed := 2 }]) [sampleFabric 10])
      (sampleRequest "add" 3 (some "production") none)).2.fabrics = 0 + 1 ∧
    ∃ written,
      (patchStock sampleEnv
        (sampleState (sampleProduct 8 [{ fabricId := "F1", metersUsed := 2 }])
          [sampleFabric 10])
        (sampleRequest "add" 3 (some "production") none)).2.fabricTxs = [] ++ written ∧
      written.length = 1 :=
  have hvalid : ∀ usage ∈ (sampleProduct 8 [{ fabricId := "F1", metersUsed := 2 }]).fabricUsed,
      ∃ fabric, findFabric [sampleFabric 10] usage.fabricId = some fabric ∧
        usage.metersUsed * 3 ≤ fabric.currentStock := by
    intro usage hmem
    have hu : usage = { fabricId := "F1", metersUsed := 2 } := by
      simpa [sampleProduct] using hmem
    subst hu
    exact ⟨sampleFabric 10, by decide, by decide⟩
  have h := production_appends sampleEnv
    (sampleState (sampleProduct 8 [{ fabricId := "F1", metersUsed := 2 }]) [sampleFabric 10])
    (sampleRequest "add" 3 (some "production") none) { role := none }
    (sampleProduct 8 [{ fabricId := "F1", metersUsed := 2 }]) rfl (by decide) rfl rfl hvalid
  ⟨hvalid, h.2.2.1,
    h.2.2.2.2.1.imp fun _ hw => ⟨hw.1, hw.2.2.2 (fun _ _ => rfl)⟩⟩

/-! ### When the fabric step runs, and what a failing audit save leaves -/

theorem validationPass_nil (fabrics : List Fabric) (quantity : Int)
    (lines : List FabricUsage) (h : validationPass fabrics quantity lines = []) :
    ∀ usage ∈ lines, ∃ fabric, findFabric fabrics usage.fabricId = some fabric ∧
      usage.metersUsed * quantity ≤ fabric.currentStock := by
  rw [validationPass_eq, List.map_eq_nil_iff, List.filter_eq_nil_iff] at h
  intro usage hmem
  have hns := h usage hmem
  cases hfind : findFabric fabrics usage.fabricId with
  | none => exact absurd ((lineShort_iff _ _ _).mpr (Or.inl hfind)) hns
  | some fabric =>
    refine ⟨fabric, rfl, ?_⟩
    by_contra hlt
    exact hns ((lineShort_iff _ _ _).mpr (Or.inr ⟨fabric, hfind, not_le.mp hlt⟩))

theorem commitStock_not_shortage (env : Env) (user : User) (product : Product)
    (req : Request) (previousStock newStock : Int) (st : State) (shortages : List Shortage) :
    (commitStock env user product req previousStock newStock st).1 ≠
      Response.notEnoughFabric shortages := by
  unfold commitStock
  cases hs : applySize req product with
  | ok product1 => simp
  | error response =>
    simp only
    unfold applySize at hs
    split at hs
    · split at hs
      · cases hs
      · next size sizeStock response1 hu =>
        cases hs
        unfold updateSizeStock at hu
        dsimp only at hu
        split_ifs at hu
        cases hu
        simp
    · cases hs

theorem mutateStock_not_shortage (env : Env) (user : User) (product : Product)
    (req : Request) (previousStock : Int) (st : State) (shortages : List Shortage) :
    (mutateStock env user product req previousStock st).1 ≠
      Response.notEnoughFabric shortages := by
  unfold mutateStock
  split_ifs
  · exact commitStock_not_shortage _ _ _ _ _ _ _ _
  · exact commitStock_not_shortage _ _ _ _ _ _ _ _
  · exact commitStock_not_shortage _ _ _ _ _ _ _ _
  · simp
  · simp
  · simp

/-- C17, as the claim states it, fails: a `set` with reason `production` on a product
whose bill of materials asks for 6 meters of a fabric that holds 5 is answered with
success, and the fabric store is left as it was: neither a shortage error nor a
deduction. -/
theorem production_set_skips_fabric :
    (sampleRequest "set" 3 (some "production") none).reason = some "production" ∧
    (sampleProduct 8 [{ fabricId := "F1", metersUsed := 2 }]).fabricUsed ≠ [] ∧
    validationPass [sampleFabric 5] 3 [{ fabricId := "F1", metersUsed := 2 }] =
      [Shortage.insufficient "Silk" "F1" 6 5] ∧
    (patchStock sampleEnv
      (sampleState (sampleProduct 8 [{ fabricId := "F1", metersUsed := 2 }]) [sampleFabric 5])
      (sampleRequest "set" 3 (some "production") none)).1.isStockUpdated = true ∧
    (patchStock sampleEnv
      (sampleState (sampleProduct 8 [{ fabricId := "F1", metersUsed := 2 }]) [sampleFabric 5])
      (sampleRequest "set" 3 (some "production") none)).2.fabrics = [sampleFabric 5] ∧
    (patchStock sampleEnv
      (sampleState (sampleProduct 8 [{ fabricId := "F1", metersUsed := 2 }]) [sampleFabric 5])
      (sampleRequest "set" 3 (some "production") none)).2.fabricTxs = [] := by
  decide

/-- C17, amended. For a stock update whose reason is `production` on a product with a
non-empty bill of materials, the fabric step runs exactly when the operation is `add`:
such a request is either answered with the shortage error, the store being left as it
was, or it succeeds after the second pass has deducted the fabric (every fabric ends at its
`currentStock` minus the meters its lines ask for) and the stock grows by the quantity.
With any other operation the fabric store and the FabricTransaction log are left as they
were and the answer is never the shortage error. -/
theorem production_add_consumes (env : Env) (st : State) (req : Request) (user : User)
    (product : Product) (huser : req.user = some user)
    (hprod : findProduct st.products req.productId = some product)
    (hreason : req.reason = some "production") :
    (req.operation = "add" →
      (∃ shortages, shortages ≠ [] ∧
        patchStock env st req = (Response.notEnoughFabric shortages, st)) ∨
      ((patchStock env st req).1.isStockUpdated = true ∧
        (patchStock env st req).2.fabrics =
          fabricsAfter env user product req.quantity product.fabricUsed st.fabrics ∧
        (∀ fabricId f, findFabric st.fabrics fabricId = some f →
          ∃ f1, findFabric (patchStock env st req).2.fabrics fabricId = some f1 ∧
            f1.currentStock =
              f.currentStock - consumedMeters product.fabricUsed req.quantity fabricId ∧
            f1.usedInProducts = f.usedInProducts ++
              (product.fabricUsed.filter (fun usage => usage.fabricId == fabricId)).map
                (usedEntry env product req.quantity)) ∧
        stockOf (patchStock env st req).2 req.productId =
          some (product.stock + req.quantity))) ∧
    (req.operation ≠ "add" →
      (patchStock env st req).2.fabrics = st.fabrics ∧
      (patchStock env st req).2.fabricTxs = st.fabricTxs ∧
      ∀ shortages, (patchStock env st req).1 ≠ Response.notEnoughFabric shortages) := by
  refine ⟨?_, ?_⟩
  · intro hop
    by_cases hnil : validationPass st.fabrics req.quantity product.fabricUsed = []
    · right
      have hvalid := validationPass_nil _ _ _ hnil
      have hex : ∀ usage ∈ product.fabricUsed,
          ∃ f, findFabric st.fabrics usage.fabricId = some f :=
        fun usage hmem => (hvalid usage hmem).imp fun _ h => h.1
      obtain ⟨hfab, hfabrics, -⟩ :=
        patchStock_production env st req user product huser hprod hop hreason hvalid
      obtain ⟨saved, newStock, hnew, hstock, hid, hresp, hproducts, -⟩ :=
        patchStock_commit env st req user product huser hprod hfab
          (fun _ _ hsub => by rw [hop] at hsub; exact absurd hsub (by decide)) (Or.inl hop)
      refine ⟨by rw [hresp]; rfl, hfabrics, ?_, ?_⟩
      · intro fabricId f hf
        obtain ⟨f1, hf1, hu1⟩ := fabricsAfter_usedEntries env user product req.quantity
          product.fabricUsed st.fabrics hex fabricId f hf
        obtain ⟨f2, hf2, hs2⟩ := (commitPass_spec env user product req.quantity
          product.fabricUsed 0 st.fabrics [] hex).2.2.1 fabricId f hf
        have hsame : f2 = f1 := by
          unfold fabricsAfter at hf1
          rw [hf2] at hf1
          exact Option.some.inj hf1
        rw [hfabrics]
        exact ⟨f1, hf1, by rw [← hsame]; exact hs2, hu1⟩
      · unfold stockOf
        rw [hproducts, findProduct_writeProduct _ _ _ _ hprod hid]
        simp [hstock, hnew, hop]
    · left
      exact ⟨_, hnil, patchStock_shortage env st req user product huser hprod hop hreason hnil⟩
  · intro hop
    have hfab := consumeFabric_not_production env user product req st (fun h => hop h.1)
    rw [patchStock_past_fabric env st req user product huser hprod (by rw [hfab]), hfab]
    exact ⟨mutateStock_fabrics _ _ _ _ _ _, mutateStock_fabricTxs _ _ _ _ _ _,
      fun shortages => mutateStock_not_shortage _ _ _ _ _ _ _⟩

theorem production_add_consumes_witness :
    (sampleRequest "add" 3 (some "production") none).reason = some "production" ∧
    (sampleProduct 8 [{ fabricId := "F1", metersUsed := 2 }]).fabricUsed ≠ [] ∧
    ((∃ shortages, shortages ≠ [] ∧
      patchStock sampleEnv
          (sampleState (sampleProduct 8 [{ fabricId := "F1", metersUsed := 2 }])
            [sampleFabric 5])
          (sampleRequest "add" 3 (some "production") none) =
        (Response.notEnoughFabric shortages,
          sampleState (sampleProduct 8 [{ fabricId := "F1", metersUsed := 2 }])
            [sampleFabric 5])) ∨
      (patchStock sampleEnv
        (sampleState (sampleProduct 8 [{ fabricId := "F1", metersUsed := 2 }])
          [sampleFabric 5])
        (sampleRequest "add" 3 (some "production") none)).1.isStockUpdated = true) :=
  ⟨rfl, by decide,
    ((production_add_consumes sampleEnv
      (sampleState (sampleProduct 8 [{ fabricId := "F1", metersUsed := 2 }]) [sampleFabric 5])
      (sampleRequest "add" 3 (some "production") none) { role := none }
      (sampleProduct 8 [{ fabricId := "F1", metersUsed := 2 }]) rfl (by decide)
      rfl).1 rfl).imp id fun h => h.1⟩

theorem savedProduct_now (env1 env2 : Env) (hnow : env1.now = env2.now) (req : Request)
    (product1 : Product) (newStock : Int) :
    savedProduct env1 req product1 newStock = savedProduct env2 req product1 newStock := by
  unfold savedProduct
  rw [hnow]

theorem commitStock_indep (env1 env2 : Env) (hnow : env1.now = env2.now) (user : User)
    (product : Product) (req : Request) (previousStock newStock : Int) (st1 st2 : State)
    (hp : st1.products = st2.products) :
    (commitStock env1 user product req previousStock newStock st1).1 =
      (commitStock env2 user product req previousStock newStock st2).1 ∧
    (commitStock env1 user product req previousStock newStock st1).2.products =
      (commitStock env2 user product req previousStock newStock st2).2.products := by
  unfold commitStock
  cases applySize req product with
  | error response => exact ⟨rfl, hp⟩
  | ok product1 =>
    simp only
    rw [savedProduct_now env1 env2 hnow, hp]
    exact ⟨rfl, rfl⟩

theorem mutateStock_indep (env1 env2 : Env) (hnow : env1.now = env2.now) (user : User)
    (product : Product) (req : Request) (previousStock : Int) (st1 st2 : State)
    (hp : st1.products = st2.products) :
    (mutateStock env1 user product req previousStock st1).1 =
      (mutateStock env2 user product req previousStock st2).1 ∧
    (mutateStock env1 user product req previousStock st1).2.products =
      (mutateStock env2 user product req previousStock st2).2.products := by
  unfold mutateStock
  split_ifs
  · exact commitStock_indep env1 env2 hnow _ _ _ _ _ _ _ hp
  · exact commitStock_indep env1 env2 hnow _ _ _ _ _ _ _ hp
  · exact commitStock_indep env1 env2 hnow _ _ _ _ _ _ _ hp
  · simp [hnow, hp]
  · simp [hnow, hp]
  · exact ⟨rfl, hp⟩

theorem consumeFabric_indep (env1 env2 : Env) (hnow : env1.now = env2.now) (user : User)
    (product : Product) (req : Request) (st : State) :
    (consumeFabric env1 user product req st).1 = (consumeFabric env2 user product req st).1 ∧
    (consumeFabric env1 user product req st).2.fabrics =
      (consumeFabric env2 user product req st).2.fabrics := by
  unfold consumeFabric
  dsimp only
  split_ifs
  · exact ⟨rfl, rfl⟩
  · obtain ⟨hflag, hfabrics⟩ := commitPass_fabrics_eq env1 env2 hnow user product req.quantity
      product.fabricUsed 0 0 st.fabrics st.fabricTxs st.fabricTxs
    generalize commitPass env1 user product req.quantity product.fabricUsed 0 st.fabrics
      st.fabricTxs = r1 at hflag hfabrics ⊢
    generalize commitPass env2 user product req.quantity product.fabricUsed 0 st.fabrics
      st.fabricTxs = r2 at hflag hfabrics ⊢
    obtain ⟨flag1, fabrics1, txs1⟩ := r1
    obtain ⟨flag2, fabrics2, txs2⟩ := r2
    simp only at hflag hfabrics
    subst hflag hfabrics
    cases flag1 <;> exact ⟨rfl, rfl⟩
  · exact ⟨rfl, rfl⟩
  · exact ⟨rfl, rfl⟩

theorem patchStock_fabrics_eq (env : Env) (st : State) (req : Request) (user : User)
    (product : Product) (huser : req.user = some user)
    (hprod : findProduct st.products req.productId = some product) :
    (patchStock env st req).2.fabrics = (consumeFabric env user product req st).2.fabrics ∧
    (patchStock env st req).2.fabricTxs =
      (consumeFabric env user product req st).2.fabricTxs := by
  cases hfab : (consumeFabric env user product req st).1 with
  | some response =>
    rw [patchStock_answered env st req user product response huser hprod hfab]
    exact ⟨rfl, rfl⟩
  | none =>
    rw [patchStock_past_fabric env st req user product huser hprod hfab]
    exact ⟨mutateStock_fabrics _ _ _ _ _ _, mutateStock_fabricTxs _ _ _ _ _ _⟩

theorem commitPass_records_env (now : Nat) (user : User) (product : Product)
    (quantity : Int) (lines : List FabricUsage) (fabrics : List Fabric) :
    ∃ records : List FabricTransaction,
      records.length ≤ lines.length ∧
      ∀ env : Env, env.now = now → ∀ (i : Nat) (txs : List FabricTransaction),
        (commitPass env user product quantity lines i fabrics txs).2.2 =
          txs ++ keepPersisted env.fabricTxPersists i records := by
  obtain ⟨records, hlen, hrec⟩ := commitPass_records now user product quantity lines fabrics
  refine ⟨records, hlen, ?_⟩
  intro env henv i txs
  subst henv
  exact hrec env.fabricTxPersists env.inventoryTxPersists i txs

theorem consumeFabric_records (now : Nat) (user : User) (product : Product) (req : Request)
    (st : State) :
    ∃ records : List FabricTransaction,
      records.length ≤ product.fabricUsed.length ∧
      ∀ env : Env, env.now = now →
        (consumeFabric env user product req st).2.fabricTxs =
          st.fabricTxs ++ keepPersisted env.fabricTxPersists 0 records := by
  obtain ⟨records, hlen, hrec⟩ := commitPass_records_env now user product req.quantity
    product.fabricUsed st.fabrics
  by_cases hrun : (req.operation = "add" ∧ req.reason = some "production") ∧
      product.fabricUsed.length > 0 ∧
      ¬ (validationPass st.fabrics req.quantity product.fabricUsed).length > 0
  · refine ⟨records, hlen, ?_⟩
    intro env henv
    have h := hrec env henv 0 st.fabricTxs
    unfold consumeFabric
    dsimp only
    rw [if_pos hrun.1, if_pos hrun.2.1, if_neg hrun.2.2]
    generalize commitPass env user product req.quantity product.fabricUsed 0 st.fabrics
      st.fabricTxs = r at h ⊢
    obtain ⟨flag, fabrics, txs⟩ := r
    cases flag <;> exact h
  · refine ⟨[], Nat.zero_le _, ?_⟩
    intro env _
    unfold consumeFabric
    dsimp only
    simp only [keepPersisted, List.append_nil]
    split_ifs with h1 h2 h3
    · rfl
    · exact absurd ⟨h1, h2, h3⟩ hrun
    · rfl
    · rfl

/-- C18. Audit-log failure never fails or rolls back the parent operation: under two
environments with the same clock, whichever FabricTransaction and InventoryTransaction
saves succeed or throw in each, a request gets the same answer and leaves the same
products (stock, `sizeStock`, status) and the same fabrics (every deduction of the commit
pass, for all its lines); the records of the commit pass are the same and each log keeps
those whose save succeeded. -/
theorem audit_failure_harmless (env1 env2 : Env) (hnow : env1.now = env2.now) (st : State)
    (req : Request) :
    (patchStock env1 st req).1 = (patchStock env2 st req).1 ∧
    (patchStock env1 st req).2.products = (patchStock env2 st req).2.products ∧
    (patchStock env1 st req).2.fabrics = (patchStock env2 st req).2.fabrics ∧
    ∃ records : List FabricTransaction,
      (patchStock env1 st req).2.fabricTxs =
        st.fabricTxs ++ keepPersisted env1.fabricTxPersists 0 records ∧
      (patchStock env2 st req).2.fabricTxs =
        st.fabricTxs ++ keepPersisted env2.fabricTxPersists 0 records := by
  cases huser : req.user with
  | none =>
    have h : ∀ env : Env, patchStock env st req = (Response.authenticationRequired, st) := by
      intro env; unfold patchStock; simp only [huser]
    rw [h env1, h env2]
    exact ⟨rfl, rfl, rfl, [], by simp [keepPersisted], by simp [keepPersisted]⟩
  | some user =>
    cases hprod : findProduct st.products req.productId with
    | none =>
      have h : ∀ env : Env, patchStock env st req = (Response.productNotFound, st) := by
        intro env; unfold patchStock; simp only [huser, hprod]
      rw [h env1, h env2]
      exact ⟨rfl, rfl, rfl, [], by simp [keepPersisted], by simp [keepPersisted]⟩
    | some product =>
      obtain ⟨hflag, hfabrics⟩ := consumeFabric_indep env1 env2 hnow user product req st
      obtain ⟨records, -, hrec⟩ := consumeFabric_records env1.now user product req st
      obtain ⟨hf1, ht1⟩ := patchStock_fabrics_eq env1 st req user product huser hprod
      obtain ⟨hf2, ht2⟩ := patchStock_fabrics_eq env2 st req user product huser hprod
      have hrest : (patchStock env1 st req).2.fabrics = (patchStock env2 st req).2.fabrics ∧
          ∃ records : List FabricTransaction,
            (patchStock env1 st req).2.fabricTxs =
              st.fabricTxs ++ keepPersisted env1.fabricTxPersists 0 records ∧
            (patchStock env2 st req).2.fabricTxs =
              st.fabricTxs ++ keepPersisted env2.fabricTxPersists 0 records :=
        ⟨by rw [hf1, hf2, hfabrics],
          records, by rw [ht1]; exact hrec env1 rfl, by rw [ht2]; exact hrec env2 hnow.symm⟩
      cases hfab : (consumeFabric env1 user product req st).1 with
      | some response =>
        have hfab2 : (consumeFabric env2 user product req st).1 = some response := by
          rw [← hflag]; exact hfab
        rw [patchStock_answered env1 st req user product response huser hprod hfab,
          patchStock_answered env2 st req user product response huser hprod hfab2] at hrest ⊢
        exact ⟨rfl, by simp only [consumeFabric_products], hrest⟩
      | none =>
        have hfab2 : (consumeFabric env2 user product req st).1 = none := by
          rw [← hflag]; exact hfab
        obtain ⟨hresp, hproducts⟩ := mutateStock_indep env1 env2 hnow user product req
          (jsOr product.stock 0) (consumeFabric env1 user product req st).2
          (consumeFabric env2 user product req st).2
          (by rw [consumeFabric_products, consumeFabric_products])
        rw [patchStock_past_fabric env1 st req user product huser hprod hfab,
          patchStock_past_fabric env2 st req user product huser hprod hfab2] at hrest ⊢
        exact ⟨hresp, hproducts, hrest⟩

theorem audit_failure_harmless_witness :
    sampleEnv.now = sampleEnvFailing.now ∧
    (patchStock sampleEnv
      (sampleState (sampleProduct 8 [{ fabricId := "F1", metersUsed := 2 }]) [sampleFabric 10])
      (sampleRequest "add" 3 (some "production") none)).1 =
    (patchStock sampleEnvFailing
      (sampleState (sampleProduct 8 [{ fabricId := "F1", metersUsed := 2 }]) [sampleFabric 10])
      (sampleRequest "add" 3 (some "production") none)).1 ∧
    (patchStock sampleEnv
      (sampleState (sampleProduct 8 [{ fabricId := "F1", metersUsed := 2 }]) [sampleFabric 10])
      (sampleRequest "add" 3 (some "production") none)).2.fabrics =
    (patchStock sampleEnvFailing
      (sampleState (sampleProduct 8 [{ fabricId := "F1", metersUsed := 2 }]) [sampleFabric 10])
      (sampleRequest "add" 3 (some "production") none)).2.fabrics :=
  have h := audit_failure_harmless sampleEnv sampleEnvFailing rfl
    (sampleState (sampleProduct 8 [{ fabricId := "F1", metersUsed := 2 }]) [sampleFabric 10])
    (sampleRequest "add" 3 (some "production") none)
  ⟨rfl, h.1, h.2.2.1⟩

/-! ### A discontinued status does not survive a save -/

theorem productPreSave1_status_cases (p : Product) :
    (productPreSave1 p).status = "in_stock" ∨ (productPreSave1 p).status = "low_stock" ∨
      (productPreSave1 p).status = "out_of_stock" := by
  unfold productPreSave1
  split_ifs
  · exact Or.inr (Or.inr rfl)
  · exact Or.inr (Or.inl rfl)
  · exact Or.inl rfl

theorem productPreSave1_status_indep (p : Product) (status : String) :
    (productPreSave1 { p with status := status }).status = (productPreSave1 p).status := by
  unfold productPreSave1
  dsimp only

theorem commitStock_persisted (env : Env) (user : User) (product : Product) (req : Request)
    (previousStock newStock : Int) (st : State) (saved : Product)
    (h : (commitStock env user product req previousStock newStock st).1.product? = some saved) :
    (commitStock env user product req previousStock newStock st).2.products =
      writeProduct st.products saved ∧
    saved.productId = product.productId := by
  cases hs : applySize req product with
  | error response =>
    exfalso
    have hne := commitStock_saved env user product req previousStock newStock st saved h
    unfold commitStock at h
    rw [hs] at h
    simp only at h
    unfold applySize at hs
    split at hs
    · split at hs
      · cases hs
      · next size sizeStock response1 hu =>
        cases hs
        unfold updateSizeStock at hu
        dsimp only at hu
        split_ifs at hu
        cases hu
        simp [Response.product?] at h
    · cases hs
  | ok product1 =>
    rw [commitStock_ok _ _ _ _ _ _ _ _ hs] at h ⊢
    simp only [Response.product?, Option.some.injEq] at h
    subst h
    refine ⟨rfl, ?_⟩
    rw [savedProduct_productId, applySize_frame req product product1 hs]

/-- An answer that carries a product carries the document that was written back. -/
theorem patchStock_persisted (env : Env) (st : State) (req : Request) (product saved : Product)
    (hprod : findProduct st.products req.productId = some product)
    (h : (patchStock env st req).1.product? = some saved) :
    findProduct (patchStock env st req).2.products req.productId = some saved := by
  have hid := findProduct_productId _ _ _ hprod
  cases huser : req.user with
  | none =>
    unfold patchStock at h
    simp only [huser] at h
    simp [Response.product?] at h
  | some user =>
    cases hfab : (consumeFabric env user product req st).1 with
    | some response =>
      exfalso
      rw [patchStock_answered env st req user product response huser hprod hfab] at h
      simp only at h
      unfold consumeFabric at hfab
      dsimp only at hfab
      split_ifs at hfab
      · cases hfab; simp [Response.product?] at h
      · split at hfab
        · cases hfab
        · cases hfab; simp [Response.product?] at h
    | none =>
      rw [patchStock_past_fabric env st req user product huser hprod hfab] at h ⊢
      have hfind : findProduct (consumeFabric env user product req st).2.products
          req.productId = some product := by rw [consumeFabric_products]; exact hprod
      unfold mutateStock at h ⊢
      split_ifs at h ⊢
      · obtain ⟨hp, hsid⟩ := commitStock_persisted _ _ _ _ _ _ _ _ h
        rw [hp]
        exact findProduct_writeProduct _ _ _ _ hfind (hsid.trans hid)
      · obtain ⟨hp, hsid⟩ := commitStock_persisted _ _ _ _ _ _ _ _ h
        rw [hp]
        exact findProduct_writeProduct _ _ _ _ hfind (hsid.trans hid)
      · obtain ⟨hp, hsid⟩ := commitStock_persisted _ _ _ _ _ _ _ _ h
        rw [hp]
        exact findProduct_writeProduct _ _ _ _ hfind (hsid.trans hid)
      · simp only [Response.product?, Option.some.injEq] at h
        subst h
        exact findProduct_writeProduct _ _ _ _ hfind
          (by rw [productPreSave_productId]; exact hid)
      · simp only [Response.product?, Option.some.injEq] at h
        subst h
        exact findProduct_writeProduct _ _ _ _ hfind
          (by rw [productPreSave_productId]; exact hid)
      · simp [Response.product?] at h

/-- C21. The derivation overwrites an explicitly set `discontinued` status: a save of a
product whose status is `discontinued` leaves a status among `in_stock`, `low_stock` and
`out_of_stock`, the one the stock level and the threshold give whatever the status was
(for `stock ≥ 0` the three-tier derivation); and after any request that the stock
handler answers with a product (`add`, `subtract`, `set`, `reserve`, `release`) the
persisted product is the one answered and its status is one of the three. -/
theorem discontinued_overwritten (now : Nat) (p : Product)
    (hdisc : p.status = "discontinued") :
    ((productPreSave now p).status = "in_stock" ∨ (productPreSave now p).status = "low_stock" ∨
      (productPreSave now p).status = "out_of_stock") ∧
    (productPreSave now p).status ≠ "discontinued" ∧
    (productPreSave now p).status ≠ p.status ∧
    (∀ status, (productPreSave now { p with status := status }).status =
      (productPreSave now p).status) ∧
    (0 ≤ p.stock → (productPreSave now p).status = deriveStatus p.stock p.lowStockAlert) ∧
    (∀ (env : Env) (st : State) (req : Request) (saved : Product),
      findProduct st.products req.productId = some p →
      (patchStock env st req).1.product? = some saved →
      findProduct (patchStock env st req).2.products req.productId = some saved ∧
      saved.status ≠ "discontinued" ∧
      (saved.status = "in_stock" ∨ saved.status = "low_stock" ∨
        saved.status = "out_of_stock")) := by
  have hcases : ∀ x : Product, (productPreSave now x).status = "in_stock" ∨
      (productPreSave now x).status = "low_stock" ∨
      (productPreSave now x).status = "out_of_stock" := by
    intro x
    rw [productPreSave_status]
    exact productPreSave1_status_cases x
  have hne : ∀ s : String, (s = "in_stock" ∨ s = "low_stock" ∨ s = "out_of_stock") →
      s ≠ "discontinued" := by
    intro s hs
    rcases hs with h | h | h <;> rw [h] <;> decide
  refine ⟨hcases p, hne _ (hcases p), by rw [hdisc]; exact hne _ (hcases p), ?_, ?_, ?_⟩
  · intro status
    rw [productPreSave_status, productPreSave_status, productPreSave1_status_indep]
  · intro h0
    rw [productPreSave_status, productPreSave1_status p h0]
  · intro env st req saved hprod hsaved
    obtain ⟨x, hx⟩ := patchStock_saved env st req saved hsaved
    have hthree : saved.status = "in_stock" ∨ saved.status = "low_stock" ∨
        saved.status = "out_of_stock" := by
      rw [hx, productPreSave_status]
      exact productPreSave1_status_cases x
    exact ⟨patchStock_persisted env st req p saved hprod hsaved, hne _ hthree, hthree⟩

theorem discontinued_overwritten_witness :
    ({ sampleProduct 8 [] with status := "discontinued" } : Product).status =
      "discontinued" ∧
    (productPreSave 7 { sampleProduct 8 [] with status := "discontinued" }).status =
      "in_stock" ∧
    (productPreSave 7 { sampleProduct 8 [] with status := "discontinued" }).status ≠
      "discontinued" ∧
    ((patchStock sampleEnv
      (sampleState { sampleProduct 8 [] with status := "discontinued" } [])
      (sampleRequest "reserve" 1 none none)).1.product?.map fun p => p.status) =
        some "in_stock" ∧
    ∀ saved, (patchStock sampleEnv
      (sampleState { sampleProduct 8 [] with status := "discontinued" } [])
      (sampleRequest "reserve" 1 none none)).1.product? = some saved →
        saved.status ≠ "discontinued" :=
  have h := discontinued_overwritten 7 { sampleProduct 8 [] with status := "discontinued" } rfl
  ⟨rfl, by decide, h.2.1, by decide,
    fun saved hsaved => (h.2.2.2.2.2 sampleEnv
      (sampleState { sampleProduct 8 [] with status := "discontinued" } [])
      (sampleRequest "reserve" 1 none none) saved (by decide) hsaved).2.1⟩

/-! ### The stock overview -/

theorem foldl_add_eq_sum (f : Product → Int) (l : List Product) :
    ∀ a : Int, l.foldl (fun sum product => sum + f product) a = a + (l.map f).sum := by
  induction l with
  | nil => intro a; simp
  | cons p rest ih =>
    intro a
    rw [List.foldl_cons, ih, List.map_cons, List.sum_cons]
    ring

/-- Three filters that split a list count all of it. -/
theorem filter_three_length (a b c : Product → Bool) (l : List Product)
    (h : ∀ p ∈ l, (a p = true ∧ b p = false ∧ c p = false) ∨
      (a p = false ∧ b p = true ∧ c p = false) ∨
      (a p = false ∧ b p = false ∧ c p = true)) :
    (l.filter a).length + (l.filter b).length + (l.filter c).length = l.length := by
  induction l with
  | nil => rfl
  | cons p rest ih =>
    have hrest := ih (fun x hx => h x (List.mem_cons_of_mem _ hx))
    rcases h p (List.mem_cons_self _ _) with ⟨ha, hb, hc⟩ | ⟨ha, hb, hc⟩ | ⟨ha, hb, hc⟩
    · simp only [List.filter_cons, ha, hb, hc, if_true, List.length_cons]
      simp only [Bool.false_eq_true, if_false]
      omega
    · simp only [List.filter_cons, ha, hb, hc, if_true, List.length_cons]
      simp only [Bool.false_eq_true, if_false]
      omega
    · simp only [List.filter_cons, ha, hb, hc, if_true, List.length_cons]
      simp only [Bool.false_eq_true, if_false]
      omega

/-- With a stock and a threshold `≥ 0`, a product passes exactly one of the three filters
of the overview. -/
theorem overview_filters_split (p : Product) (hstock : 0 ≤ p.stock)
    (halert : 0 ≤ p.lowStockAlert) :
    (decide (p.stock = 0) = true ∧
      (decide (p.stock > 0) && decide (p.stock ≤ jsOr p.lowStockAlert 5)) = false ∧
      decide (p.stock > jsOr p.lowStockAlert 5) = false) ∨
    (decide (p.stock = 0) = false ∧
      (decide (p.stock > 0) && decide (p.stock ≤ jsOr p.lowStockAlert 5)) = true ∧
      decide (p.stock > jsOr p.lowStockAlert 5) = false) ∨
    (decide (p.stock = 0) = false ∧
      (decide (p.stock > 0) && decide (p.stock ≤ jsOr p.lowStockAlert 5)) = false ∧
      decide (p.stock > jsOr p.lowStockAlert 5) = true) := by
  have ht : 0 ≤ jsOr p.lowStockAlert 5 := by
    unfold jsOr
    split
    · decide
    · exact halert
  by_cases h0 : p.stock = 0
  · left
    simp [h0, ht]
  · right
    have hpos : p.stock > 0 := lt_of_le_of_ne hstock (Ne.symm h0)
    by_cases hle : p.stock ≤ jsOr p.lowStockAlert 5
    · left
      simp [h0, hpos, hle]
    · right
      simp [h0, hpos, hle, not_le.mp hle]

/-- C22. Evaluation at one active product with stock 0 and a low-stock threshold of -1:
the overview counts it both as out of stock and as in stock, so the three counts add up
to 2 for one product, while the overview's own `stockStatus` entry and the status that the
Product pre-save hooks derive class it as `out_of_stock` only. -/
theorem overview_counts_twice :
    (∀ p ∈ [sampleThreshold 0 (-1)], p.isActive = true ∧ 0 ≤ p.stock) ∧
    (computeOverview [sampleThreshold 0 (-1)]).totalProducts = 1 ∧
    (computeOverview [sampleThreshold 0 (-1)]).outOfStock = 1 ∧
    (computeOverview [sampleThreshold 0 (-1)]).lowStock = 0 ∧
    (computeOverview [sampleThreshold 0 (-1)]).inStock = 1 ∧
    (computeOverview [sampleThreshold 0 (-1)]).outOfStock +
        (computeOverview [sampleThreshold 0 (-1)]).lowStock +
        (computeOverview [sampleThreshold 0 (-1)]).inStock ≠
      (computeOverview [sampleThreshold 0 (-1)]).totalProducts ∧
    (computeOverview [sampleThreshold 0 (-1)]).stockStatus.map (fun e => e.status) =
      ["out_of_stock"] ∧
    (productPreSave 7 (sampleThreshold 0 (-1))).status = "out_of_stock" := by
  decide

/-- When every active product has `stock ≥ 0` and `lowStockAlert ≥ 0`, the stock overview
is read-only and its counts partition the active products:
`outOfStock + lowStock + inStock = totalProducts`, every active product passes exactly one
of the three filters, `totalItems` is the sum of the stocks, `totalStockValue` is the sum
of `stock * costPrice`, and the store after the request is the store before it. -/
theorem overview_partition (user : User) (st : State)
    (hactive : ∀ p ∈ st.products, p.isActive = true → 0 ≤ p.stock ∧ 0 ≤ p.lowStockAlert) :
    getOverview (some user) st =
      (OverviewResponse.overview (computeOverview st.products), st) ∧
    (∀ caller : Option User, (getOverview caller st).2 = st) ∧
    (computeOverview st.products).outOfStock + (computeOverview st.products).lowStock +
        (computeOverview st.products).inStock =
      (computeOverview st.products).totalProducts ∧
    (computeOverview st.products).totalProducts =
      (st.products.filter (fun p => p.isActive)).length ∧
    (∀ p ∈ st.products, p.isActive = true →
      (p.stock = 0 ∧ ¬ (p.stock > 0 ∧ p.stock ≤ jsOr p.lowStockAlert 5) ∧
        ¬ p.stock > jsOr p.lowStockAlert 5) ∨
      (p.stock ≠ 0 ∧ (p.stock > 0 ∧ p.stock ≤ jsOr p.lowStockAlert 5) ∧
        ¬ p.stock > jsOr p.lowStockAlert 5) ∨
      (p.stock ≠ 0 ∧ ¬ (p.stock > 0 ∧ p.stock ≤ jsOr p.lowStockAlert 5) ∧
        p.stock > jsOr p.lowStockAlert 5)) ∧
    (computeOverview st.products).totalItems =
      ((st.products.filter (fun p => p.isActive)).map (fun p => p.stock)).sum ∧
    (computeOverview st.products).totalStockValue =
      ((st.products.filter (fun p => p.isActive)).map (fun p => p.stock * p.costPrice)).sum := by
  refine ⟨rfl, fun caller => by cases caller <;> rfl, ?_, rfl, ?_, ?_, ?_⟩
  · unfold computeOverview
    dsimp only
    apply filter_three_length
    intro p hp
    obtain ⟨hmem, hact⟩ := List.mem_filter.mp hp
    exact overview_filters_split p (hactive p hmem hact).1 (hactive p hmem hact).2
  · intro p hmem hact
    have h := overview_filters_split p (hactive p hmem hact).1 (hactive p hmem hact).2
    simp only [Bool.and_eq_true, Bool.and_eq_false_iff, decide_eq_true_eq,
      decide_eq_false_iff_not] at h
    rcases h with ⟨h1, h2, h3⟩ | ⟨h1, h2, h3⟩ | ⟨h1, h2, h3⟩
    · exact Or.inl ⟨h1, fun hh => h2.elim (fun x => x hh.1) (fun x => x hh.2), h3⟩
    · exact Or.inr (Or.inl ⟨h1, h2, h3⟩)
    · exact Or.inr (Or.inr ⟨h1, fun hh => h2.elim (fun x => x hh.1) (fun x => x hh.2), h3⟩)
  · unfold computeOverview
    dsimp only
    rw [foldl_add_eq_sum (fun p => jsOr p.stock 0), zero_add]
    simp only [jsOr_zero]
  · unfold computeOverview
    dsimp only
    rw [foldl_add_eq_sum (fun p => p.stock * jsOr p.costPrice 0), zero_add]
    simp only [jsOr_zero]

theorem overview_partition_witness :
    (∀ p ∈ (sampleState (sampleThreshold 3 0) []).products,
      p.isActive = true → 0 ≤ p.stock ∧ 0 ≤ p.lowStockAlert) ∧
    (computeOverview (sampleState (sampleThreshold 3 0) []).products).outOfStock +
        (computeOverview (sampleState (sampleThreshold 3 0) []).products).lowStock +
        (computeOverview (sampleState (sampleThreshold 3 0) []).products).inStock =
      (computeOverview (sampleState (sampleThreshold 3 0) []).products).totalProducts ∧
    (computeOverview (sampleState (sampleThreshold 3 0) []).products).totalStockValue =
      3 * 50 :=
  have h := overview_partition { role := none } (sampleState (sampleThreshold 3 0) [])
    (by decide)
  ⟨by decide, h.2.2.1, by decide⟩

/-- C24. Evaluation at an active product with stock 3 and `lowStockAlert = 0`: the
overview reports `low_stock` for it and counts it as low stock, while the status that the
Product pre-save hooks derive is `in_stock`. -/
theorem overview_threshold_zero :
    (sampleThreshold 3 0).isActive = true ∧ 0 ≤ (sampleThreshold 3 0).stock ∧
    (sampleThreshold 3 0).lowStockAlert = 0 ∧
    (computeOverview [sampleThreshold 3 0]).stockStatus.map (fun e => e.status) =
      ["low_stock"] ∧
    (computeOverview [sampleThreshold 3 0]).lowStock = 1 ∧
    (productPreSave 7 (sampleThreshold 3 0)).status = "in_stock" ∧
    deriveStatus (sampleThreshold 3 0).stock (sampleThreshold 3 0).lowStockAlert =
      "in_stock" := by
  decide

/-- Away from a threshold of 0 the overview and the Product hooks agree on the status. -/
theorem overview_status_agrees (now : Nat) (p : Product) (halert : p.lowStockAlert ≠ 0) :
    (stockStatusEntry p).status = (productPreSave now p).status := by
  rw [productPreSave_status]
  unfold stockStatusEntry productPreSave1 jsOr
  simp only [halert, if_false]
  split_ifs <;> rfl

/-! ### Aggregate stock and the size buckets -/

theorem sizeTotal_cons (e : SizeEntry) (rest : List SizeEntry) :
    sizeTotal (e :: rest) = e.stock + sizeTotal rest := by
  simp [sizeTotal]

theorem sizeTotal_setSizeStock (l : List SizeEntry) (size : String) (v : Int)
    (hex : ∃ e ∈ l, e.size = size) :
    sizeTotal (setSizeStock l size v) = sizeTotal l - sizeBucket l size + v := by
  induction l with
  | nil => obtain ⟨e, he, _⟩ := hex; exact absurd he (List.not_mem_nil _)
  | cons e rest ih =>
    unfold setSizeStock
    by_cases he : e.size = size
    · simp only [beq_iff_eq, he, if_true, sizeTotal_cons, sizeBucket_cons]
      ring
    · obtain ⟨x, hx, hxs⟩ := hex
      have hrest : ∃ y ∈ rest, y.size = size := by
        rcases List.mem_cons.mp hx with h | h
        · exact absurd (h ▸ hxs) he
        · exact ⟨x, h, hxs⟩
      simp only [beq_iff_eq, he, if_false, sizeTotal_cons, sizeBucket_cons, ih hrest]
      ring

theorem sizeTotal_push (l : List SizeEntry) (size : String) :
    sizeTotal (l ++ [{ size := size, stock := 0 }]) = sizeTotal l := by
  simp [sizeTotal]

theorem sizeBucket_le_sizeTotal (l : List SizeEntry) (size : String)
    (h : ∀ e ∈ l, 0 ≤ e.stock) : sizeBucket l size ≤ sizeTotal l := by
  induction l with
  | nil => simp [sizeBucket, sizeTotal]
  | cons e rest ih =>
    have he := h e (List.mem_cons_self _ _)
    have hrest := ih (fun x hx => h x (List.mem_cons_of_mem _ hx))
    have hnn : 0 ≤ sizeTotal rest := by
      unfold sizeTotal
      apply List.sum_nonneg
      intro x hx
      obtain ⟨y, hy, rfl⟩ := List.mem_map.mp hx
      exact h y (List.mem_cons_of_mem _ hy)
    rw [sizeBucket_cons, sizeTotal_cons]
    split_ifs
    · omega
    · omega

/-- C23, as the claim states it, fails: on a product with sizes M = 2 and L = 3 and
aggregate stock 5, a `set` of 4 for size M succeeds and leaves aggregate stock 4 while the
size buckets add up to 7. -/
theorem sized_set_breaks_total :
    sampleSized.stock = sizeTotal sampleSized.sizeStock ∧
    (∀ entry ∈ sampleSized.sizeStock, 0 ≤ entry.stock) ∧
    (patchStock sampleEnv (sampleState sampleSized [])
      (sampleRequest "set" 4 none (some "M"))).1.isStockUpdated = true ∧
    ((findProduct (patchStock sampleEnv (sampleState sampleSized [])
      (sampleRequest "set" 4 none (some "M"))).2.products "P").map
        fun p => (p.stock, sizeTotal p.sizeStock)) = some (4, 7) := by
  decide

/-- C23, amended. On a product whose aggregate stock equals the sum of its size buckets
(all `≥ 0`), a successful `add` or `subtract` for a size that has an entry leaves the
aggregate stock equal to the sum of the size buckets. A `set` for such a size writes the
quantity to both the aggregate stock and the bucket, so after it the sum of the buckets is
the aggregate stock plus what the other buckets hold, and the two agree exactly when the
other buckets held nothing. For a size that has no entry the request appends a bucket
that stays at 0 while the aggregate stock follows the operation, so the sum of the buckets
stays at the previous aggregate stock and the two agree exactly when the aggregate stock
did not change. -/
theorem sized_totals (env : Env) (st : State) (req : Request) (user : User)
    (product : Product) (size : String) (huser : req.user = some user)
    (hprod : findProduct st.products req.productId = some product)
    (hfab : (consumeFabric env user product req st).1 = none)
    (hsize : truthy req.size = some size)
    (hop : req.operation = "add" ∨ req.operation = "set" ∨
      (req.operation = "subtract" ∧ req.quantity ≤ sizeBucket product.sizeStock size))
    (htotal : product.stock = sizeTotal product.sizeStock)
    (hbuckets : ∀ entry ∈ product.sizeStock, 0 ≤ entry.stock) :
    ∃ saved,
      (patchStock env st req).1 = Response.stockUpdated saved saved.stock ∧
      findProduct (patchStock env st req).2.products req.productId = some saved ∧
      ((∃ e ∈ product.sizeStock, e.size = size) →
        (req.operation = "add" → saved.stock = sizeTotal saved.sizeStock) ∧
        (req.operation = "subtract" → saved.stock = sizeTotal saved.sizeStock) ∧
        (req.operation = "set" →
          saved.stock = req.quantity ∧
          sizeTotal saved.sizeStock =
            saved.stock + (sizeTotal product.sizeStock - sizeBucket product.sizeStock size) ∧
          (saved.stock = sizeTotal saved.sizeStock ↔
            sizeTotal product.sizeStock = sizeBucket product.sizeStock size))) ∧
      ((∀ e ∈ product.sizeStock, e.size ≠ size) →
        sizeBucket saved.sizeStock size = 0 ∧
        sizeTotal saved.sizeStock = product.stock ∧
        (req.operation = "add" → saved.stock = product.stock + req.quantity) ∧
        (req.operation = "subtract" → saved.stock = product.stock - req.quantity) ∧
        (req.operation = "set" → saved.stock = req.quantity) ∧
        (saved.stock = sizeTotal saved.sizeStock ↔ saved.stock = product.stock)) := by
  obtain ⟨saved, hresp, hfind, hstock, hcases⟩ :=
    patchStock_sized env st req user product size huser hprod hfab hsize hop
  have hq : req.operation = "subtract" →
      req.quantity ≤ sizeBucket product.sizeStock size := by
    intro h
    rcases hop with h1 | h1 | h1
    · rw [h1] at h; exact absurd h (by decide)
    · rw [h1] at h; exact absurd h (by decide)
    · exact h1.2
  have hle := sizeBucket_le_sizeTotal product.sizeStock size hbuckets
  refine ⟨saved, hresp, hfind, ?_, ?_⟩
  · intro hex
    rcases hcases with ⟨_, v, hss, hadd, hsub, hset⟩ | ⟨hno, _, _⟩
    · have hsum : sizeTotal saved.sizeStock =
          sizeTotal product.sizeStock - sizeBucket product.sizeStock size + v := by
        rw [hss]; exact sizeTotal_setSizeStock _ size v hex
      refine ⟨?_, ?_, ?_⟩
      · intro h
        rw [hsum, hadd h, hstock, if_pos h, htotal]
        ring
      · intro h
        have hna : req.operation ≠ "add" := by rw [h]; decide
        have hqle := hq h
        rw [hsum, hsub h, hstock, if_neg hna, if_pos h, htotal, max_eq_right (by omega)]
        ring
      · intro h
        have hna : req.operation ≠ "add" := by rw [h]; decide
        have hns : req.operation ≠ "subtract" := by rw [h]; decide
        have hst : saved.stock = req.quantity := by rw [hstock, if_neg hna, if_neg hns]
        refine ⟨hst, by rw [hsum, hset h, hst]; ring, ?_⟩
        rw [hsum, hset h, hst]
        constructor
        · intro heq; omega
        · intro heq; omega
    · obtain ⟨e, he, hes⟩ := hex
      exact absurd hes (hno e he)
  · intro hno
    rcases hcases with ⟨⟨e, he, hes⟩, _⟩ | ⟨_, hss, hneg⟩
    · exact absurd hes (hno e he)
    · have hsum : sizeTotal saved.sizeStock = product.stock := by
        rw [hss, sizeTotal_push, htotal]
      have hzero := (sizeBucket_push product.sizeStock size hno).2
      refine ⟨by rw [hss]; exact (sizeBucket_push _ size hno).1, hsum, ?_, ?_, ?_, ?_⟩
      · intro h
        rw [hstock, if_pos h]
      · intro h
        have hna : req.operation ≠ "add" := by rw [h]; decide
        have hqle := hneg h
        rw [hstock, if_neg hna, if_pos h, max_eq_right (by omega)]
      · intro h
        have hna : req.operation ≠ "add" := by rw [h]; decide
        have hns : req.operation ≠ "subtract" := by rw [h]; decide
        rw [hstock, if_neg hna, if_neg hns]
      · rw [hsum]

theorem sized_totals_witness :
    sampleSized.stock = sizeTotal sampleSized.sizeStock ∧
    (∀ entry ∈ sampleSized.sizeStock, 0 ≤ entry.stock) ∧
    (∃ saved,
      (patchStock sampleEnv (sampleState sampleSized [])
        (sampleRequest "subtract" 2 none (some "M"))).1 =
          Response.stockUpdated saved saved.stock ∧
      saved.stock = sizeTotal saved.sizeStock) ∧
    ∃ saved,
      (patchStock sampleEnv (sampleState sampleSized [])
        (sampleRequest "add" 3 none (some "XL"))).1 =
          Response.stockUpdated saved saved.stock ∧
      saved.stock = 5 + 3 ∧ sizeTotal saved.sizeStock = 5 :=
  ⟨by decide, by decide,
    (sized_totals sampleEnv (sampleState sampleSized [])
      (sampleRequest "subtract" 2 none (some "M")) { role := none } sampleSized "M" rfl
      (by decide) (by decide) (by decide) (Or.inr (Or.inr ⟨rfl, by decide⟩)) (by decide)
      (by decide)).imp
      fun _ h => ⟨h.1, (h.2.2.1 ⟨{ size := "M", stock := 2 }, by decide, rfl⟩).2.1 rfl⟩,
    (sized_totals sampleEnv (sampleState sampleSized [])
      (sampleRequest "add" 3 none (some "XL")) { role := none } sampleSized "XL" rfl
      (by decide) (by decide) (by decide) (Or.inl rfl) (by decide) (by decide)).imp
      fun _ h => ⟨h.1, (h.2.2.2 (by decide)).2.2.1 rfl, (h.2.2.2 (by decide)).2.1⟩⟩

/-! ### The second pass and the sign of the quantity -/

/-- Every lookup of the second pass finds its fabric when the fabrics of all lines exist
at the start. -/
theorem fabricsAfter_lookup (env : Env) (user : User) (product : Product) (quantity : Int)
    (fabrics : List Fabric) (pre : List FabricUsage) (usage : FabricUsage)
    (post : List FabricUsage)
    (hex : ∀ u ∈ pre ++ usage :: post, ∃ f, findFabric fabrics u.fabricId = some f) :
    ∃ fabric, findFabric (fabricsAfter env user product quantity pre fabrics)
      usage.fabricId = some fabric := by
  obtain ⟨f, hf⟩ := hex usage (by simp)
  obtain ⟨f1, hf1, -⟩ := (commitPass_spec env user product quantity pre 0 fabrics []
    (fun u hu => hex u (List.mem_append_left _ hu))).2.2.1 usage.fabricId f hf
  exact ⟨f1, hf1⟩

/-- C25. The commit pass never dereferences a missing fabric: on a production request
whose validation pass recorded no shortage, every lookup of the second pass, made on the
fabric store as the earlier lines left it, returns a fabric; the loop goes through all
bill-of-materials lines without throwing, and the request is answered with success. -/
theorem commit_pass_completes (env : Env) (st : State) (req : Request) (user : User)
    (product : Product) (huser : req.user = some user)
    (hprod : findProduct st.products req.productId = some product)
    (hop : req.operation = "add") (hreason : req.reason = some "production")
    (hnone : validationPass st.fabrics req.quantity product.fabricUsed = []) :
    (commitPass env user product req.quantity product.fabricUsed 0 st.fabrics
      st.fabricTxs).1 = true ∧
    (∀ pre usage post, product.fabricUsed = pre ++ usage :: post →
      ∃ fabric, findFabric (fabricsAfter env user product req.quantity pre st.fabrics)
        usage.fabricId = some fabric) ∧
    (patchStock env st req).1 ≠ Response.serverError ∧
    (patchStock env st req).1.isStockUpdated = true ∧
    (patchStock env st req).2.fabrics =
      fabricsAfter env user product req.quantity product.fabricUsed st.fabrics := by
  have hvalid := validationPass_nil _ _ _ hnone
  have hex : ∀ usage ∈ product.fabricUsed,
      ∃ f, findFabric st.fabrics usage.fabricId = some f :=
    fun usage hmem => (hvalid usage hmem).imp fun _ h => h.1
  obtain ⟨hfab, hfabrics, -⟩ :=
    patchStock_production env st req user product huser hprod hop hreason hvalid
  obtain ⟨saved, newStock, -, -, -, hresp, -, -⟩ :=
    patchStock_commit env st req user product huser hprod hfab
      (fun _ _ hsub => by rw [hop] at hsub; exact absurd hsub (by decide)) (Or.inl hop)
  refine ⟨(commitPass_spec env user product req.quantity product.fabricUsed 0 st.fabrics
    st.fabricTxs hex).1, ?_, by rw [hresp]; simp, by rw [hresp]; rfl, hfabrics⟩
  intro pre usage post hsplit
  exact fabricsAfter_lookup env user product req.quantity st.fabrics pre usage post
    (by rw [← hsplit]; exact hex)

theorem commit_pass_completes_witness :
    validationPass [sampleFabric 10, sampleLining 30] 3
      [{ fabricId := "F1", metersUsed := 2 }, { fabricId := "F2", metersUsed := 1 },
       { fabricId := "F1", metersUsed := 1 }] = [] ∧
    (commitPass sampleEnv { role := none }
      (sampleProduct 8 [{ fabricId := "F1", metersUsed := 2 },
        { fabricId := "F2", metersUsed := 1 }, { fabricId := "F1", metersUsed := 1 }])
      3 [{ fabricId := "F1", metersUsed := 2 }, { fabricId := "F2", metersUsed := 1 },
        { fabricId := "F1", metersUsed := 1 }] 0 [sampleFabric 10, sampleLining 30] []).1 =
      true ∧
    (patchStock sampleEnv
      (sampleState
        (sampleProduct 8 [{ fabricId := "F1", metersUsed := 2 },
          { fabricId := "F2", metersUsed := 1 }, { fabricId := "F1", metersUsed := 1 }])
        [sampleFabric 10, sampleLining 30])
      (sampleRequest "add" 3 (some "production") none)).1 ≠ Response.serverError :=
  have h := commit_pass_completes sampleEnv
    (sampleState
      (sampleProduct 8 [{ fabricId := "F1", metersUsed := 2 },
        { fabricId := "F2", metersUsed := 1 }, { fabricId := "F1", metersUsed := 1 }])
      [sampleFabric 10, sampleLining 30])
    (sampleRequest "add" 3 (some "production") none) { role := none }
    (sampleProduct 8 [{ fabricId := "F1", metersUsed := 2 },
      { fabricId := "F2", metersUsed := 1 }, { fabricId := "F1", metersUsed := 1 }])
    rfl (by decide) rfl rfl (by decide)
  ⟨by decide, h.1, h.2.2.1⟩

theorem consumedMeters_neg (lines : List FabricUsage) (quantity : Int) (fabricId : String) :
    consumedMeters lines (-quantity) fabricId = -consumedMeters lines quantity fabricId := by
  induction lines with
  | nil => simp [consumedMeters]
  | cons usage rest ih =>
    rw [consumedMeters_cons, consumedMeters_cons, ih]
    split_ifs
    · ring
    · ring

/-- C26. The quantity's sign is not validated by the production path: for a production
request with `quantity < 0` on a product whose bill-of-materials lines have
`metersUsed ≥ 0` and fabrics that exist with `currentStock ≥ 0`, the validation pass
records no shortage, the request succeeds, every fabric's `currentStock` grows by
`metersUsed * |quantity|` for each line that references it, and the product's aggregate
stock becomes `stock - |quantity|`, with no clamp at zero. -/
theorem negative_production (env : Env) (st : State) (req : Request) (user : User)
    (product : Product) (huser : req.user = some user)
    (hprod : findProduct st.products req.productId = some product)
    (hop : req.operation = "add") (hreason : req.reason = some "production")
    (hq : req.quantity < 0)
    (hbom : ∀ usage ∈ product.fabricUsed, 0 ≤ usage.metersUsed ∧
      ∃ fabric, findFabric st.fabrics usage.fabricId = some fabric ∧
        0 ≤ fabric.currentStock) :
    validationPass st.fabrics req.quantity product.fabricUsed = [] ∧
    (patchStock env st req).1.isStockUpdated = true ∧
    (∀ fabricId f, findFabric st.fabrics fabricId = some f →
      ∃ f1, findFabric (patchStock env st req).2.fabrics fabricId = some f1 ∧
        f1.currentStock =
          f.currentStock + consumedMeters product.fabricUsed |req.quantity| fabricId ∧
        0 ≤ consumedMeters product.fabricUsed |req.quantity| fabricId) ∧
    stockOf (patchStock env st req).2 req.productId = some (product.stock - |req.quantity|) := by
  have hvalid : ∀ usage ∈ product.fabricUsed, ∃ fabric,
      findFabric st.fabrics usage.fabricId = some fabric ∧
        usage.metersUsed * req.quantity ≤ fabric.currentStock := by
    intro usage hmem
    obtain ⟨hm, fabric, hfind, hstock⟩ := hbom usage hmem
    exact ⟨fabric, hfind,
      le_trans (mul_nonpos_of_nonneg_of_nonpos hm (le_of_lt hq)) hstock⟩
  have hex : ∀ usage ∈ product.fabricUsed,
      ∃ f, findFabric st.fabrics usage.fabricId = some f :=
    fun usage hmem => (hvalid usage hmem).imp fun _ h => h.1
  have habs : |req.quantity| = -req.quantity := abs_of_neg hq
  have hnil : validationPass st.fabrics req.quantity product.fabricUsed = [] := by
    rw [validationPass_eq, List.map_eq_nil_iff, List.filter_eq_nil_iff]
    intro usage hmem hshort
    obtain ⟨fabric, hfind, hle⟩ := hvalid usage hmem
    rcases (lineShort_iff _ _ _).mp hshort with hnone | ⟨f, hf, hlt⟩
    · rw [hfind] at hnone; cases hnone
    · rw [hfind] at hf
      cases hf
      exact absurd hlt (not_lt.mpr hle)
  obtain ⟨hfab, hfabrics, -⟩ :=
    patchStock_production env st req user product huser hprod hop hreason hvalid
  obtain ⟨saved, newStock, hnew, hstock, hid, hresp, hproducts, -⟩ :=
    patchStock_commit env st req user product huser hprod hfab
      (fun _ _ hsub => by rw [hop] at hsub; exact absurd hsub (by decide)) (Or.inl hop)
  refine ⟨hnil, by rw [hresp]; rfl, ?_, ?_⟩
  · intro fabricId f hf
    obtain ⟨f1, hf1, hs1⟩ := (commitPass_spec env user product req.quantity
      product.fabricUsed 0 st.fabrics [] hex).2.2.1 fabricId f hf
    rw [hfabrics]
    refine ⟨f1, hf1, ?_, ?_⟩
    · rw [hs1, habs, consumedMeters_neg]
      ring
    · unfold consumedMeters
      apply List.sum_nonneg
      intro x hx
      obtain ⟨usage, hu, rfl⟩ := List.mem_map.mp hx
      exact mul_nonneg (hbom usage (List.mem_of_mem_filter hu)).1 (abs_nonneg _)
  · unfold stockOf
    rw [hproducts, findProduct_writeProduct _ _ _ _ hprod hid]
    simp only [Option.map_some', hstock, hnew, hop, if_true, habs]
    congr 1
    ring

theorem negative_production_witness :
    (-10 : Int) < 0 ∧
    ((patchStock sampleEnv
        (sampleState (sampleProduct 8 [{ fabricId := "F1", metersUsed := 2 }])
          [sampleFabric 10])
        (sampleRequest "add" (-10) (some "production") none)).2.fabrics.map
      fun f => f.currentStock) = [10 + 2 * 10] ∧
    stockOf (patchStock sampleEnv
        (sampleState (sampleProduct 8 [{ fabricId := "F1", metersUsed := 2 }])
          [sampleFabric 10])
        (sampleRequest "add" (-10) (some "production") none)).2 "P" = some (8 - |(-10)|) :=
  have hbom : ∀ usage ∈ (sampleProduct 8 [{ fabricId := "F1", metersUsed := 2 }]).fabricUsed,
      0 ≤ usage.metersUsed ∧
      ∃ fabric, findFabric [sampleFabric 10] usage.fabricId = some fabric ∧
        0 ≤ fabric.currentStock := by
    intro usage hmem
    have hu : usage = { fabricId := "F1", metersUsed := 2 } := by
      simpa [sampleProduct] using hmem
    subst hu
    exact ⟨by decide, sampleFabric 10, by decide, by decide⟩
  ⟨by decide, by decide,
    (negative_production sampleEnv
      (sampleState (sampleProduct 8 [{ fabricId := "F1", metersUsed := 2 }]) [sampleFabric 10])
      (sampleRequest "add" (-10) (some "production") none) { role := none }
      (sampleProduct 8 [{ fabricId := "F1", metersUsed := 2 }]) rfl (by decide) rfl rfl
      (by decide) hbom).2.2.2⟩

end Ledger
